import Mathlib

/-!
# Wallet ledger and exchange engine (Foreground-Eclipse/transferer)

A shallow embedding of the balance store (`internal/storage/postgres/postgres.go`)
and of the balance, deposit, withdraw, exchange, registration and login handlers
(`internal/handlers`).

Modelling conventions

* Monetary amounts and rates are rationals, and the arithmetic has two readings.
  In the exact reading (`convertCurrencies`, `Storage`, `storage`,
  `HandleExchange`) no operation rounds; it serves the statements made in exact
  arithmetic and those that do not depend on the value computed.  In the machine
  reading (namespace `Machine`) a value assigned to the column
  `balance NUMERIC(19, 8)` is rounded to 8 decimal places or overflows
  (`numeric`), and the conversions and operations of `float64` are the parameter
  `Rounding`.
* A request struct holds the bound value of `Amount`: the `float32` or `float64`
  that the decoder made of the number in the body, as the rational it denotes.
* A Go `map[string]T` is a function `String → Option T`; indexing a map at a key
  that is absent yields the zero value, here `(m k).getD 0`.
* A Go `error` is an `Option String` holding the text of `err.Error()`.
* The two SQL tables are lists of rows.  A statement acts on every row its
  `WHERE` clause selects.  The `UNIQUE` and `PRIMARY KEY` constraints of the
  schema are the predicate `WF`.
* `c.BindJSON` is the decoding of the body followed by the `binding:"required"`
  tags of the request struct, which reject the zero value of a field.
* Functions of other packages (bcrypt, the JWT library) and the value of the
  identity column of `users` are parameters.
* Faults of the database connection are not part of `Storage`; the handlers are
  written against the interface `Exchanger`, whose implementations may fail in
  any way they like.
-/

namespace Transferer

/-! ## Data model -/

/-- A Go `map[string]float64`, as returned by `GetUserBalance`. -/
abbrev Balances := String → Option ℚ

/-- The `Rates` field of `pb.ExchangeRatesResponse`, a `map[string]float32`; a
rate is the rational the `float32` denotes. -/
abbrev Rates := String → Option ℚ

/-- Indexing a Go map: the zero value when the key is absent. -/
def index (m : String → Option ℚ) (k : String) : ℚ := (m k).getD 0

/-- A row of table `users`. -/
structure UserRow where
  id : Nat
  username : String
  password_hash : String
  email : String
  deriving DecidableEq

/-- A row of table `wallets`. -/
structure WalletRow where
  user_id : Nat
  currency : String
  balance : ℚ
  deriving DecidableEq

/-- The database behind `Storage`. -/
structure DB where
  users : List UserRow
  wallets : List WalletRow
  deriving DecidableEq

/-- The constraints of the schema: `users.ID` is a primary key, `users.username`
is `UNIQUE`, and `wallets` is `UNIQUE (user_id, currency)`. -/
def WF (db : DB) : Prop :=
  (db.users.map fun u => u.id).Nodup ∧
  (db.users.map fun u => u.username).Nodup ∧
  (db.wallets.map fun w => (w.user_id, w.currency)).Nodup

instance (db : DB) : Decidable (WF db) := by
  unfold WF; infer_instance

/-! ## `convertCurrencies` (handlers/exchange.go) -/

/-- The function `convertCurrencies`, in exact arithmetic: both rates are looked
up under the key `RUB_<code>`; the result is the Go pair `(float64, error)`.
(`Machine.convertCurrencies` rounds the quotient and the product to `float64`.) -/
def convertCurrencies (fromCurrency toCurrency : String) (amount : ℚ)
    (response : Rates) : ℚ × Option String :=
  let fromRateKey := "RUB_" ++ fromCurrency
  match response fromRateKey with
  | none => (0, some ("курс для валюты " ++ fromCurrency ++ " не найден"))
  | some fromRate =>
    let toRateKey := "RUB_" ++ toCurrency
    match response toRateKey with
    | none => (0, some ("курс для валюты " ++ toCurrency ++ " не найден"))
    | some toRate =>
      let amountInRUB := amount / fromRate
      let amountInToCurrency := amountInRUB * toRate
      (amountInToCurrency, none)

/-- The rate table of the handler tests: `RUB_USD` 0.012 and `RUB_EUR` 0.011. -/
def testRates : Rates := fun k =>
  if k = "RUB_USD" then some (12 / 1000)
  else if k = "RUB_EUR" then some (11 / 1000)
  else none

/-! ## The balance store (storage/postgres/postgres.go) -/

namespace Storage

/-- The rows of `wallets w JOIN users u ON w.user_id = u.id WHERE u.username = $1`:
one copy of the wallet row for every user row it joins with. -/
def joined (username : String) (db : DB) : List WalletRow :=
  db.wallets.flatMap fun w =>
    (db.users.filter fun u => w.user_id = u.id ∧ u.username = username).map fun _ => w

/-- The method `Storage.GetUserBalance`: `SELECT w.currency, SUM(w.balance) ...
GROUP BY w.currency`, every result row stored in the map under its currency.
(Exact reading: the sum is returned as it is stored; `Machine.GetUserBalance`
reads it into a `float64`.) -/
def GetUserBalance (username : String) (db : DB) : Except String Balances :=
  let rows := joined username db
  Except.ok fun currency =>
    let group := rows.filter fun w => w.currency = currency
    if group = [] then none else some (group.map fun w => w.balance).sum

/-- The method `Storage.UpdateUsersBalance`.  The existence check runs outside the
transaction; inside it the user id is read and
`UPDATE wallets SET balance = balance + $1 WHERE user_id = $2 AND currency = $3`
is executed.  When no row was affected the error is returned while the local
`err` is still nil, so the deferred function commits the (empty) update.
(Exact reading: the sum is stored as it is; `Machine.UpdateUsersBalance` assigns
it to the column `NUMERIC(19, 8)`.) -/
def UpdateUsersBalance (username currency : String) (amount : ℚ) (db : DB) :
    Option String × DB :=
  let op := "storage.postgres.UpdateUsersBalance"
  let userExists := db.users.any fun u => u.username = username
  if !userExists then
    (some (op ++ ": user " ++ username ++ " does not exist"), db)
  else
    match db.users.find? fun u => u.username = username with
    | none => (some (op ++ ": failed to get user_id: sql: no rows in result set"), db)
    | some u =>
      let userID := u.id
      let rowsAffected := db.wallets.countP fun w => w.user_id = userID ∧ w.currency = currency
      let updated := db.wallets.map fun w =>
        if w.user_id = userID ∧ w.currency = currency then
          { w with balance := w.balance + amount }
        else w
      if rowsAffected = 0 then
        (some (op ++ ": No wallet found for user " ++ username ++ " and currency " ++ currency),
          { db with wallets := updated })
      else
        (none, { db with wallets := updated })

end Storage

/-! ## The handlers (internal/handlers) -/

/-- The interfaces `Exchanger`, `BalanceUpdater` and `BalanceWithdrawer` (one
method set), over the state `σ` of the implementation. -/
structure Exchanger (σ : Type) where
  GetUserBalance : String → σ → Except String Balances × σ
  UpdateUsersBalance : String → String → ℚ → σ → Option String × σ

/-- The implementation `*postgres.Storage` of the interface, in the exact
reading. -/
def storage : Exchanger DB where
  GetUserBalance username db := (Storage.GetUserBalance username db, db)
  UpdateUsersBalance := Storage.UpdateUsersBalance

/-- A call of a method of the store. -/
inductive Call
  | GetUserBalance (username : String)
  | UpdateUsersBalance (username currency : String) (amount : ℚ)
  deriving DecidableEq

/-- An implementation together with the journal of the calls made to it. -/
def recorded {σ : Type} (ex : Exchanger σ) : Exchanger (σ × List Call) where
  GetUserBalance username s :=
    let r := ex.GetUserBalance username s.1
    (r.1, (r.2, s.2 ++ [Call.GetUserBalance username]))
  UpdateUsersBalance username currency amount s :=
    let r := ex.UpdateUsersBalance username currency amount s.1
    (r.1, (r.2, s.2 ++ [Call.UpdateUsersBalance username currency amount]))

/-- The number of `UpdateUsersBalance` calls in a journal. -/
def updateCalls (journal : List Call) : Nat :=
  journal.countP fun c =>
    match c with
    | Call.UpdateUsersBalance _ _ _ => true
    | Call.GetUserBalance _ => false

/-- The struct `requests.ExchangeRequest`; `Amount` is the bound `float64`. -/
structure ExchangeRequest where
  FromCurrency : String
  ToCurrency : String
  Amount : ℚ
  deriving DecidableEq

/-- The struct `requests.DepositRequest`; `Amount` is the bound `float32`. -/
structure DepositRequest where
  Amount : ℚ
  Currency : String
  deriving DecidableEq

/-- The struct `requests.WithdrawRequest`; `Amount` is the bound `float32`. -/
structure WithdrawRequest where
  Amount : ℚ
  Currency : String
  deriving DecidableEq

/-- The outcome of `c.BindJSON(&req)`: the bound request, the error `io.EOF`
(empty body), or any other error. -/
inductive Bind (α : Type)
  | ok (req : α)
  | eof
  | invalid

/-- A JSON body written with `c.JSON`. -/
inductive Body
  | error (err : String)
  | exchange (message : String) (exchanged_amount : ℚ) (new_balance : Balances)
  | deposit (message : String) (balance : Balances)
  | balance (balance : Balances)
  | message (message : String)
  | token (token : String)

/-- A call `c.JSON(status, body)`. -/
structure Response where
  status : Nat
  body : Body

/-- The function `logError`: writes `{"status": "error", "error": err.Error()}`. -/
def logError (err : String) (status : Nat) : Response :=
  ⟨status, Body.error err⟩

/-- The function `utils.VerifyWithdrawalAmount`. -/
def VerifyWithdrawalAmount (amount balance : ℚ) : Option String :=
  if amount > balance then some "not enough money to withdraw" else none

/-- The handler `HandleExchange`.  `ValidateToken` is `jwt.ValidateToken`,
`GetExchangeRates` the outcome of the call `client.GetExchangeRates`; the result
is the list of responses written, in order, and the final state of the store.
(`json.Marshal` of a bound request cannot fail and is left out.  The conversion
is `convertCurrencies`, in exact arithmetic; `Machine.HandleExchange` computes
it in `float64`.) -/
def HandleExchange {σ : Type} (ValidateToken : String → Except String String)
    (GetExchangeRates : Except String Rates) (exchanger : Exchanger σ)
    (body : Bind ExchangeRequest) (tokenString : String) (s : σ) : List Response × σ :=
  match body with
  | Bind.eof =>
    ([logError "empty json" 400, logError "request contains wrong data" 400], s)
  | Bind.invalid => ([logError "request contains wrong data" 400], s)
  | Bind.ok req =>
    if tokenString = "" then ([logError "not authorized" 401], s)
    else
      match ValidateToken tokenString with
      | Except.error err => ([logError err 401], s)
      | Except.ok username =>
        match GetExchangeRates with
        | Except.error _ => ([logError "failed to retrieve exchange rates" 500], s)
        | Except.ok response =>
          match exchanger.GetUserBalance username s with
          | (Except.error err, s1) => ([logError err 500], s1)
          | (Except.ok balance, s1) =>
            if index balance req.FromCurrency < req.Amount then
              ([logError "not enough money" 200], s1)
            else
              match exchanger.UpdateUsersBalance username req.FromCurrency (req.Amount * -1) s1 with
              | (some err, s2) => ([logError err 500], s2)
              | (none, s2) =>
                match convertCurrencies req.FromCurrency req.ToCurrency req.Amount response with
                | (_, some err) => ([logError err 500], s2)
                | (toAdd, none) =>
                  match exchanger.UpdateUsersBalance username req.ToCurrency toAdd s2 with
                  | (some err, s3) => ([logError err 500], s3)
                  | (none, s3) =>
                    match exchanger.GetUserBalance username s3 with
                    | (Except.error err, s4) => ([logError err 500], s4)
                    | (Except.ok newBalance, s4) =>
                      ([⟨200, Body.exchange "exchanged successfully" toAdd newBalance⟩], s4)

/-- The handler `HandleDeposit`. -/
def HandleDeposit {σ : Type} (ValidateToken : String → Except String String)
    (balanceUpdater : Exchanger σ) (body : Bind DepositRequest) (tokenString : String)
    (s : σ) : List Response × σ :=
  match body with
  | Bind.eof =>
    ([logError "empty json" 400, logError "request contains wrong data" 400], s)
  | Bind.invalid => ([logError "request contains wrong data" 400], s)
  | Bind.ok req =>
    if tokenString = "" then ([logError "not authorized" 401], s)
    else
      match ValidateToken tokenString with
      | Except.error err => ([logError err 401], s)
      | Except.ok username =>
        match balanceUpdater.UpdateUsersBalance username req.Currency req.Amount s with
        | (some err, s1) => ([logError err 200], s1)
        | (none, s1) =>
          match balanceUpdater.GetUserBalance username s1 with
          | (Except.error err, s2) => ([logError err 200], s2)
          | (Except.ok balance, s2) =>
            ([⟨200, Body.deposit "Account topped up successfully" balance⟩], s2)

/-- The handler `HandleWithdraw`. -/
def HandleWithdraw {σ : Type} (ValidateToken : String → Except String String)
    (balanceWithdrawer : Exchanger σ) (body : Bind WithdrawRequest) (tokenString : String)
    (s : σ) : List Response × σ :=
  match body with
  | Bind.eof =>
    ([logError "empty json" 400, logError "request contains wrong data" 400], s)
  | Bind.invalid => ([logError "request contains wrong data" 400], s)
  | Bind.ok req =>
    if tokenString = "" then ([logError "not authorized" 401], s)
    else
      match ValidateToken tokenString with
      | Except.error err => ([logError err 401], s)
      | Except.ok username =>
        match balanceWithdrawer.GetUserBalance username s with
        | (Except.error err, s1) => ([logError err 200], s1)
        | (Except.ok balance, s1) =>
          match VerifyWithdrawalAmount req.Amount (index balance req.Currency) with
          | some err => ([logError err 200], s1)
          | none =>
            match balanceWithdrawer.UpdateUsersBalance username req.Currency (req.Amount * -1) s1 with
            | (some err, s2) => ([logError err 200], s2)
            | (none, s2) =>
              match balanceWithdrawer.GetUserBalance username s2 with
              | (Except.error err, s3) => ([logError err 200], s3)
              | (Except.ok balance, s3) =>
                ([⟨200, Body.deposit "Withdrawal successfull" balance⟩], s3)

/-- The interface `BalanceGetter` of `HandleBalance`. -/
structure BalanceGetter (σ : Type) where
  GetUserBalance : String → σ → Except String Balances × σ

/-- Every implementation of `Exchanger` implements `BalanceGetter`. -/
def Exchanger.getter {σ : Type} (ex : Exchanger σ) : BalanceGetter σ where
  GetUserBalance := ex.GetUserBalance

/-- The handler `HandleBalance`; the body of the success response is
`requests.BalanceResponse`. -/
def HandleBalance {σ : Type} (ValidateToken : String → Except String String)
    (balanceGetter : BalanceGetter σ) (tokenString : String) (s : σ) : List Response × σ :=
  if tokenString = "" then ([logError "not authorized" 401], s)
  else
    match ValidateToken tokenString with
    | Except.error err => ([logError err 401], s)
    | Except.ok username =>
      match balanceGetter.GetUserBalance username s with
      | (Except.error err, s1) => ([logError err 200], s1)
      | (Except.ok balance, s1) => ([⟨200, Body.balance balance⟩], s1)

/-! ## Binding a request (`c.BindJSON` and the struct tags of api/requests) -/

/-- The body of a request as `encoding/json` reads it: empty (the decoder reports
`io.EOF`), not decodable into the struct, or decoded, a field the body does not
mention being left at the zero value of its type. -/
inductive Payload (α : Type)
  | empty
  | malformed
  | decoded (req : α)

/-- The tags `binding:"required"` of `requests.ExchangeRequest`: no field holds
the zero value of its type. -/
def ExchangeRequest.required (req : ExchangeRequest) : Bool :=
  decide (req.FromCurrency ≠ "") && decide (req.ToCurrency ≠ "") && decide (req.Amount ≠ 0)

/-- The tags `binding:"required"` of `requests.DepositRequest`. -/
def DepositRequest.required (req : DepositRequest) : Bool :=
  decide (req.Amount ≠ 0) && decide (req.Currency ≠ "")

/-- The tags `binding:"required"` of `requests.WithdrawRequest`. -/
def WithdrawRequest.required (req : WithdrawRequest) : Bool :=
  decide (req.Amount ≠ 0) && decide (req.Currency ≠ "")

/-- The call `c.BindJSON(&req)`: the body is decoded, then the struct is
validated against its `binding` tags. -/
def BindJSON {α : Type} (required : α → Bool) (body : Payload α) : Bind α :=
  match body with
  | Payload.empty => Bind.eof
  | Payload.malformed => Bind.invalid
  | Payload.decoded req => if required req then Bind.ok req else Bind.invalid

/-- The currencies a wallet is created for in `Storage.RegisterUser`. -/
def currencies : List String := ["USD", "EUR", "RUB"]

/-- Every wallet row is in one of the currencies of `RegisterUser`. -/
def Provisioned (db : DB) : Prop := ∀ w ∈ db.wallets, w.currency ∈ currencies

/-! ## Registration and login (handlers/register.go, handlers/login.go) -/

namespace Storage

/-- The loop of `RegisterUser` over the currencies:
`INSERT INTO wallets (user_id, currency) VALUES ($1, $2)`, the balance taking its
default 0.  An insert fails on a row that breaks `UNIQUE (user_id, currency)`;
the result is then the currency at which the loop stopped. -/
def insertWallets (userID : Nat) : List String → List WalletRow → Except String (List WalletRow)
  | [], ws => Except.ok ws
  | currency :: rest, ws =>
    if ws.any fun w => w.user_id = userID ∧ w.currency = currency then
      Except.error currency
    else insertWallets userID rest (ws ++ [⟨userID, currency, 0⟩])

/-- The method `Storage.RegisterUser`, one transaction.  `userID` is the value the
identity column yields for `RETURNING ID`.  The insert of the user fails on a
row that breaks the primary key or one of the two `UNIQUE` constraints; every
failure leaves the local `err` set, so the deferred function rolls back.  (The
text of the driver's error is shortened to `duplicate key`.) -/
def RegisterUser (userID : Nat) (username passwordHash email : String) (db : DB) :
    Option String × DB :=
  let op := "storage.postgres.RegisterUser"
  if db.users.any fun u => u.id = userID ∨ u.username = username ∨ u.email = email then
    (some (op ++ ": insert user: duplicate key"), db)
  else
    let users := db.users ++ [⟨userID, username, passwordHash, email⟩]
    match insertWallets userID ["USD", "EUR", "RUB"] db.wallets with
    | Except.error currency =>
      (some (op ++ ": insert wallet for " ++ currency ++ ": duplicate key"), db)
    | Except.ok wallets => (none, { users := users, wallets := wallets })

/-- The method `Storage.GetUsersPassHash`:
`SELECT password_hash FROM users WHERE username = $1`, scanned from the first
row; without a row the scan reports `sql: no rows in result set`. -/
def GetUsersPassHash (username : String) (db : DB) : String × Option String :=
  match db.users.find? fun u => u.username = username with
  | none => ("", some "storage.postgres.GetUsersPassHash :sql: no rows in result set")
  | some u => (u.password_hash, none)

end Storage

/-- The struct `requests.RegisterRequest`. -/
structure RegisterRequest where
  Username : String
  Password : String
  Email : String
  deriving DecidableEq

/-- The struct `requests.LoginRequest`. -/
structure LoginRequest where
  Username : String
  Password : String
  deriving DecidableEq

/-- The interface `UserRegisterer`; the two checks return the Go pair
`(bool, error)`. -/
structure UserRegisterer (σ : Type) where
  RegisterUser : String → String → String → σ → Option String × σ
  DoesUserExists : String → σ → (Bool × Option String) × σ
  DoesEmailExists : String → σ → (Bool × Option String) × σ

/-- The errors `verifyCredentials` returns: the two error types of register.go,
or the error of a failed check, which is of neither type. -/
inductive CredentialError
  | EmailAlreadyExistsError (Message : String)
  | UsernameAlreadyExists (Message : String)
  | other (err : String)

/-- The function `verifyCredentials`. -/
def verifyCredentials {σ : Type} (email username : String) (verifier : UserRegisterer σ)
    (s : σ) : Option CredentialError × σ :=
  match verifier.DoesEmailExists email s with
  | ((_, some err), s1) => (some (CredentialError.other err), s1)
  | ((ok, none), s1) =>
    if ok then (some (CredentialError.EmailAlreadyExistsError "email is taken"), s1)
    else
      match verifier.DoesUserExists username s1 with
      | ((_, some err), s2) => (some (CredentialError.other err), s2)
      | ((ok, none), s2) =>
        if ok then (some (CredentialError.UsernameAlreadyExists "username is taken"), s2)
        else (none, s2)

/-- The handler `HandleRegisterUser`.  `HashPassword` is `middleware.HashPassword`.
The result of `verifyCredentials` is tested with `errors.As` against the two
error types only; with any other result the handler goes on to `RegisterUser`. -/
def HandleRegisterUser {σ : Type} (HashPassword : String → String)
    (userRegisterer : UserRegisterer σ) (body : Bind RegisterRequest) (s : σ) :
    List Response × σ :=
  match body with
  | Bind.eof =>
    ([logError "empty json" 400, logError "request contains wrong data" 400], s)
  | Bind.invalid => ([logError "request contains wrong data" 400], s)
  | Bind.ok req =>
    match verifyCredentials req.Email req.Username userRegisterer s with
    | (some (CredentialError.UsernameAlreadyExists _), s1) =>
      ([⟨200, Body.error "username already exists"⟩], s1)
    | (some (CredentialError.EmailAlreadyExistsError _), s1) =>
      ([⟨200, Body.error "email already exists"⟩], s1)
    | (_, s1) =>
      let passHash := HashPassword req.Password
      match userRegisterer.RegisterUser req.Username passHash req.Email s1 with
      | (some err, s2) => ([logError err 500], s2)
      | (none, s2) => ([⟨200, Body.message "user registered"⟩], s2)

/-- A call of a method of `UserRegisterer`. -/
inductive RegisterCall
  | RegisterUser (username passwordHash email : String)
  | DoesUserExists (username : String)
  | DoesEmailExists (email : String)
  deriving DecidableEq

/-- An implementation of `UserRegisterer` together with the journal of the calls
made to it. -/
def journaled {σ : Type} (r : UserRegisterer σ) : UserRegisterer (σ × List RegisterCall) where
  RegisterUser username passwordHash email s :=
    let x := r.RegisterUser username passwordHash email s.1
    (x.1, (x.2, s.2 ++ [RegisterCall.RegisterUser username passwordHash email]))
  DoesUserExists username s :=
    let x := r.DoesUserExists username s.1
    (x.1, (x.2, s.2 ++ [RegisterCall.DoesUserExists username]))
  DoesEmailExists email s :=
    let x := r.DoesEmailExists email s.1
    (x.1, (x.2, s.2 ++ [RegisterCall.DoesEmailExists email]))

/-- The interface `UserLogger`. -/
structure UserLogger (σ : Type) where
  GetUsersPassHash : String → σ → (String × Option String) × σ

/-- The implementation `*postgres.Storage` of `UserLogger`. -/
def storageLogger : UserLogger DB where
  GetUsersPassHash username db := (Storage.GetUsersPassHash username db, db)

/-- The function `middleware.VerifyPassword`; `CompareHashAndPassword` is the
function of that name of package bcrypt, whose first argument is the hash. -/
def VerifyPassword (CompareHashAndPassword : String → String → Option String)
    (userPassword providedPassword : String) : Bool × Option String :=
  match CompareHashAndPassword providedPassword userPassword with
  | some err => (false, some err)
  | none => (true, none)

/-- The handler `HandleLoginUser`.  `GenerateJWT` is `jwt.GenerateJWT` with the
configuration applied; when it fails the handler writes the error and, having no
`return` there, the token response as well. -/
def HandleLoginUser {σ : Type} (CompareHashAndPassword : String → String → Option String)
    (GenerateJWT : String → String × Option String) (userLogger : UserLogger σ)
    (body : Bind LoginRequest) (s : σ) : List Response × σ :=
  match body with
  | Bind.eof =>
    ([logError "empty json" 400, logError "request contains wrong data" 400], s)
  | Bind.invalid => ([logError "request contains wrong data" 400], s)
  | Bind.ok req =>
    match userLogger.GetUsersPassHash req.Username s with
    | ((_, some _), s1) => ([logError "wrong password" 200], s1)
    | ((passhash, none), s1) =>
      match VerifyPassword CompareHashAndPassword req.Password passhash with
      | (_, some _) => ([logError "wrong password" 200], s1)
      | (isRight, none) =>
        if !isRight then ([logError "wrong password" 200], s1)
        else
          match GenerateJWT req.Username with
          | (token, some _) =>
            ([logError "could not create JWT token" 500, ⟨200, Body.token token⟩], s1)
          | (token, none) => ([⟨200, Body.token token⟩], s1)

/-! ## Test data -/

/-- A token validator that accepts every token and reads it as the user name. -/
def acceptAll : String → Except String String := fun t => Except.ok t

/-- A store with the user `testuser` holding 100 USD, 50 EUR and 0 RUB. -/
def testDB : DB where
  users := [⟨1, "testuser", "hash", "test@example.com"⟩]
  wallets := [⟨1, "USD", 100⟩, ⟨1, "EUR", 50⟩, ⟨1, "RUB", 0⟩]

/-- A rate table that lacks the key `RUB_EUR`. -/
def usdOnlyRates : Rates := fun k =>
  if k = "RUB_USD" then some (12 / 1000) else none

/-- A rate table that quotes GBP, a currency no wallet is provisioned for. -/
def gbpRates : Rates := fun k =>
  if k = "RUB_USD" then some (12 / 1000)
  else if k = "RUB_GBP" then some (9 / 1000)
  else none

/-- The store `testDB` after the 100 USD of `testuser` have been debited. -/
def drainedDB : DB where
  users := [⟨1, "testuser", "hash", "test@example.com"⟩]
  wallets := [⟨1, "USD", 0⟩, ⟨1, "EUR", 50⟩, ⟨1, "RUB", 0⟩]

/-- The store of the test `Successful Withdrawal`: 100 USD and 50 EUR. -/
def withdrawDB : DB where
  users := [⟨1, "testuser", "hash", "test@example.com"⟩]
  wallets := [⟨1, "USD", 100⟩, ⟨1, "EUR", 50⟩]

/-- The store of the deposit scenario: 200 USD and 50 EUR. -/
def depositDB : DB where
  users := [⟨1, "testuser", "hash", "test@example.com"⟩]
  wallets := [⟨1, "USD", 200⟩, ⟨1, "EUR", 50⟩]

/-- The struct `MockUserRegisterer` of register_test.go. -/
structure MockUserRegisterer where
  userExists : Bool
  emailExists : Bool
  registerErr : Option String
  doesUserExistsErr : Option String
  doesEmailExistsErr : Option String
  deriving DecidableEq

/-- The methods of `MockUserRegisterer`. -/
def mockUserRegisterer : UserRegisterer MockUserRegisterer where
  RegisterUser _ _ _ m := (m.registerErr, m)
  DoesUserExists _ m := ((m.userExists, m.doesUserExistsErr), m)
  DoesEmailExists _ m := ((m.emailExists, m.doesEmailExistsErr), m)

/-- The mock of the test `DoesEmailExists Error`. -/
def emailCheckFails : MockUserRegisterer :=
  ⟨false, false, none, none, some "email check error"⟩

/-- The mock of the test `DoesUserExists Error`. -/
def userCheckFails : MockUserRegisterer :=
  ⟨false, false, none, some "user check error", none⟩

/-- The request body of the registration tests. -/
def testRegistration : RegisterRequest :=
  ⟨"testuser", "password", "test@example.com"⟩

/-- A stand-in for `middleware.HashPassword`. -/
def tagHash (password : String) : String := "hash:" ++ password

/-- A stand-in for `bcrypt.CompareHashAndPassword` that matches `tagHash`. -/
def tagCompare (hashedPassword password : String) : Option String :=
  if hashedPassword = tagHash password then none
  else some "crypto/bcrypt: hashedPassword is not the hash of the given password"

/-- A stand-in for `jwt.GenerateJWT` that signs every token. -/
def signAll (username : String) : String × Option String := ("token:" ++ username, none)

/-- A stand-in for `jwt.GenerateJWT` that fails. -/
def signNone (_username : String) : String × Option String := ("", some "key is invalid")

/-- A token validator that rejects every token, with the error of the tests
`Invalid Token`. -/
def rejectAll : String → Except String String :=
  fun _ => Except.error "token contains an invalid number of segments"

/-- A store whose user `testuser` has the password `password123`. -/
def loginDB : DB where
  users := [⟨1, "testuser", "hash:password123", "test@example.com"⟩]
  wallets := [⟨1, "USD", 100⟩, ⟨1, "EUR", 50⟩, ⟨1, "RUB", 0⟩]

/-- The value of the wallets of a user in the base currency: the sum over the
wallet rows of the user of `balance / rate(RUB_<currency>)`. -/
def baseValue (rates : Rates) (username : String) (db : DB) : ℚ :=
  ((Storage.joined username db).map fun w =>
    w.balance / index rates ("RUB_" ++ w.currency)).sum

/-- A request completed successfully: one response was written and its body is
not the error body of `logError`. -/
def succeeded (responses : List Response) : Bool :=
  match responses with
  | [⟨_, Body.error _⟩] => false
  | [_] => true
  | _ => false

/-! ## The machine representations (`NUMERIC(19, 8)`, `float64`, `float32`) -/

/-- Rounding to 8 decimal places, a tie going away from zero: the rounding that
PostgreSQL applies to a value assigned to a column of scale 8. -/
def round8 (x : ℚ) : ℚ :=
  if 0 ≤ x then ((⌊x * 10 ^ 8 + 1 / 2⌋ : ℤ) : ℚ) / 10 ^ 8
  else -(((⌊-x * 10 ^ 8 + 1 / 2⌋ : ℤ) : ℚ) / 10 ^ 8)

/-- Assignment of a value to the column `balance NUMERIC(19, 8)`: the value is
rounded to 8 decimal places; a rounded value of 10^11 or more in absolute value
does not fit the 11 digits before the point, and the statement fails with
`numeric field overflow`. -/
def numeric (x : ℚ) : Option ℚ :=
  if |round8 x| < 10 ^ 11 then some (round8 x) else none

/-- The conversions between a `float64` and decimal text that surround the store,
and the rounding of the float64 unit.  They belong to package `strconv` and to
the hardware, hence are parameters.  A `float64` or `float32` value is the
rational it denotes; infinities and NaN are not represented. -/
structure Rounding where
  /-- The `float64` nearest to a number: the result of a float64 division or
  multiplication whose exact result is that number, and of `strconv.ParseFloat`,
  by which `rows.Scan` reads a `NUMERIC` into a `float64`. -/
  float64 : ℚ → ℚ
  /-- The decimal `strconv.AppendFloat(v, 'f', -1, 64)` that lib/pq writes for the
  `float64` argument `v` of a statement (the shortest decimal that reads back as
  `v`); PostgreSQL reads it as a `NUMERIC`. -/
  text : ℚ → ℚ

/-- Conversions that never round: what the real ones do on a value that a
`float64` holds exactly and that is written in full, such as an integer below
2^53. -/
def noRounding : Rounding := ⟨id, id⟩

namespace Machine

/-- The method `Storage.GetUserBalance`, with the scan of `SUM(w.balance)`, a
`NUMERIC`, into the `float64` variable `balance`. -/
def GetUserBalance (fl : Rounding) (username : String) (db : DB) : Except String Balances :=
  let rows := Storage.joined username db
  Except.ok fun currency =>
    let group := rows.filter fun w => w.currency = currency
    if group = [] then none else some (fl.float64 (group.map fun w => w.balance).sum)

/-- The method `Storage.UpdateUsersBalance` on the column `balance NUMERIC(19, 8)`.
`amount` is the argument `$1` as PostgreSQL reads it, the decimal `Rounding.text`
of the `float64`.  The sum `balance + $1` is exact and its assignment to the
column is `numeric`.  When the assignment fails for a selected row, `tx.Exec`
returns the error with the local `err` set, so the deferred function rolls
back. -/
def UpdateUsersBalance (username currency : String) (amount : ℚ) (db : DB) :
    Option String × DB :=
  let op := "storage.postgres.UpdateUsersBalance"
  let userExists := db.users.any fun u => u.username = username
  if !userExists then
    (some (op ++ ": user " ++ username ++ " does not exist"), db)
  else
    match db.users.find? fun u => u.username = username with
    | none => (some (op ++ ": failed to get user_id: sql: no rows in result set"), db)
    | some u =>
      let userID := u.id
      let selected := db.wallets.filter fun w => w.user_id = userID ∧ w.currency = currency
      if selected.any fun w => (numeric (w.balance + amount)).isNone then
        (some (op ++ ": failed to update wallet: pq: numeric field overflow"), db)
      else
        let rowsAffected := selected.length
        let updated := db.wallets.map fun w =>
          if w.user_id = userID ∧ w.currency = currency then
            { w with balance := round8 (w.balance + amount) }
          else w
        if rowsAffected = 0 then
          (some (op ++ ": No wallet found for user " ++ username ++ " and currency " ++ currency),
            { db with wallets := updated })
        else
          (none, { db with wallets := updated })

/-- The implementation `*postgres.Storage` of the interface `Exchanger`, a
`float64` on the side of the handlers and a `NUMERIC(19, 8)` in the table. -/
def storage (fl : Rounding) : Exchanger DB where
  GetUserBalance username db := (GetUserBalance fl username db, db)
  UpdateUsersBalance username currency amount db :=
    UpdateUsersBalance username currency (fl.text amount) db

/-- The function `convertCurrencies` in `float64`: the division and the
multiplication each yield the `float64` nearest to the exact result.  (The
conversion `float64(rate)` of a `float32` rate is exact.  With a zero rate the
Go quotient is an infinity or NaN, which a rational does not represent: the
statements on this function take the rates to be non-zero.) -/
def convertCurrencies (fl : Rounding) (fromCurrency toCurrency : String) (amount : ℚ)
    (response : Rates) : ℚ × Option String :=
  let fromRateKey := "RUB_" ++ fromCurrency
  match response fromRateKey with
  | none => (0, some ("курс для валюты " ++ fromCurrency ++ " не найден"))
  | some fromRate =>
    let toRateKey := "RUB_" ++ toCurrency
    match response toRateKey with
    | none => (0, some ("курс для валюты " ++ toCurrency ++ " не найден"))
    | some toRate =>
      let amountInRUB := fl.float64 (amount / fromRate)
      let amountInToCurrency := fl.float64 (amountInRUB * toRate)
      (amountInToCurrency, none)

/-- The handler `HandleExchange` with the conversion computed in `float64`. -/
def HandleExchange {σ : Type} (fl : Rounding) (ValidateToken : String → Except String String)
    (GetExchangeRates : Except String Rates) (exchanger : Exchanger σ)
    (body : Bind ExchangeRequest) (tokenString : String) (s : σ) : List Response × σ :=
  match body with
  | Bind.eof =>
    ([logError "empty json" 400, logError "request contains wrong data" 400], s)
  | Bind.invalid => ([logError "request contains wrong data" 400], s)
  | Bind.ok req =>
    if tokenString = "" then ([logError "not authorized" 401], s)
    else
      match ValidateToken tokenString with
      | Except.error err => ([logError err 401], s)
      | Except.ok username =>
        match GetExchangeRates with
        | Except.error _ => ([logError "failed to retrieve exchange rates" 500], s)
        | Except.ok response =>
          match exchanger.GetUserBalance username s with
          | (Except.error err, s1) => ([logError err 500], s1)
          | (Except.ok balance, s1) =>
            if index balance req.FromCurrency < req.Amount then
              ([logError "not enough money" 200], s1)
            else
              match exchanger.UpdateUsersBalance username req.FromCurrency (req.Amount * -1) s1 with
              | (some err, s2) => ([logError err 500], s2)
              | (none, s2) =>
                match convertCurrencies fl req.FromCurrency req.ToCurrency req.Amount
                    response with
                | (_, some err) => ([logError err 500], s2)
                | (toAdd, none) =>
                  match exchanger.UpdateUsersBalance username req.ToCurrency toAdd s2 with
                  | (some err, s3) => ([logError err 500], s3)
                  | (none, s3) =>
                    match exchanger.GetUserBalance username s3 with
                    | (Except.error err, s4) => ([logError err 500], s4)
                    | (Except.ok newBalance, s4) =>
                      ([⟨200, Body.exchange "exchanged successfully" toAdd newBalance⟩], s4)

/-- The store after `n` calls `UpdateUsersBalance(username, currency, amount)` in
sequence. -/
def repeated (username currency : String) (amount : ℚ) : Nat → DB → DB
  | 0, db => db
  | n + 1, db => repeated username currency amount n
      (UpdateUsersBalance username currency amount db).2

end Machine

/-- A rate table of powers of two, `RUB_USD` 1/64 and `RUB_EUR` 1/128, with which
the conversion of 100 is exact in `float64`. -/
def binaryRates : Rates := fun k =>
  if k = "RUB_USD" then some (1 / 64)
  else if k = "RUB_EUR" then some (1 / 128)
  else none

/-- The id of the user row found by `SELECT id FROM users WHERE username = $1`. -/
def userId (db : DB) (username : String) : Option Nat :=
  (db.users.find? fun u => u.username = username).map fun u => u.id

/-- The balance of the first wallet row of user `uid` in `currency`. -/
def walletOf (db : DB) (uid : Nat) (currency : String) : Option ℚ :=
  (db.wallets.find? fun w => w.user_id = uid ∧ w.currency = currency).map fun w => w.balance

/-- The stored balances of a user, by currency: the balance of the wallet row of
the user in that currency.  (`Storage.GetUserBalance` returns this map from a
store that satisfies the constraints of the schema.) -/
def balanceOf (db : DB) (username : String) : Balances := fun currency =>
  match userId db username with
  | none => none
  | some uid => walletOf db uid currency

/-- The balance map that `GetUserBalance` returns for a user from a store that
satisfies the constraints of the schema: every stored balance read as a
`float64`. -/
def scanOf (fl : Rounding) (db : DB) (username : String) : Balances := fun currency =>
  (balanceOf db username currency).map fl.float64

/-- The rows of `wallets` after
`UPDATE wallets SET balance = balance + amount WHERE user_id = uid AND currency = currency`. -/
def applied (uid : Nat) (currency : String) (amount : ℚ) (ws : List WalletRow) :
    List WalletRow :=
  ws.map fun w =>
    if w.user_id = uid ∧ w.currency = currency then
      { w with balance := w.balance + amount }
    else w

/-- Every stored balance is non-negative. -/
def NonNeg (db : DB) : Prop := ∀ w ∈ db.wallets, 0 ≤ w.balance

/-! ## Lemmas on lists of rows -/

section Rows

variable {α κ : Type} [DecidableEq κ]

theorem filter_key_unique (f : α → κ) (k : κ) (l : List α) (h : (l.map f).Nodup) :
    l.filter (fun x => f x = k) = (l.find? fun x => f x = k).toList := by
  induction l with
  | nil => rfl
  | cons a t ih =>
    rw [List.map_cons, List.nodup_cons] at h
    by_cases hk : f a = k
    · have hnone : t.filter (fun x => decide (f x = k)) = [] := by
        rw [List.filter_eq_nil_iff]
        intro x hx hfx
        exact h.1 (List.mem_map.mpr ⟨x, hx, by rw [of_decide_eq_true hfx, hk]⟩)
      simp [List.filter_cons, List.find?_cons, hk, hnone]
    · simp [List.filter_cons, List.find?_cons, hk, ih h.2]

end Rows

/-! ## Lemmas on the store -/

theorem joined_eq (username : String) (db : DB)
    (h : (db.users.map fun u => u.username).Nodup) :
    Storage.joined username db =
      match db.users.find? fun u => u.username = username with
      | none => []
      | some u => db.wallets.filter fun w => w.user_id = u.id := by
  have hin : ∀ w : WalletRow,
      (db.users.filter fun u => w.user_id = u.id ∧ u.username = username) =
        ((db.users.find? fun u => u.username = username).toList.filter
          fun u => w.user_id = u.id) := by
    intro w
    rw [← filter_key_unique (fun u : UserRow => u.username) username db.users h,
      List.filter_filter]
    congr 1
    funext u
    simp
  unfold Storage.joined
  simp only [hin]
  cases db.users.find? fun u => u.username = username with
  | none => simp
  | some u =>
    simp only [Option.toList]
    induction db.wallets with
    | nil => rfl
    | cons w t ih =>
      rw [List.flatMap_cons, List.filter_cons, ih]
      by_cases hw : w.user_id = u.id
      · simp [List.filter_cons, hw]
      · simp [List.filter_cons, hw]

theorem GetUserBalance_eq (username : String) (db : DB) (h : WF db) :
    Storage.GetUserBalance username db = Except.ok (balanceOf db username) := by
  simp only [Storage.GetUserBalance]
  congr 1
  funext c
  simp only [balanceOf, userId, walletOf, joined_eq username db h.2.1]
  cases db.users.find? fun u => u.username = username with
  | none => simp
  | some u =>
    have hkey : (List.filter (fun w => decide (w.currency = c))
        (List.filter (fun w => decide (w.user_id = u.id)) db.wallets)) =
        (db.wallets.find? fun w => w.user_id = u.id ∧ w.currency = c).toList := by
      have hp : (fun w : WalletRow => decide (w.user_id = u.id ∧ w.currency = c)) =
          fun w => decide ((fun w : WalletRow => (w.user_id, w.currency)) w = (u.id, c)) := by
        funext w; simp
      rw [hp, ← filter_key_unique (fun w : WalletRow => (w.user_id, w.currency)) (u.id, c)
        db.wallets h.2.2, List.filter_filter]
      congr 1
      funext w
      simp [Bool.and_comm]
    simp only [hkey, Option.map_some']
    cases db.wallets.find? fun w => w.user_id = u.id ∧ w.currency = c with
    | none => simp
    | some w => simp

theorem applied_of_no_row (uid : Nat) (c : String) (a : ℚ) (ws : List WalletRow)
    (h : (ws.find? fun w => w.user_id = uid ∧ w.currency = c) = none) :
    applied uid c a ws = ws := by
  unfold applied
  rw [List.find?_eq_none] at h
  conv_rhs => rw [← List.map_id ws]
  apply List.map_congr_left
  intro w hw
  have := h w hw
  simp only [decide_eq_true_eq] at this
  simp [this]

theorem applied_cons (uid : Nat) (c : String) (a : ℚ) (w : WalletRow) (t : List WalletRow) :
    applied uid c a (w :: t) =
      (if w.user_id = uid ∧ w.currency = c then { w with balance := w.balance + a } else w) ::
        applied uid c a t := rfl

theorem find_applied (uid uid2 : Nat) (c c2 : String) (a : ℚ) (ws : List WalletRow) :
    ((applied uid c a ws).find? fun w => w.user_id = uid2 ∧ w.currency = c2).map
        (fun w => w.balance) =
      if uid2 = uid ∧ c2 = c then
        ((ws.find? fun w => w.user_id = uid ∧ w.currency = c).map fun w => w.balance).map
          fun b => b + a
      else (ws.find? fun w => w.user_id = uid2 ∧ w.currency = c2).map fun w => w.balance := by
  induction ws with
  | nil => simp [applied]
  | cons w t ih =>
    by_cases hk : uid2 = uid ∧ c2 = c
    · obtain ⟨rfl, rfl⟩ := hk
      simp only [and_self, if_true] at ih ⊢
      by_cases hw : w.user_id = uid2 ∧ w.currency = c2
      · simp [applied_cons, List.find?_cons, hw]
      · simpa [applied_cons, List.find?_cons, hw] using ih
    · simp only [hk, if_false] at ih ⊢
      by_cases hw : w.user_id = uid ∧ w.currency = c
      · have hw2 : ¬ (w.user_id = uid2 ∧ w.currency = c2) := by
          rintro ⟨h1, h2⟩
          exact hk ⟨h1 ▸ hw.1, h2 ▸ hw.2⟩
        have hw3 : ¬ (uid = uid2 ∧ c = c2) := fun h => hk ⟨h.1.symm, h.2.symm⟩
        simpa [applied_cons, List.find?_cons, hw, hw2, hw3] using ih
      · by_cases hw2 : w.user_id = uid2 ∧ w.currency = c2
        · simp [applied_cons, List.find?_cons, hw, hw2, hk]
        · simpa [applied_cons, List.find?_cons, hw, hw2] using ih

theorem walletOf_applied (db : DB) (uid uid2 : Nat) (c c2 : String) (a : ℚ) :
    walletOf { db with wallets := applied uid c a db.wallets } uid2 c2 =
      if uid2 = uid ∧ c2 = c then (walletOf db uid c).map fun b => b + a
      else walletOf db uid2 c2 := by
  unfold walletOf
  exact find_applied uid uid2 c c2 a db.wallets

theorem keys_applied (uid : Nat) (c : String) (a : ℚ) (ws : List WalletRow) :
    (applied uid c a ws).map (fun w => (w.user_id, w.currency)) =
      ws.map fun w => (w.user_id, w.currency) := by
  unfold applied
  rw [List.map_map]
  apply List.map_congr_left
  intro w _
  by_cases hw : w.user_id = uid ∧ w.currency = c <;> simp [hw]

theorem WF_applied (db : DB) (uid : Nat) (c : String) (a : ℚ) (h : WF db) :
    WF { db with wallets := applied uid c a db.wallets } := by
  refine ⟨h.1, h.2.1, ?_⟩
  show ((applied uid c a db.wallets).map fun w => (w.user_id, w.currency)).Nodup
  rw [keys_applied]
  exact h.2.2

theorem update_no_user (username c : String) (a : ℚ) (db : DB)
    (h : userId db username = none) :
    Storage.UpdateUsersBalance username c a db =
      (some ("storage.postgres.UpdateUsersBalance" ++ ": user " ++ username ++
        " does not exist"), db) := by
  have hf : (db.users.find? fun u => u.username = username) = none := by
    simpa [userId] using h
  have hany : (db.users.any fun u => u.username = username) = false := by
    rw [List.find?_eq_none] at hf
    rw [List.any_eq_false]
    exact hf
  simp [Storage.UpdateUsersBalance, hany]

theorem update_found (username c : String) (a : ℚ) (db : DB) (u : UserRow)
    (h : (db.users.find? fun u => u.username = username) = some u) :
    Storage.UpdateUsersBalance username c a db =
      if (db.wallets.countP fun w => w.user_id = u.id ∧ w.currency = c) = 0 then
        (some ("storage.postgres.UpdateUsersBalance" ++ ": No wallet found for user " ++
          username ++ " and currency " ++ c),
          { db with wallets := applied u.id c a db.wallets })
      else (none, { db with wallets := applied u.id c a db.wallets }) := by
  have hany : (db.users.any fun u => u.username = username) = true := by
    rw [List.any_eq_true]
    have hp := List.find?_some h
    exact ⟨u, List.mem_of_find?_eq_some h, hp⟩
  simp only [Storage.UpdateUsersBalance, hany, h, applied]
  rfl

theorem update_no_wallet (username c : String) (a : ℚ) (db : DB) (uid : Nat)
    (hu : userId db username = some uid) (hw : walletOf db uid c = none) :
    Storage.UpdateUsersBalance username c a db =
      (some ("storage.postgres.UpdateUsersBalance" ++ ": No wallet found for user " ++
        username ++ " and currency " ++ c), db) := by
  obtain ⟨u, hfu, rfl⟩ : ∃ u, (db.users.find? fun u => u.username = username) = some u ∧
      u.id = uid := by simpa [userId] using hu
  have hf : (db.wallets.find? fun w => w.user_id = u.id ∧ w.currency = c) = none := by
    simpa [walletOf] using hw
  have hc : (db.wallets.countP fun w => w.user_id = u.id ∧ w.currency = c) = 0 := by
    rw [List.countP_eq_zero]
    rw [List.find?_eq_none] at hf
    exact hf
  rw [update_found username c a db u hfu, if_pos hc, applied_of_no_row u.id c a db.wallets hf]

theorem update_ok (username c : String) (a b : ℚ) (db : DB) (uid : Nat)
    (hu : userId db username = some uid) (hw : walletOf db uid c = some b) :
    Storage.UpdateUsersBalance username c a db =
      (none, { db with wallets := applied uid c a db.wallets }) := by
  obtain ⟨u, hfu, rfl⟩ : ∃ u, (db.users.find? fun u => u.username = username) = some u ∧
      u.id = uid := by simpa [userId] using hu
  obtain ⟨w, hfw, -⟩ : ∃ w, (db.wallets.find? fun w => w.user_id = u.id ∧ w.currency = c) =
      some w ∧ w.balance = b := by simpa [walletOf] using hw
  have hc : (db.wallets.countP fun w => w.user_id = u.id ∧ w.currency = c) ≠ 0 := by
    intro h0
    rw [List.countP_eq_zero] at h0
    have hp := List.find?_some hfw
    exact h0 w (List.mem_of_find?_eq_some hfw) hp
  rw [update_found username c a db u hfu, if_neg hc]

theorem userId_some (db : DB) (username : String) (uid : Nat)
    (h : userId db username = some uid) :
    ∃ u ∈ db.users, u.username = username ∧ u.id = uid := by
  obtain ⟨u, hfu, hid⟩ : ∃ u, (db.users.find? fun u => u.username = username) = some u ∧
      u.id = uid := by simpa [userId] using h
  have hp := List.find?_some hfu
  exact ⟨u, List.mem_of_find?_eq_some hfu, by simpa using hp, hid⟩

theorem userId_inj (db : DB) (h : WF db) (x y : String) (uid : Nat)
    (hx : userId db x = some uid) (hy : userId db y = some uid) : x = y := by
  obtain ⟨u, hu, hux, huid⟩ := userId_some db x uid hx
  obtain ⟨v, hv, hvy, hvid⟩ := userId_some db y uid hy
  have huv : u = v :=
    List.inj_on_of_nodup_map h.1 hu hv (by rw [huid, hvid])
  rw [← hux, ← hvy, huv]

theorem balanceOf_applied (db : DB) (uid : Nat) (c : String) (a : ℚ) (username2 c2 : String) :
    balanceOf { db with wallets := applied uid c a db.wallets } username2 c2 =
      if userId db username2 = some uid ∧ c2 = c then (walletOf db uid c).map fun b => b + a
      else balanceOf db username2 c2 := by
  unfold balanceOf
  have hid : userId { db with wallets := applied uid c a db.wallets } username2 =
      userId db username2 := rfl
  rw [hid]
  cases hu : userId db username2 with
  | none => simp
  | some uid2 =>
    simp only [walletOf_applied, Option.some.injEq]

theorem mem_find_unique (ws : List WalletRow)
    (h : (ws.map fun w => (w.user_id, w.currency)).Nodup) (w : WalletRow) (hw : w ∈ ws) :
    (ws.find? fun x => x.user_id = w.user_id ∧ x.currency = w.currency) = some w := by
  have hp : (fun x : WalletRow => decide (x.user_id = w.user_id ∧ x.currency = w.currency)) =
      fun x => decide ((fun x : WalletRow => (x.user_id, x.currency)) x =
        (w.user_id, w.currency)) := by
    funext x; simp
  have hmem : w ∈ ws.filter fun x => decide ((fun x : WalletRow => (x.user_id, x.currency)) x =
      (w.user_id, w.currency)) := by
    rw [List.mem_filter]
    exact ⟨hw, by simp⟩
  rw [filter_key_unique (fun x : WalletRow => (x.user_id, x.currency)) (w.user_id, w.currency)
    ws h] at hmem
  rw [hp]
  simpa using hmem

theorem NonNeg_applied (db : DB) (h : WF db) (hn : NonNeg db) (uid : Nat) (c : String)
    (a b : ℚ) (hw : walletOf db uid c = some b) (hb : 0 ≤ b + a) :
    NonNeg { db with wallets := applied uid c a db.wallets } := by
  intro w2 hw2
  obtain ⟨w, hwm, rfl⟩ : ∃ w ∈ db.wallets,
      (if w.user_id = uid ∧ w.currency = c then { w with balance := w.balance + a } else w) =
        w2 := by
    simpa [applied] using hw2
  by_cases hk : w.user_id = uid ∧ w.currency = c
  · have hfind := mem_find_unique db.wallets h.2.2 w hwm
    rw [hk.1, hk.2] at hfind
    have hbal : w.balance = b := by
      unfold walletOf at hw
      rw [hfind] at hw
      simpa using hw
    simp only [hk, and_self, if_true]
    rw [hbal]
    exact hb
  · simp only [hk, if_false]
    exact hn w hwm

theorem balanceOf_some (db : DB) (username c : String) (b : ℚ)
    (h : balanceOf db username c = some b) :
    ∃ uid, userId db username = some uid ∧ walletOf db uid c = some b := by
  unfold balanceOf at h
  cases hu : userId db username with
  | none => simp [hu] at h
  | some uid => exact ⟨uid, rfl, by simpa [hu] using h⟩

theorem update_read (db : DB) (hwf : WF db) (username currency : String) (delta b : ℚ)
    (hb : balanceOf db username currency = some b) :
    ∃ db2, Storage.UpdateUsersBalance username currency delta db = (none, db2) ∧ WF db2 ∧
      db2.users = db.users ∧
      (∀ username2 c2, balanceOf db2 username2 c2 =
        if username2 = username ∧ c2 = currency then some (b + delta)
        else balanceOf db username2 c2) ∧
      (NonNeg db → 0 ≤ b + delta → NonNeg db2) := by
  obtain ⟨uid, hu, hw⟩ := balanceOf_some db username currency b hb
  refine ⟨_, update_ok username currency delta b db uid hu hw,
    WF_applied db uid currency delta hwf, rfl, ?_, ?_⟩
  · intro username2 c2
    rw [balanceOf_applied, hw]
    by_cases hc : c2 = currency
    · by_cases hn : username2 = username
      · subst hn; simp [hu, hc]
      · have hne : userId db username2 ≠ some uid :=
          fun h2 => hn (userId_inj db hwf username2 username uid h2 hu)
        simp [hn, hne]
    · simp [hc]
  · intro hn hpos
    exact NonNeg_applied db hwf hn uid currency delta b hw hpos

theorem convertCurrencies_pair (F T : String) (amount rF rT : ℚ) (rates : Rates)
    (hF : rates ("RUB_" ++ F) = some rF) (hT : rates ("RUB_" ++ T) = some rT) :
    convertCurrencies F T amount rates = (amount / rF * rT, none) := by
  simp [convertCurrencies, hF, hT]

theorem update_fail (db : DB) (username c : String) (a : ℚ)
    (h : balanceOf db username c = none) :
    ∃ e, Storage.UpdateUsersBalance username c a db = (some e, db) := by
  cases hu : userId db username with
  | none => exact ⟨_, update_no_user username c a db hu⟩
  | some uid =>
    have hw : walletOf db uid c = none := by simpa [balanceOf, hu] using h
    exact ⟨_, update_no_wallet username c a db uid hu hw⟩

theorem GetUserBalance_ok (username : String) (db : DB) :
    ∃ m, Storage.GetUserBalance username db = Except.ok m := ⟨_, rfl⟩

theorem testDB_WF : WF testDB := by
  simp [WF, testDB]

theorem testDB_USD : balanceOf testDB "testuser" "USD" = some 100 := by
  simp [balanceOf, userId, walletOf, testDB]

theorem testDB_EUR : balanceOf testDB "testuser" "EUR" = some 50 := by
  simp [balanceOf, userId, walletOf, testDB]

theorem testDB_deposit (a : ℚ) :
    ∃ db2 m2, HandleDeposit acceptAll storage (Bind.ok ⟨a, "USD"⟩) "testuser" testDB =
        ([⟨200, Body.deposit "Account topped up successfully" m2⟩], db2) ∧
      balanceOf db2 "testuser" "USD" = some (100 + a) := by
  obtain ⟨db2, hup, hwf2, -, hbal, -⟩ :=
    update_read testDB testDB_WF "testuser" "USD" a 100 testDB_USD
  refine ⟨db2, balanceOf db2 "testuser", ?_, ?_⟩
  · simp [HandleDeposit, storage, acceptAll, hup, GetUserBalance_eq "testuser" db2 hwf2]
  · rw [hbal]; simp

theorem testDB_exchange (a : ℚ) (ha : a ≤ 100) :
    ∃ db2 m2, HandleExchange acceptAll (Except.ok testRates) storage
        (Bind.ok ⟨"USD", "EUR", a⟩) "testuser" testDB =
        ([⟨200, Body.exchange "exchanged successfully" (a / (12 / 1000) * (11 / 1000)) m2⟩],
          db2) ∧
      balanceOf db2 "testuser" "EUR" = some (50 + a / (12 / 1000) * (11 / 1000)) := by
  obtain ⟨db1, hup1, hwf1, -, hbal1, -⟩ :=
    update_read testDB testDB_WF "testuser" "USD" (a * -1) 100 testDB_USD
  have hEUR1 : balanceOf db1 "testuser" "EUR" = some 50 := by
    rw [hbal1]; simp [testDB_EUR]
  obtain ⟨db2, hup2, hwf2, -, hbal2, -⟩ :=
    update_read db1 hwf1 "testuser" "EUR" (a / (12 / 1000) * (11 / 1000)) 50 hEUR1
  have hidx : ¬ index (balanceOf testDB "testuser") "USD" < a := by
    simp [index, testDB_USD, ha]
  have hconv := convertCurrencies_pair "USD" "EUR" a (12 / 1000) (11 / 1000) testRates
    (by simp [testRates]) (by simp [testRates])
  simp only [mul_neg, mul_one] at hup1
  refine ⟨db2, balanceOf db2 "testuser", ?_, ?_⟩
  · simp [HandleExchange, storage, acceptAll, GetUserBalance_eq "testuser" testDB testDB_WF,
      hidx, hup1, hconv, hup2, GetUserBalance_eq "testuser" db2 hwf2]
  · rw [hbal2]; simp

theorem withdrawDB_WF : WF withdrawDB := by
  simp [WF, withdrawDB]

theorem depositDB_WF : WF depositDB := by
  simp [WF, depositDB]

theorem update_total (db : DB) (hwf : WF db) (username c : String) (a : ℚ) :
    WF (Storage.UpdateUsersBalance username c a db).2 ∧
      ∀ username2 c2, balanceOf (Storage.UpdateUsersBalance username c a db).2 username2 c2 =
        if username2 = username ∧ c2 = c then (balanceOf db username c).map fun b => b + a
        else balanceOf db username2 c2 := by
  cases hb : balanceOf db username c with
  | none =>
    obtain ⟨e, he⟩ := update_fail db username c a hb
    rw [he]
    refine ⟨hwf, ?_⟩
    intro username2 c2
    by_cases h : username2 = username ∧ c2 = c
    · obtain ⟨rfl, rfl⟩ := h
      simp [hb]
    · simp [h]
  | some b =>
    obtain ⟨db2, hup, hwf2, -, hbal, -⟩ := update_read db hwf username c a b hb
    rw [hup]
    refine ⟨hwf2, ?_⟩
    intro username2 c2
    rw [hbal]
    simp

theorem exchange_same_run (db : DB) (hwf : WF db)
    (ValidateToken : String → Except String String) (rates : Rates)
    (req : ExchangeRequest) (tokenString username : String) (b r : ℚ)
    (htok : tokenString ≠ "") (hval : ValidateToken tokenString = Except.ok username)
    (hsame : req.ToCurrency = req.FromCurrency)
    (hb : balanceOf db username req.FromCurrency = some b) (hle : req.Amount ≤ b)
    (hr : rates ("RUB_" ++ req.FromCurrency) = some r) (hr0 : r ≠ 0) :
    ∃ db2,
      HandleExchange ValidateToken (Except.ok rates) (recorded storage) (Bind.ok req)
          tokenString (db, []) =
        ([⟨200, Body.exchange "exchanged successfully" req.Amount (balanceOf db2 username)⟩],
          (db2, [Call.GetUserBalance username,
            Call.UpdateUsersBalance username req.FromCurrency (req.Amount * -1),
            Call.UpdateUsersBalance username req.FromCurrency req.Amount,
            Call.GetUserBalance username])) ∧
      WF db2 ∧ ∀ username2, balanceOf db2 username2 = balanceOf db username2 := by
  obtain ⟨db1, hup1, hwf1, -, hbal1, -⟩ :=
    update_read db hwf username req.FromCurrency (req.Amount * -1) b hb
  have hb1 : balanceOf db1 username req.FromCurrency = some (b + req.Amount * -1) := by
    rw [hbal1]; simp
  obtain ⟨db2, hup2, hwf2, -, hbal2, -⟩ :=
    update_read db1 hwf1 username req.FromCurrency req.Amount _ hb1
  have hconv : convertCurrencies req.FromCurrency req.ToCurrency req.Amount rates =
      (req.Amount, none) := by
    rw [hsame, convertCurrencies_pair req.FromCurrency req.FromCurrency req.Amount r r rates
      hr hr]
    rw [div_mul_cancel₀ _ hr0]
  have hidx : ¬ index (balanceOf db username) req.FromCurrency < req.Amount := by
    simp [index, hb, hle]
  refine ⟨db2, ?_, hwf2, ?_⟩
  · simp only [mul_neg, mul_one] at hup1
    rw [hsame] at hconv
    simp [HandleExchange, recorded, storage, htok, hval, GetUserBalance_eq username db hwf,
      hidx, hup1, hconv, hsame, hup2, GetUserBalance_eq username db2 hwf2]
  · intro username2
    funext c
    rw [hbal2, hbal1]
    by_cases h : username2 = username ∧ c = req.FromCurrency
    · obtain ⟨rfl, rfl⟩ := h
      simp [hb]
    · simp [h]

theorem HandleWithdraw_state (db : DB) (hwf : WF db)
    (ValidateToken : String → Except String String)
    (req : WithdrawRequest) (tokenString : String) :
    (HandleWithdraw ValidateToken storage (Bind.ok req) tokenString db).2 = db ∨
      ∃ username,
        (HandleWithdraw ValidateToken storage (Bind.ok req) tokenString db).2 =
          (Storage.UpdateUsersBalance username req.Currency (req.Amount * -1) db).2 := by
  by_cases htok : tokenString = ""
  · left; simp [HandleWithdraw, htok]
  · cases hval : ValidateToken tokenString with
    | error err => left; simp [HandleWithdraw, htok, hval]
    | ok username =>
      have hm := GetUserBalance_eq username db hwf
      by_cases hgt : index (balanceOf db username) req.Currency < req.Amount
      · left
        simp [HandleWithdraw, storage, htok, hval, hm, VerifyWithdrawalAmount, hgt]
      · right
        refine ⟨username, ?_⟩
        rcases hup : Storage.UpdateUsersBalance username req.Currency (req.Amount * -1) db with
          ⟨_ | e, db1⟩
        · simp only [mul_neg, mul_one] at hup
          obtain ⟨m1, hm1⟩ := GetUserBalance_ok username db1
          simp [HandleWithdraw, storage, htok, hval, hm, VerifyWithdrawalAmount, hgt, hup, hm1]
        · simp only [mul_neg, mul_one] at hup
          simp [HandleWithdraw, storage, htok, hval, hm, VerifyWithdrawalAmount, hgt, hup]

theorem balanceOf_unprovisioned (db : DB) (hprov : Provisioned db) (username c : String)
    (hc : c ∉ currencies) : balanceOf db username c = none := by
  unfold balanceOf
  cases userId db username with
  | none => rfl
  | some uid =>
    simp only [walletOf, Option.map_eq_none', List.find?_eq_none]
    intro w hw hk
    have hcur : w.currency = c := by simpa using (of_decide_eq_true hk).2
    exact hc (hcur ▸ hprov w hw)

theorem GetUserBalance_no_user (db : DB) (username : String)
    (h : ∀ u ∈ db.users, u.username ≠ username) :
    Storage.GetUserBalance username db = Except.ok fun _ => none := by
  have hj : Storage.joined username db = [] := by
    unfold Storage.joined
    rw [List.flatMap_eq_nil_iff]
    intro w _
    rw [List.map_eq_nil_iff, List.filter_eq_nil_iff]
    intro u hu hk
    exact h u hu (of_decide_eq_true hk).2
  simp [Storage.GetUserBalance, hj]

theorem testDB_withdraw_balance (a : ℚ) (ha : a ≤ 100) :
    ∃ db2 m2, HandleWithdraw acceptAll storage (Bind.ok ⟨a, "USD"⟩) "testuser" testDB =
        ([⟨200, Body.deposit "Withdrawal successfull" m2⟩], db2) ∧
      Storage.GetUserBalance "testuser" db2 = Except.ok m2 ∧
      m2 "USD" = some (100 - a) := by
  obtain ⟨db2, hup, hwf2, -, hbal, -⟩ :=
    update_read testDB testDB_WF "testuser" "USD" (a * -1) 100 testDB_USD
  have hidx : ¬ index (balanceOf testDB "testuser") "USD" < a := by
    simp [index, testDB_USD, ha]
  simp only [mul_neg, mul_one] at hup
  refine ⟨db2, balanceOf db2 "testuser", ?_, GetUserBalance_eq "testuser" db2 hwf2, ?_⟩
  · simp [HandleWithdraw, storage, acceptAll, GetUserBalance_eq "testuser" testDB testDB_WF,
      VerifyWithdrawalAmount, hidx, hup, GetUserBalance_eq "testuser" db2 hwf2]
  · rw [hbal]; simp; ring

theorem HandleWithdraw_no_increase (db : DB) (hwf : WF db)
    (ValidateToken : String → Except String String)
    (req : WithdrawRequest) (tokenString : String) (hpos : 0 ≤ req.Amount)
    (username2 c : String) :
    index (balanceOf (HandleWithdraw ValidateToken storage (Bind.ok req) tokenString db).2
      username2) c ≤ index (balanceOf db username2) c := by
  rcases HandleWithdraw_state db hwf ValidateToken req tokenString with h | ⟨username, h⟩
  · rw [h]
  · rw [h]
    have ht := (update_total db hwf username req.Currency (req.Amount * -1)).2 username2 c
    unfold index
    rw [ht]
    by_cases hk : username2 = username ∧ c = req.Currency
    · obtain ⟨hk1, hk2⟩ := hk
      subst hk1 hk2
      cases hb : balanceOf db username2 req.Currency with
      | none => simp
      | some b =>
        simp
        linarith
    · simp [hk]

theorem HandleWithdraw_state_WF (db : DB) (hwf : WF db)
    (ValidateToken : String → Except String String)
    (req : WithdrawRequest) (tokenString : String) :
    WF (HandleWithdraw ValidateToken storage (Bind.ok req) tokenString db).2 := by
  rcases HandleWithdraw_state db hwf ValidateToken req tokenString with h | ⟨username, h⟩
  · rw [h]; exact hwf
  · rw [h]; exact (update_total db hwf username req.Currency (req.Amount * -1)).1

theorem testDB_Provisioned : Provisioned testDB := by
  simp [Provisioned, testDB, currencies]

theorem deposit_unprovisioned (db : DB) (hprov : Provisioned db)
    (ValidateToken : String → Except String String) (req : DepositRequest)
    (tokenString : String) (hc : req.Currency ∉ currencies) :
    succeeded (HandleDeposit ValidateToken storage (Bind.ok req) tokenString db).1 = false ∧
      (HandleDeposit ValidateToken storage (Bind.ok req) tokenString db).2 = db := by
  by_cases htok : tokenString = ""
  · simp [HandleDeposit, htok, succeeded, logError]
  · cases hval : ValidateToken tokenString with
    | error err => simp [HandleDeposit, htok, hval, succeeded, logError]
    | ok username =>
      obtain ⟨e, he⟩ := update_fail db username req.Currency req.Amount
        (balanceOf_unprovisioned db hprov username req.Currency hc)
      simp [HandleDeposit, storage, htok, hval, he, succeeded, logError]

theorem withdraw_unprovisioned (db : DB) (hwf : WF db) (hprov : Provisioned db)
    (ValidateToken : String → Except String String) (req : WithdrawRequest)
    (tokenString : String) (hc : req.Currency ∉ currencies) :
    succeeded (HandleWithdraw ValidateToken storage (Bind.ok req) tokenString db).1 = false ∧
      (HandleWithdraw ValidateToken storage (Bind.ok req) tokenString db).2 = db := by
  by_cases htok : tokenString = ""
  · simp [HandleWithdraw, htok, succeeded, logError]
  · cases hval : ValidateToken tokenString with
    | error err => simp [HandleWithdraw, htok, hval, succeeded, logError]
    | ok username =>
      have hm := GetUserBalance_eq username db hwf
      have hnone := balanceOf_unprovisioned db hprov username req.Currency hc
      by_cases hgt : index (balanceOf db username) req.Currency < req.Amount
      · simp [HandleWithdraw, storage, htok, hval, hm, VerifyWithdrawalAmount, hgt, succeeded,
          logError]
      · obtain ⟨e, he⟩ := update_fail db username req.Currency (req.Amount * -1) hnone
        simp only [mul_neg, mul_one] at he
        simp [HandleWithdraw, storage, htok, hval, hm, VerifyWithdrawalAmount, hgt, he,
          succeeded, logError]

theorem exchange_unprovisioned (db : DB) (hwf : WF db) (hprov : Provisioned db)
    (ValidateToken : String → Except String String) (GetExchangeRates : Except String Rates)
    (req : ExchangeRequest) (tokenString : String) (hc : req.FromCurrency ∉ currencies) :
    succeeded (HandleExchange ValidateToken GetExchangeRates storage (Bind.ok req) tokenString
        db).1 = false ∧
      (HandleExchange ValidateToken GetExchangeRates storage (Bind.ok req) tokenString db).2 =
        db := by
  by_cases htok : tokenString = ""
  · simp [HandleExchange, htok, succeeded, logError]
  · cases hval : ValidateToken tokenString with
    | error err => simp [HandleExchange, htok, hval, succeeded, logError]
    | ok username =>
      cases GetExchangeRates with
      | error fault => simp [HandleExchange, htok, hval, succeeded, logError]
      | ok rates =>
        have hm := GetUserBalance_eq username db hwf
        have hnone := balanceOf_unprovisioned db hprov username req.FromCurrency hc
        by_cases hlt : index (balanceOf db username) req.FromCurrency < req.Amount
        · simp [HandleExchange, storage, htok, hval, hm, hlt, succeeded, logError]
        · obtain ⟨e, he⟩ := update_fail db username req.FromCurrency (req.Amount * -1) hnone
          simp only [mul_neg, mul_one] at he
          simp [HandleExchange, storage, htok, hval, hm, hlt, he, succeeded, logError]

theorem applied_applied (uid : Nat) (c : String) (d1 d2 : ℚ) (ws : List WalletRow) :
    applied uid c d2 (applied uid c d1 ws) = applied uid c (d1 + d2) ws := by
  unfold applied
  rw [List.map_map]
  apply List.map_congr_left
  intro w _
  by_cases hk : w.user_id = uid ∧ w.currency = c
  · simp [hk, add_assoc]
  · simp [hk]

theorem update_twice (db : DB) (username c : String) (d1 d2 b : ℚ) (uid : Nat)
    (hu : userId db username = some uid) (hw : walletOf db uid c = some b) :
    Storage.UpdateUsersBalance username c d2 (Storage.UpdateUsersBalance username c d1 db).2 =
      (none, { db with wallets := applied uid c (d1 + d2) db.wallets }) := by
  rw [update_ok username c d1 b db uid hu hw]
  have hu1 : userId { db with wallets := applied uid c d1 db.wallets } username = some uid := hu
  have hw1 : walletOf { db with wallets := applied uid c d1 db.wallets } uid c =
      some (b + d1) := by
    rw [walletOf_applied, hw]
    simp
  rw [update_ok username c d2 (b + d1) _ uid hu1 hw1]
  simp only [applied_applied]

theorem RegisterUser_rollback (userID : Nat) (username passwordHash email : String)
    (db db2 : DB) (err : String)
    (h : Storage.RegisterUser userID username passwordHash email db = (some err, db2)) :
    db2 = db := by
  unfold Storage.RegisterUser at h
  simp only at h
  split at h
  · exact ((Prod.mk.inj h).2).symm
  · split at h
    · exact ((Prod.mk.inj h).2).symm
    · simp at h

theorem RegisterUser_run (db : DB) (userID : Nat) (username passwordHash email : String)
    (hfk : ∀ w ∈ db.wallets, ∃ u ∈ db.users, u.id = w.user_id)
    (hid : ∀ u ∈ db.users, u.id ≠ userID)
    (hname : ∀ u ∈ db.users, u.username ≠ username)
    (hemail : ∀ u ∈ db.users, u.email ≠ email) :
    Storage.RegisterUser userID username passwordHash email db =
      (none, { users := db.users ++ [⟨userID, username, passwordHash, email⟩],
               wallets := db.wallets ++
                 [⟨userID, "USD", 0⟩, ⟨userID, "EUR", 0⟩, ⟨userID, "RUB", 0⟩] }) := by
  have hw : ∀ w ∈ db.wallets, w.user_id ≠ userID := by
    intro w hwm heq
    obtain ⟨u, hu, huid⟩ := hfk w hwm
    exact hid u hu (huid.trans heq)
  have hany : ¬ ∃ x ∈ db.users, x.id = userID ∨ x.username = username ∨ x.email = email := by
    rintro ⟨u, hu, h | h | h⟩
    · exact hid u hu h
    · exact hname u hu h
    · exact hemail u hu h
  have h0 : ∀ c : String, ¬ ∃ x ∈ db.wallets, x.user_id = userID ∧ x.currency = c := by
    rintro c ⟨w, hwm, h, -⟩
    exact hw w hwm h
  simp [Storage.RegisterUser, hany, Storage.insertWallets, List.any_append, h0]

theorem registered_WF (db : DB) (hwf : WF db) (userID : Nat)
    (username passwordHash email : String)
    (hw : ∀ w ∈ db.wallets, w.user_id ≠ userID)
    (hid : ∀ u ∈ db.users, u.id ≠ userID)
    (hname : ∀ u ∈ db.users, u.username ≠ username) :
    WF { users := db.users ++ [⟨userID, username, passwordHash, email⟩],
         wallets := db.wallets ++
           [⟨userID, "USD", 0⟩, ⟨userID, "EUR", 0⟩, ⟨userID, "RUB", 0⟩] } := by
  obtain ⟨h1, h2, h3⟩ := hwf
  refine ⟨?_, ?_, ?_⟩
  · simp only [List.map_append, List.map_cons, List.map_nil]
    rw [List.nodup_append]
    refine ⟨h1, by simp, ?_⟩
    intro a ha hb
    obtain ⟨u, hu, rfl⟩ := List.mem_map.mp ha
    simp only [List.mem_singleton] at hb
    exact hid u hu hb
  · simp only [List.map_append, List.map_cons, List.map_nil]
    rw [List.nodup_append]
    refine ⟨h2, by simp, ?_⟩
    intro a ha hb
    obtain ⟨u, hu, rfl⟩ := List.mem_map.mp ha
    simp only [List.mem_singleton] at hb
    exact hname u hu hb
  · simp only [List.map_append, List.map_cons, List.map_nil]
    rw [List.nodup_append]
    refine ⟨h3, by simp, ?_⟩
    intro a ha hb
    obtain ⟨w, hwm, rfl⟩ := List.mem_map.mp ha
    have hne := hw w hwm
    simp only [List.mem_cons, Prod.mk.injEq, List.mem_singleton, List.not_mem_nil,
      or_false] at hb
    rcases hb with h | h | h <;> exact hne h.1

theorem registered_balance (db : DB) (userID : Nat) (username passwordHash email : String)
    (hw : ∀ w ∈ db.wallets, w.user_id ≠ userID)
    (hname : ∀ u ∈ db.users, u.username ≠ username) (c : String) :
    balanceOf { users := db.users ++ [⟨userID, username, passwordHash, email⟩],
                wallets := db.wallets ++
                  [⟨userID, "USD", 0⟩, ⟨userID, "EUR", 0⟩, ⟨userID, "RUB", 0⟩] } username c =
      if c ∈ currencies then some 0 else none := by
  have hu : (db.users.find? fun u => decide (u.username = username)) = none := by
    rw [List.find?_eq_none]
    intro u hu
    simpa using hname u hu
  have hwn : (db.wallets.find? fun w => decide (w.user_id = userID ∧ w.currency = c)) =
      none := by
    rw [List.find?_eq_none]
    intro w hwm
    simp [hw w hwm]
  simp only [balanceOf, userId, walletOf, List.find?_append, hu, hwn, Option.none_or,
    List.find?_cons, List.find?_nil, decide_True, Option.map_some', true_and]
  by_cases h1 : c = "USD"
  · subst h1; simp [currencies]
  · by_cases h2 : c = "EUR"
    · subst h2; simp [currencies]
    · by_cases h3 : c = "RUB"
      · subst h3; simp [currencies]
      · have e1 : ¬ "USD" = c := fun h => h1 h.symm
        have e2 : ¬ "EUR" = c := fun h => h2 h.symm
        have e3 : ¬ "RUB" = c := fun h => h3 h.symm
        simp [currencies, h1, h2, h3, e1, e2, e3]

theorem value_applied (rates : Rates) (uid : Nat) (c : String) (a : ℚ) (ws : List WalletRow)
    (hnd : (ws.map fun w => (w.user_id, w.currency)).Nodup) (w0 : WalletRow)
    (hf : (ws.find? fun w => w.user_id = uid ∧ w.currency = c) = some w0) :
    (((applied uid c a ws).filter fun w => w.user_id = uid).map fun w =>
        w.balance / index rates ("RUB_" ++ w.currency)).sum =
      ((ws.filter fun w => w.user_id = uid).map fun w =>
        w.balance / index rates ("RUB_" ++ w.currency)).sum +
        a / index rates ("RUB_" ++ c) := by
  induction ws with
  | nil => simp at hf
  | cons w t ih =>
    rw [List.map_cons, List.nodup_cons] at hnd
    by_cases hk : w.user_id = uid ∧ w.currency = c
    · have hnone : (t.find? fun x => decide (x.user_id = uid ∧ x.currency = c)) = none := by
        rw [List.find?_eq_none]
        intro x hx hxk
        have hxk2 : x.user_id = uid ∧ x.currency = c := of_decide_eq_true hxk
        apply hnd.1
        rw [List.mem_map]
        exact ⟨x, hx, by rw [hxk2.1, hxk2.2, hk.1, hk.2]⟩
      rw [applied_cons, applied_of_no_row uid c a t hnone]
      simp only [hk, and_self, if_true]
      simp only [List.filter_cons, hk.1, decide_True, if_true, List.map_cons, List.sum_cons,
        hk.2]
      rw [add_div]
      ring
    · have hft : (t.find? fun x => decide (x.user_id = uid ∧ x.currency = c)) = some w0 := by
        rw [List.find?_cons] at hf
        simpa [hk] using hf
      have h := ih hnd.2 hft
      rw [applied_cons]
      simp only [hk, if_false]
      by_cases hu : w.user_id = uid
      · simp only [List.filter_cons, hu, decide_True, if_true, List.map_cons, List.sum_cons]
        simp only [hu] at h
        rw [h]
        ring
      · simp only [List.filter_cons, hu, decide_False]
        exact h

theorem baseValue_applied (rates : Rates) (db : DB) (hwf : WF db) (username c : String)
    (a b : ℚ) (uid : Nat) (hu : userId db username = some uid)
    (hw : walletOf db uid c = some b) :
    baseValue rates username { db with wallets := applied uid c a db.wallets } =
      baseValue rates username db + a / index rates ("RUB_" ++ c) := by
  obtain ⟨u, hfu, rfl⟩ : ∃ u, (db.users.find? fun u => u.username = username) = some u ∧
      u.id = uid := by simpa [userId] using hu
  obtain ⟨w0, hfw, -⟩ : ∃ w, (db.wallets.find? fun w => w.user_id = u.id ∧ w.currency = c) =
      some w ∧ w.balance = b := by simpa [walletOf] using hw
  have hj1 := joined_eq username db hwf.2.1
  have hj2 := joined_eq username { db with wallets := applied u.id c a db.wallets } hwf.2.1
  simp only [hfu] at hj1 hj2
  unfold baseValue
  rw [hj1, hj2]
  exact value_applied rates u.id c a db.wallets hwf.2.2 w0 hfw

theorem update_none_inv (db : DB) (username c : String) (a : ℚ) (db1 : DB)
    (h : Storage.UpdateUsersBalance username c a db = (none, db1)) :
    ∃ uid b, userId db username = some uid ∧ walletOf db uid c = some b ∧
      db1 = { db with wallets := applied uid c a db.wallets } := by
  cases hb : balanceOf db username c with
  | none =>
    obtain ⟨e, he⟩ := update_fail db username c a hb
    rw [he] at h
    simp at h
  | some b =>
    obtain ⟨uid, hu, hw⟩ := balanceOf_some db username c b hb
    refine ⟨uid, b, hu, hw, ?_⟩
    rw [update_ok username c a b db uid hu hw] at h
    exact ((Prod.mk.inj h).2).symm

theorem convertCurrencies_none_inv (F T : String) (amount toAdd : ℚ) (rates : Rates)
    (h : convertCurrencies F T amount rates = (toAdd, none)) :
    ∃ rF rT, rates ("RUB_" ++ F) = some rF ∧ rates ("RUB_" ++ T) = some rT ∧
      toAdd = amount / rF * rT := by
  cases hF : rates ("RUB_" ++ F) with
  | none => simp [convertCurrencies, hF] at h
  | some rF =>
    cases hT : rates ("RUB_" ++ T) with
    | none => simp [convertCurrencies, hF, hT] at h
    | some rT =>
      refine ⟨rF, rT, rfl, rfl, ?_⟩
      have h2 : amount / rF * rT = toAdd := by
        simpa [convertCurrencies, hF, hT] using h
      exact h2.symm

theorem exchange_conserves (db : DB) (hwf : WF db)
    (ValidateToken : String → Except String String) (rates : Rates)
    (req : ExchangeRequest) (tokenString username : String)
    (hval : ValidateToken tokenString = Except.ok username)
    (hne : req.FromCurrency ≠ req.ToCurrency)
    (hrates : ∀ c b, balanceOf db username c = some b →
      ∃ r, rates ("RUB_" ++ c) = some r ∧ 0 < r)
    (hs : succeeded (HandleExchange ValidateToken (Except.ok rates) storage (Bind.ok req)
      tokenString db).1 = true) :
    baseValue rates username (HandleExchange ValidateToken (Except.ok rates) storage
      (Bind.ok req) tokenString db).2 = baseValue rates username db := by
  by_cases htok : tokenString = ""
  · simp [HandleExchange, htok, succeeded, logError] at hs
  have hm := GetUserBalance_eq username db hwf
  by_cases hlt : index (balanceOf db username) req.FromCurrency < req.Amount
  · simp [HandleExchange, storage, htok, hval, hm, hlt, succeeded, logError] at hs
  rcases hup : Storage.UpdateUsersBalance username req.FromCurrency (req.Amount * -1) db with
    ⟨_ | e, db1⟩
  swap
  · simp only [mul_neg, mul_one] at hup
    simp [HandleExchange, storage, htok, hval, hm, hlt, hup, succeeded, logError] at hs
  obtain ⟨uid, bF, hu, hwF, hdb1⟩ := update_none_inv db username req.FromCurrency _ db1 hup
  simp only [mul_neg, mul_one] at hup
  rcases hconv : convertCurrencies req.FromCurrency req.ToCurrency req.Amount rates with
    ⟨toAdd, _ | e⟩
  swap
  · simp [HandleExchange, storage, htok, hval, hm, hlt, hup, hconv, succeeded, logError] at hs
  obtain ⟨rF, rT, hrF, hrT, hadd⟩ := convertCurrencies_none_inv _ _ _ _ rates hconv
  rcases hup2 : Storage.UpdateUsersBalance username req.ToCurrency toAdd db1 with
    ⟨_ | e, db2⟩
  swap
  · simp [HandleExchange, storage, htok, hval, hm, hlt, hup, hconv, hup2, succeeded,
      logError] at hs
  obtain ⟨uid2, bT, hu2, hwT, hdb2⟩ := update_none_inv db1 username req.ToCurrency _ db2 hup2
  obtain ⟨m2, hm2⟩ := GetUserBalance_ok username db2
  have hfinal : (HandleExchange ValidateToken (Except.ok rates) storage (Bind.ok req)
      tokenString db).2 = db2 := by
    simp [HandleExchange, storage, htok, hval, hm, hlt, hup, hconv, hup2, hm2]
  rw [hfinal, hdb2]
  have hwf1 : WF db1 := by
    rw [hdb1]; exact WF_applied db uid req.FromCurrency _ hwf
  rw [baseValue_applied rates db1 hwf1 username req.ToCurrency toAdd bT uid2 hu2 hwT, hdb1,
    baseValue_applied rates db hwf username req.FromCurrency _ bF uid hu hwF]
  have huid : uid2 = uid := by
    have h1 : userId db1 username = userId db username := by rw [hdb1]; rfl
    rw [h1, hu] at hu2
    exact (Option.some.inj hu2).symm
  have hTdb : balanceOf db username req.ToCurrency = some bT := by
    have h1 : walletOf db uid req.ToCurrency = some bT := by
      have h2 := hwT
      rw [hdb1, huid, walletOf_applied] at h2
      have hne2 : ¬ req.ToCurrency = req.FromCurrency := fun h => hne h.symm
      simpa [hne2] using h2
    simp [balanceOf, hu, h1]
  obtain ⟨r, hr, hrpos⟩ := hrates req.ToCurrency bT hTdb
  have hrT0 : rT ≠ 0 := by
    rw [hrT] at hr
    cases hr
    exact ne_of_gt hrpos
  have hiF : index rates ("RUB_" ++ req.FromCurrency) = rF := by simp [index, hrF]
  have hiT : index rates ("RUB_" ++ req.ToCurrency) = rT := by simp [index, hrT]
  rw [hiF, hiT, hadd, mul_div_cancel_right₀ _ hrT0]
  ring

theorem withdrawDB_exchange :
    succeeded (HandleExchange acceptAll (Except.ok testRates) storage
      (Bind.ok ⟨"USD", "EUR", 100⟩) "testuser" withdrawDB).1 = true := by
  have hUSD : balanceOf withdrawDB "testuser" "USD" = some 100 := by
    simp [balanceOf, userId, walletOf, withdrawDB]
  have hEUR : balanceOf withdrawDB "testuser" "EUR" = some 50 := by
    simp [balanceOf, userId, walletOf, withdrawDB]
  obtain ⟨db1, hup1, hwf1, -, hbal1, -⟩ :=
    update_read withdrawDB withdrawDB_WF "testuser" "USD" (100 * -1) 100 hUSD
  have hEUR1 : balanceOf db1 "testuser" "EUR" = some 50 := by
    rw [hbal1]; simp [hEUR]
  obtain ⟨db2, hup2, hwf2, -, -, -⟩ :=
    update_read db1 hwf1 "testuser" "EUR" ((100 : ℚ) / (12 / 1000) * (11 / 1000)) 50 hEUR1
  have hidx : ¬ index (balanceOf withdrawDB "testuser") "USD" < 100 := by
    simp [index, hUSD]
  have hconv := convertCurrencies_pair "USD" "EUR" 100 (12 / 1000) (11 / 1000) testRates
    (by simp [testRates]) (by simp [testRates])
  simp only [mul_neg, mul_one] at hup1
  simp [HandleExchange, storage, acceptAll,
    GetUserBalance_eq "testuser" withdrawDB withdrawDB_WF, hidx, hup1, hconv, hup2,
    GetUserBalance_eq "testuser" db2 hwf2, succeeded]

theorem withdrawDB_rates : ∀ c b, balanceOf withdrawDB "testuser" c = some b →
    ∃ r, testRates ("RUB_" ++ c) = some r ∧ 0 < r := by
  intro c b h
  by_cases h1 : c = "USD"
  · subst h1; exact ⟨12 / 1000, by simp [testRates], by norm_num⟩
  · by_cases h2 : c = "EUR"
    · subst h2; exact ⟨11 / 1000, by simp [testRates], by norm_num⟩
    · exfalso
      have e1 : ¬ "USD" = c := fun h => h1 h.symm
      have e2 : ¬ "EUR" = c := fun h => h2 h.symm
      simp [balanceOf, userId, walletOf, withdrawDB, List.find?_cons, e1, e2] at h

/-! ## Lemmas on the machine representations -/

theorem floor_half (n : ℤ) : ⌊(n : ℚ) + 1 / 2⌋ = n := by
  rw [Int.floor_eq_iff]
  constructor <;> norm_num

theorem round8_scaled (x : ℚ) (n : ℤ) (h : x * 10 ^ 8 = n) : round8 x = x := by
  have hx : x = n / 10 ^ 8 := by
    rw [← h]; field_simp
  unfold round8
  split
  · rw [h, floor_half]; exact hx.symm
  · have h2 : -x * 10 ^ 8 = ((-n : ℤ) : ℚ) := by
      push_cast; rw [← h]; ring
    rw [h2, floor_half, hx]; push_cast; ring

theorem round8_grid (x : ℚ) : ∃ n : ℤ, round8 x * 10 ^ 8 = n := by
  unfold round8
  split
  · exact ⟨⌊x * 10 ^ 8 + 1 / 2⌋, by field_simp⟩
  · exact ⟨-⌊-x * 10 ^ 8 + 1 / 2⌋, by push_cast; field_simp⟩

theorem round8_nonpos (x : ℚ) (h : x ≤ 0) : round8 x ≤ 0 := by
  unfold round8
  split
  · have hx : x = 0 := le_antisymm h ‹_›
    subst hx
    have : ⌊(0 : ℚ) * 10 ^ 8 + 1 / 2⌋ = 0 := by
      rw [Int.floor_eq_iff]; constructor <;> norm_num
    rw [this]; simp
  · rw [neg_nonpos]
    apply div_nonneg _ (by norm_num)
    have : (0 : ℤ) ≤ ⌊-x * 10 ^ 8 + 1 / 2⌋ := by
      apply Int.floor_nonneg.mpr
      have : 0 ≤ -x := by linarith
      positivity
    exact_mod_cast this

theorem numeric_some (x v : ℚ) (h : numeric x = some v) :
    v = round8 x ∧ |round8 x| < 10 ^ 11 := by
  unfold numeric at h
  split at h
  · exact ⟨by simpa using h.symm, ‹_›⟩
  · simp at h

theorem numeric_fits (x : ℚ) (h : |round8 x| < 10 ^ 11) : numeric x = some (round8 x) := by
  simp [numeric, h]

theorem numeric_overflow (x : ℚ) (h : ¬ |round8 x| < 10 ^ 11) : numeric x = none := by
  simp [numeric, h]

theorem numeric_scaled (x : ℚ) (n : ℤ) (h : x * 10 ^ 8 = n) (hr : |x| < 10 ^ 11) :
    numeric x = some x := by
  have := round8_scaled x n h
  simp [numeric, this, hr]

theorem exact_reading_balance (username : String) (db : DB) :
    Machine.GetUserBalance noRounding username db = Storage.GetUserBalance username db := rfl

theorem exact_reading_exchange {σ : Type} (ValidateToken : String → Except String String)
    (GetExchangeRates : Except String Rates) (exchanger : Exchanger σ)
    (body : Bind ExchangeRequest) (tokenString : String) (s : σ) :
    Machine.HandleExchange noRounding ValidateToken GetExchangeRates exchanger body
        tokenString s =
      HandleExchange ValidateToken GetExchangeRates exchanger body tokenString s := rfl

theorem scan_read (fl : Rounding) (username : String) (db : DB) (h : WF db) :
    Machine.GetUserBalance fl username db = Except.ok (scanOf fl db username) := by
  have h0 := GetUserBalance_eq username db h
  simp only [Storage.GetUserBalance, Except.ok.injEq] at h0
  simp only [Machine.GetUserBalance]
  congr 1
  funext c
  show _ = (balanceOf db username c).map fl.float64
  rw [← congrFun h0 c]
  by_cases hg : (List.filter (fun w => decide (w.currency = c))
      (Storage.joined username db)) = []
  · simp [hg]
  · simp [hg]

theorem selected_of_wallet (db : DB) (hwf : WF db) (uid : Nat) (c : String) (b : ℚ)
    (hw : walletOf db uid c = some b) :
    ∃ w, (db.wallets.filter fun w => w.user_id = uid ∧ w.currency = c) = [w] ∧
      w.balance = b ∧ ∀ x ∈ db.wallets, x.user_id = uid ∧ x.currency = c → x.balance = b := by
  obtain ⟨w, hfw, hwb⟩ : ∃ w, (db.wallets.find? fun w => w.user_id = uid ∧ w.currency = c) =
      some w ∧ w.balance = b := by simpa [walletOf] using hw
  have hp : (fun x : WalletRow => decide (x.user_id = uid ∧ x.currency = c)) =
      fun x => decide ((fun x : WalletRow => (x.user_id, x.currency)) x = (uid, c)) := by
    funext x; simp
  refine ⟨w, ?_, hwb, ?_⟩
  · rw [hp, filter_key_unique (fun x : WalletRow => (x.user_id, x.currency)) (uid, c)
      db.wallets hwf.2.2, ← hp, hfw]
    rfl
  · intro x hx hk
    have hfind := mem_find_unique db.wallets hwf.2.2 x hx
    rw [hk.1, hk.2, hfw] at hfind
    rw [← hwb]
    exact congrArg WalletRow.balance (Option.some.inj hfind).symm

theorem numeric_update_found (username c : String) (a : ℚ) (db : DB) (u : UserRow)
    (h : (db.users.find? fun u => u.username = username) = some u) :
    Machine.UpdateUsersBalance username c a db =
      if ((db.wallets.filter fun w => w.user_id = u.id ∧ w.currency = c).any
          fun w => (numeric (w.balance + a)).isNone) = true then
        (some ("storage.postgres.UpdateUsersBalance" ++
          ": failed to update wallet: pq: numeric field overflow"), db)
      else if (db.wallets.filter fun w => w.user_id = u.id ∧ w.currency = c).length = 0 then
        (some ("storage.postgres.UpdateUsersBalance" ++ ": No wallet found for user " ++
          username ++ " and currency " ++ c),
          { db with wallets := db.wallets.map fun w =>
              if w.user_id = u.id ∧ w.currency = c then
                { w with balance := round8 (w.balance + a) }
              else w })
      else (none, { db with wallets := db.wallets.map fun w =>
              if w.user_id = u.id ∧ w.currency = c then
                { w with balance := round8 (w.balance + a) }
              else w }) := by
  have hany : (db.users.any fun u => u.username = username) = true := by
    rw [List.any_eq_true]
    have hp := List.find?_some h
    exact ⟨u, List.mem_of_find?_eq_some h, hp⟩
  simp only [Machine.UpdateUsersBalance, hany, h]
  rfl

theorem numeric_update_overflow (db : DB) (hwf : WF db) (username c : String) (a b : ℚ)
    (hb : balanceOf db username c = some b) (hv : numeric (b + a) = none) :
    Machine.UpdateUsersBalance username c a db =
      (some ("storage.postgres.UpdateUsersBalance" ++
        ": failed to update wallet: pq: numeric field overflow"), db) := by
  obtain ⟨uid, hu, hw⟩ := balanceOf_some db username c b hb
  obtain ⟨u, hfu, rfl⟩ : ∃ u, (db.users.find? fun u => u.username = username) = some u ∧
      u.id = uid := by simpa [userId] using hu
  obtain ⟨w, hsel, hwb, -⟩ := selected_of_wallet db hwf u.id c b hw
  rw [numeric_update_found username c a db u hfu, hsel]
  simp [hwb, hv]

theorem numeric_update_ok (db : DB) (hwf : WF db) (username c : String) (a b v : ℚ)
    (hb : balanceOf db username c = some b) (hv : numeric (b + a) = some v) :
    Machine.UpdateUsersBalance username c a db = Storage.UpdateUsersBalance username c (v - b) db := by
  obtain ⟨uid, hu, hw⟩ := balanceOf_some db username c b hb
  rw [update_ok username c (v - b) b db uid hu hw]
  obtain ⟨u, hfu, rfl⟩ : ∃ u, (db.users.find? fun u => u.username = username) = some u ∧
      u.id = uid := by simpa [userId] using hu
  obtain ⟨w, hsel, hwb, hall⟩ := selected_of_wallet db hwf u.id c b hw
  have hmap : (db.wallets.map fun w =>
      if w.user_id = u.id ∧ w.currency = c then
        { w with balance := round8 (w.balance + a) }
      else w) = applied u.id c (v - b) db.wallets := by
    unfold applied
    apply List.map_congr_left
    intro x hx
    by_cases hk : x.user_id = u.id ∧ x.currency = c
    · have hxb := hall x hx hk
      have hvr := (numeric_some _ _ hv).1
      simp only [hk, and_self, if_true, hxb]
      congr 1
      rw [← hvr]
      ring
    · simp only [hk, if_false]
  rw [numeric_update_found username c a db u hfu, hsel, hmap]
  simp [hwb, hv]

theorem numeric_update_read (db : DB) (hwf : WF db) (username currency : String)
    (delta b v : ℚ) (hb : balanceOf db username currency = some b)
    (hv : numeric (b + delta) = some v) :
    ∃ db2, Machine.UpdateUsersBalance username currency delta db = (none, db2) ∧ WF db2 ∧
      db2.users = db.users ∧
      (∀ username2 c2, balanceOf db2 username2 c2 =
        if username2 = username ∧ c2 = currency then some v
        else balanceOf db username2 c2) ∧
      (NonNeg db → 0 ≤ v → NonNeg db2) := by
  obtain ⟨db2, hup, hwf2, husers, hbal, hnn⟩ :=
    update_read db hwf username currency (v - b) b hb
  refine ⟨db2, ?_, hwf2, husers, ?_, ?_⟩
  · rw [numeric_update_ok db hwf username currency delta b v hb hv, hup]
  · intro username2 c2
    rw [hbal]
    simp
  · intro hn hpos
    exact hnn hn (by linarith)

theorem deposit_numeric_run (fl : Rounding) (db : DB) (hwf : WF db)
    (ValidateToken : String → Except String String) (req : DepositRequest)
    (tokenString username : String) (b : ℚ)
    (htok : tokenString ≠ "") (hval : ValidateToken tokenString = Except.ok username)
    (hb : balanceOf db username req.Currency = some b) :
    (numeric (b + fl.text req.Amount) = none →
      HandleDeposit ValidateToken (Machine.storage fl) (Bind.ok req) tokenString db =
        ([logError ("storage.postgres.UpdateUsersBalance" ++
          ": failed to update wallet: pq: numeric field overflow") 200], db)) ∧
    (∀ v, numeric (b + fl.text req.Amount) = some v →
      ∃ db2, HandleDeposit ValidateToken (Machine.storage fl) (Bind.ok req) tokenString db =
          ([⟨200, Body.deposit "Account topped up successfully" (scanOf fl db2 username)⟩],
            db2) ∧
        WF db2 ∧ db2.users = db.users ∧
        (∀ username2 c2, balanceOf db2 username2 c2 =
          if username2 = username ∧ c2 = req.Currency then some v
          else balanceOf db username2 c2) ∧
        (NonNeg db → 0 ≤ v → NonNeg db2)) := by
  constructor
  · intro hv
    have hup := numeric_update_overflow db hwf username req.Currency (fl.text req.Amount) b hb hv
    simp [HandleDeposit, Machine.storage, htok, hval, hup]
  · intro v hv
    obtain ⟨db2, hup, hwf2, husers, hbal, hnn⟩ :=
      numeric_update_read db hwf username req.Currency (fl.text req.Amount) b v hb hv
    refine ⟨db2, ?_, hwf2, husers, hbal, hnn⟩
    simp [HandleDeposit, Machine.storage, htok, hval, hup, scan_read fl username db2 hwf2]

theorem withdraw_numeric_refused (fl : Rounding) (db : DB) (hwf : WF db)
    (ValidateToken : String → Except String String) (req : WithdrawRequest)
    (tokenString username : String)
    (htok : tokenString ≠ "") (hval : ValidateToken tokenString = Except.ok username)
    (hcheck : index (scanOf fl db username) req.Currency < req.Amount) :
    HandleWithdraw ValidateToken (Machine.storage fl) (Bind.ok req) tokenString db =
      ([logError "not enough money to withdraw" 200], db) := by
  simp [HandleWithdraw, Machine.storage, htok, hval, scan_read fl username db hwf,
    VerifyWithdrawalAmount, hcheck]

theorem withdraw_numeric_run (fl : Rounding) (db : DB) (hwf : WF db)
    (ValidateToken : String → Except String String) (req : WithdrawRequest)
    (tokenString username : String) (b : ℚ)
    (htok : tokenString ≠ "") (hval : ValidateToken tokenString = Except.ok username)
    (hcheck : ¬ index (scanOf fl db username) req.Currency < req.Amount)
    (hb : balanceOf db username req.Currency = some b) :
    (numeric (b + fl.text (-req.Amount)) = none →
      HandleWithdraw ValidateToken (Machine.storage fl) (Bind.ok req) tokenString db =
        ([logError ("storage.postgres.UpdateUsersBalance" ++
          ": failed to update wallet: pq: numeric field overflow") 200], db)) ∧
    (∀ v, numeric (b + fl.text (-req.Amount)) = some v →
      ∃ db2, HandleWithdraw ValidateToken (Machine.storage fl) (Bind.ok req) tokenString db =
          ([⟨200, Body.deposit "Withdrawal successfull" (scanOf fl db2 username)⟩], db2) ∧
        WF db2 ∧ db2.users = db.users ∧
        (∀ username2 c2, balanceOf db2 username2 c2 =
          if username2 = username ∧ c2 = req.Currency then some v
          else balanceOf db username2 c2) ∧
        (NonNeg db → 0 ≤ v → NonNeg db2)) := by
  constructor
  · intro hv
    have hup := numeric_update_overflow db hwf username req.Currency (fl.text (-req.Amount)) b
      hb hv
    simp [HandleWithdraw, Machine.storage, htok, hval, scan_read fl username db hwf,
      VerifyWithdrawalAmount, hcheck, hup]
  · intro v hv
    obtain ⟨db2, hup, hwf2, husers, hbal, hnn⟩ :=
      numeric_update_read db hwf username req.Currency (fl.text (-req.Amount)) b v hb hv
    refine ⟨db2, ?_, hwf2, husers, hbal, hnn⟩
    simp [HandleWithdraw, Machine.storage, htok, hval, scan_read fl username db hwf,
      VerifyWithdrawalAmount, hcheck, hup, scan_read fl username db2 hwf2]

theorem float_convert_pair (fl : Rounding) (F T : String) (amount rF rT : ℚ) (rates : Rates)
    (hF : rates ("RUB_" ++ F) = some rF) (hT : rates ("RUB_" ++ T) = some rT) :
    Machine.convertCurrencies fl F T amount rates =
      (fl.float64 (fl.float64 (amount / rF) * rT), none) := by
  simp [Machine.convertCurrencies, hF, hT]

theorem exchange_numeric_run (fl : Rounding) (db : DB) (hwf : WF db)
    (ValidateToken : String → Except String String) (rates : Rates) (req : ExchangeRequest)
    (tokenString username : String) (bF rF rT : ℚ)
    (htok : tokenString ≠ "") (hval : ValidateToken tokenString = Except.ok username)
    (hfunds : ¬ index (scanOf fl db username) req.FromCurrency < req.Amount)
    (hbF : balanceOf db username req.FromCurrency = some bF)
    (hF : rates ("RUB_" ++ req.FromCurrency) = some rF)
    (hT : rates ("RUB_" ++ req.ToCurrency) = some rT) :
    (numeric (bF + fl.text (-req.Amount)) = none →
      Machine.HandleExchange fl ValidateToken (Except.ok rates) (Machine.storage fl)
          (Bind.ok req) tokenString db =
        ([logError ("storage.postgres.UpdateUsersBalance" ++
          ": failed to update wallet: pq: numeric field overflow") 500], db)) ∧
    (∀ v1, numeric (bF + fl.text (-req.Amount)) = some v1 →
      ∃ db1, WF db1 ∧ db1.users = db.users ∧
        (∀ username2 c2, balanceOf db1 username2 c2 =
          if username2 = username ∧ c2 = req.FromCurrency then some v1
          else balanceOf db username2 c2) ∧
        (NonNeg db → 0 ≤ v1 → NonNeg db1) ∧
        ∀ b1, balanceOf db1 username req.ToCurrency = some b1 →
          (numeric (b1 + fl.text (fl.float64 (fl.float64 (req.Amount / rF) * rT))) = none →
            Machine.HandleExchange fl ValidateToken (Except.ok rates) (Machine.storage fl)
                (Bind.ok req) tokenString db =
              ([logError ("storage.postgres.UpdateUsersBalance" ++
                ": failed to update wallet: pq: numeric field overflow") 500], db1)) ∧
          (∀ v2, numeric (b1 + fl.text (fl.float64 (fl.float64 (req.Amount / rF) * rT))) =
              some v2 →
            ∃ db2, Machine.HandleExchange fl ValidateToken (Except.ok rates) (Machine.storage fl)
                  (Bind.ok req) tokenString db =
                ([⟨200, Body.exchange "exchanged successfully"
                  (fl.float64 (fl.float64 (req.Amount / rF) * rT)) (scanOf fl db2 username)⟩],
                  db2) ∧
              WF db2 ∧ db2.users = db1.users ∧
              (∀ username2 c2, balanceOf db2 username2 c2 =
                if username2 = username ∧ c2 = req.ToCurrency then some v2
                else balanceOf db1 username2 c2) ∧
              (NonNeg db1 → 0 ≤ v2 → NonNeg db2))) := by
  have hread := scan_read fl username db hwf
  have hconv := float_convert_pair fl req.FromCurrency req.ToCurrency req.Amount rF rT rates
    hF hT
  constructor
  · intro hv
    have hup := numeric_update_overflow db hwf username req.FromCurrency
      (fl.text (-req.Amount)) bF hbF hv
    simp [Machine.HandleExchange, Machine.storage, htok, hval, hread, hfunds, hup]
  · intro v1 hv1
    obtain ⟨db1, hup1, hwf1, husers1, hbal1, hnn1⟩ :=
      numeric_update_read db hwf username req.FromCurrency (fl.text (-req.Amount)) bF v1 hbF hv1
    refine ⟨db1, hwf1, husers1, hbal1, hnn1, ?_⟩
    intro b1 hb1
    constructor
    · intro hv
      have hup2 := numeric_update_overflow db1 hwf1 username req.ToCurrency _ b1 hb1 hv
      simp [Machine.HandleExchange, Machine.storage, htok, hval, hread, hfunds, hup1, hconv,
        hup2]
    · intro v2 hv2
      obtain ⟨db2, hup2, hwf2, husers2, hbal2, hnn2⟩ :=
        numeric_update_read db1 hwf1 username req.ToCurrency _ b1 v2 hb1 hv2
      refine ⟨db2, ?_, hwf2, husers2, hbal2, hnn2⟩
      simp [Machine.HandleExchange, Machine.storage, htok, hval, hread, hfunds, hup1, hconv,
        hup2, scan_read fl username db2 hwf2]

theorem numeric_update_exact (db : DB) (hwf : WF db) (username c : String) (d b : ℚ)
    (hb : balanceOf db username c = some b) (n : ℤ) (hn : (b + d) * 10 ^ 8 = n)
    (hfit : |b + d| < 10 ^ 11) :
    Machine.UpdateUsersBalance username c d db = Storage.UpdateUsersBalance username c d db := by
  rw [numeric_update_ok db hwf username c d b (b + d) hb (numeric_scaled _ n hn hfit)]
  congr 1
  ring

theorem numeric_repeated_balance (username c : String) (a : ℚ) (k : ℤ) (hk : a * 10 ^ 8 = k)
    (n : Nat) :
    ∀ (db : DB) (b : ℚ) (j : ℤ), WF db → balanceOf db username c = some b →
      b * 10 ^ 8 = j → (∀ i : Nat, i ≤ n → |b + i * a| < 10 ^ 11) →
      WF (Machine.repeated username c a n db) ∧
        balanceOf (Machine.repeated username c a n db) username c = some (b + n * a) := by
  induction n with
  | zero =>
    intro db b j hwf hb _ _
    simp [Machine.repeated, hwf, hb]
  | succ n ih =>
    intro db b j hwf hb hj hfit
    have hfit1 : |b + a| < 10 ^ 11 := by
      have := hfit 1 (by omega)
      simpa using this
    have hex := numeric_update_exact db hwf username c a b hb (j + k)
      (by push_cast; rw [← hj, ← hk]; ring) hfit1
    obtain ⟨db2, hup, hwf2, -, hbal, -⟩ := update_read db hwf username c a b hb
    have hb2 : balanceOf db2 username c = some (b + a) := by
      rw [hbal]; simp
    have h := ih db2 (b + a) (j + k) hwf2 hb2 (by push_cast; rw [← hj, ← hk]; ring) (by
      intro i hi
      have := hfit (i + 1) (by omega)
      have he : b + a + (i : ℚ) * a = b + ((i + 1 : Nat) : ℚ) * a := by
        push_cast; ring
      rw [he]
      exact this)
    have hrep : Machine.repeated username c a (n + 1) db =
        Machine.repeated username c a n db2 := by
      simp [Machine.repeated, hex, hup]
    rw [hrep]
    refine ⟨h.1, ?_⟩
    rw [h.2]
    congr 1
    push_cast
    ring

theorem exchange_target_unprovisioned (db : DB) (hwf : WF db) (hprov : Provisioned db)
    (ValidateToken : String → Except String String) (GetExchangeRates : Except String Rates)
    (req : ExchangeRequest) (tokenString : String) (hc : req.ToCurrency ∉ currencies) :
    succeeded (HandleExchange ValidateToken GetExchangeRates storage (Bind.ok req) tokenString
        db).1 = false := by
  by_cases htok : tokenString = ""
  · simp [HandleExchange, htok, succeeded, logError]
  · cases hval : ValidateToken tokenString with
    | error err => simp [HandleExchange, htok, hval, succeeded, logError]
    | ok username =>
      cases GetExchangeRates with
      | error fault => simp [HandleExchange, htok, hval, succeeded, logError]
      | ok rates =>
        have hm := GetUserBalance_eq username db hwf
        have hnone := balanceOf_unprovisioned db hprov username req.ToCurrency hc
        by_cases hlt : index (balanceOf db username) req.FromCurrency < req.Amount
        · simp [HandleExchange, storage, htok, hval, hm, hlt, succeeded, logError]
        · obtain ⟨hwf1, hbal1⟩ := update_total db hwf username req.FromCurrency
            (req.Amount * -1)
          rcases hup : Storage.UpdateUsersBalance username req.FromCurrency (req.Amount * -1) db
            with ⟨_ | e, db1⟩
          · rw [hup] at hwf1 hbal1
            have hnone1 : balanceOf db1 username req.ToCurrency = none := by
              have h := hbal1 username req.ToCurrency
              simp only at h
              rw [h]
              by_cases hk : req.ToCurrency = req.FromCurrency
              · rw [← hk]; simp [hnone]
              · simp [hk, hnone]
            simp only [mul_neg, mul_one] at hup
            rcases hconv : convertCurrencies req.FromCurrency req.ToCurrency req.Amount rates
              with ⟨toAdd, _ | e⟩
            · obtain ⟨e2, he2⟩ := update_fail db1 username req.ToCurrency toAdd hnone1
              simp [HandleExchange, storage, htok, hval, hm, hlt, hup, hconv, he2, succeeded,
                logError]
            · simp [HandleExchange, storage, htok, hval, hm, hlt, hup, hconv, succeeded,
                logError]
          · simp only [mul_neg, mul_one] at hup
            simp [HandleExchange, storage, htok, hval, hm, hlt, hup, succeeded, logError]

/-! ## Theorems -/

/-! ### Conversion at the rates of the table -/

/-- C1: when the rate table holds `RUB_F` (non-zero) and `RUB_T`,
`convertCurrencies F T amount rates` returns no error and exactly
`amount / rate(RUB_F) * rate(RUB_T)`. -/
theorem convertCurrencies_ok (F T : String) (amount rF rT : ℚ) (rates : Rates)
    (hF : rates ("RUB_" ++ F) = some rF) (hT : rates ("RUB_" ++ T) = some rT)
    (_hne : rF ≠ 0) :
    convertCurrencies F T amount rates = (amount / rF * rT, none) := by
  simp [convertCurrencies, hF, hT]

/-- Witness of C1: 100 USD at `RUB_USD` 0.012 and `RUB_EUR` 0.011 is 275/3 EUR. -/
theorem convertCurrencies_ok_witness :
    convertCurrencies "USD" "EUR" 100 testRates = ((275 : ℚ) / 3, none) := by
  have h := convertCurrencies_ok "USD" "EUR" 100 (12 / 1000) (11 / 1000) testRates
    (by simp [testRates]) (by simp [testRates]) (by norm_num)
  rw [h]
  norm_num

/-! ### Conversion errors -/

/-- C2: `convertCurrencies` returns an error exactly when the rate table lacks the
key `RUB_F` or the key `RUB_T`, and with an error the amount returned is 0. -/
theorem convertCurrencies_error_iff (F T : String) (amount : ℚ) (rates : Rates) :
    ((convertCurrencies F T amount rates).2 ≠ none ↔
        (rates ("RUB_" ++ F) = none ∨ rates ("RUB_" ++ T) = none)) ∧
      ((convertCurrencies F T amount rates).2 ≠ none →
        (convertCurrencies F T amount rates).1 = 0) := by
  cases hF : rates ("RUB_" ++ F) with
  | none => simp [convertCurrencies, hF]
  | some rF =>
    cases hT : rates ("RUB_" ++ T) with
    | none => simp [convertCurrencies, hF, hT]
    | some rT => simp [convertCurrencies, hF, hT]

/-! ### A successful exchange -/

/-- C4, at the failing input: with `RUB_EUR` missing from the rate table the
exchange of 100 USD to EUR answers with the conversion error, after the 100 USD
have been debited: the USD balance is 0 instead of 100. -/
theorem HandleExchange_missing_rate_debits :
    usdOnlyRates ("RUB_" ++ "EUR") = none ∧
      balanceOf testDB "testuser" "USD" = some 100 ∧
      (HandleExchange acceptAll (Except.ok usdOnlyRates) (recorded storage)
          (Bind.ok ⟨"USD", "EUR", 100⟩) "testuser" (testDB, [])).1 =
        [logError "курс для валюты EUR не найден" 500] ∧
      (HandleExchange acceptAll (Except.ok usdOnlyRates) (recorded storage)
          (Bind.ok ⟨"USD", "EUR", 100⟩) "testuser" (testDB, [])).2.2 =
        [Call.GetUserBalance "testuser", Call.UpdateUsersBalance "testuser" "USD" (100 * -1)] ∧
      balanceOf (HandleExchange acceptAll (Except.ok usdOnlyRates) (recorded storage)
          (Bind.ok ⟨"USD", "EUR", 100⟩) "testuser" (testDB, [])).2.1 "testuser" "USD" =
        some 0 := by
  have hm := GetUserBalance_eq "testuser" testDB testDB_WF
  have hidx : ¬ index (balanceOf testDB "testuser") "USD" < 100 := by
    simp [index, balanceOf, userId, walletOf, testDB]
  have hUSD : balanceOf testDB "testuser" "USD" = some 100 := by
    simp [balanceOf, userId, walletOf, testDB]
  obtain ⟨db1, hup1, -, -, hbal1, -⟩ :=
    update_read testDB testDB_WF "testuser" "USD" (100 * -1) 100 hUSD
  have hconv : convertCurrencies "USD" "EUR" 100 usdOnlyRates =
      (0, some "курс для валюты EUR не найден") := by
    simp [convertCurrencies, usdOnlyRates]
  have hrun : HandleExchange acceptAll (Except.ok usdOnlyRates) (recorded storage)
      (Bind.ok ⟨"USD", "EUR", 100⟩) "testuser" (testDB, []) =
      ([logError "курс для валюты EUR не найден" 500],
        (db1, [Call.GetUserBalance "testuser",
          Call.UpdateUsersBalance "testuser" "USD" (100 * -1)])) := by
    simp only [mul_neg, mul_one] at hup1
    simp [HandleExchange, recorded, storage, acceptAll, hm, hidx, hup1, hconv]
  rw [hrun]
  refine ⟨by simp [usdOnlyRates], hUSD, rfl, rfl, ?_⟩
  show balanceOf db1 "testuser" "USD" = some 0
  rw [hbal1]
  norm_num

/-! ### A credit that fails after the debit -/

/-- C5, as the code contradicts it: `testuser` has no GBP wallet, so in the
exchange of 100 USD to GBP the debit succeeds and the credit fails.  The response
is the plain store error (the text a deposit to the missing wallet produces as
well), no call follows the failed credit, and the USD balance is left at 0
instead of its pre-exchange value 100. -/
theorem HandleExchange_credit_failure_short :
    balanceOf testDB "testuser" "USD" = some 100 ∧
      (HandleExchange acceptAll (Except.ok gbpRates) (recorded storage)
          (Bind.ok ⟨"USD", "GBP", 100⟩) "testuser" (testDB, [])).1 =
        [logError ("storage.postgres.UpdateUsersBalance: No wallet found for user testuser" ++
          " and currency GBP") 500] ∧
      (HandleDeposit acceptAll storage (Bind.ok ⟨5, "GBP"⟩) "testuser" testDB).1 =
        [logError ("storage.postgres.UpdateUsersBalance: No wallet found for user testuser" ++
          " and currency GBP") 200] ∧
      (HandleExchange acceptAll (Except.ok gbpRates) (recorded storage)
          (Bind.ok ⟨"USD", "GBP", 100⟩) "testuser" (testDB, [])).2.2 =
        [Call.GetUserBalance "testuser", Call.UpdateUsersBalance "testuser" "USD" (100 * -1),
          Call.UpdateUsersBalance "testuser" "GBP" ((100 : ℚ) / (12 / 1000) * (9 / 1000))] ∧
      balanceOf (HandleExchange acceptAll (Except.ok gbpRates) (recorded storage)
          (Bind.ok ⟨"USD", "GBP", 100⟩) "testuser" (testDB, [])).2.1 "testuser" "USD" =
        some 0 := by
  have hm := GetUserBalance_eq "testuser" testDB testDB_WF
  have hidx : ¬ index (balanceOf testDB "testuser") "USD" < 100 := by
    simp [index, balanceOf, userId, walletOf, testDB]
  have hUSD : balanceOf testDB "testuser" "USD" = some 100 := by
    simp [balanceOf, userId, walletOf, testDB]
  have hid : userId testDB "testuser" = some 1 := by simp [userId, testDB]
  have hGBP : walletOf testDB 1 "GBP" = none := by simp [walletOf, testDB]
  obtain ⟨db1, hup1, -, husers, hbal1, -⟩ :=
    update_read testDB testDB_WF "testuser" "USD" (100 * -1) 100 hUSD
  have hid1 : userId db1 "testuser" = some 1 := by
    unfold userId at hid ⊢
    rw [husers]
    exact hid
  have hGBP1 : walletOf db1 1 "GBP" = none := by
    have h := hbal1 "testuser" "GBP"
    simp only [balanceOf, hid, hid1] at h
    rw [h]
    simp [hGBP]
  have hup2 := update_no_wallet "testuser" "GBP" ((100 : ℚ) / (12 / 1000) * (9 / 1000)) db1 1
    hid1 hGBP1
  have hdep := update_no_wallet "testuser" "GBP" 5 testDB 1 hid hGBP
  have hconv := convertCurrencies_pair "USD" "GBP" 100 (12 / 1000) (9 / 1000) gbpRates
    (by simp [gbpRates]) (by simp [gbpRates])
  have hrun : HandleExchange acceptAll (Except.ok gbpRates) (recorded storage)
      (Bind.ok ⟨"USD", "GBP", 100⟩) "testuser" (testDB, []) =
      ([logError ("storage.postgres.UpdateUsersBalance: No wallet found for user testuser" ++
          " and currency GBP") 500],
        (db1, [Call.GetUserBalance "testuser",
          Call.UpdateUsersBalance "testuser" "USD" (100 * -1),
          Call.UpdateUsersBalance "testuser" "GBP" ((100 : ℚ) / (12 / 1000) * (9 / 1000))])) := by
    simp only [mul_neg, mul_one] at hup1
    simp [HandleExchange, recorded, storage, acceptAll, hm, hidx, hup1, hconv, hup2]
  rw [hrun]
  refine ⟨hUSD, rfl, ?_, rfl, ?_⟩
  · simp [HandleDeposit, storage, acceptAll, hdep]
  · show balanceOf db1 "testuser" "USD" = some 0
    rw [hbal1]
    norm_num

/-- C5, amended: when the debit succeeds and the credit then fails with the error
`e`, `HandleExchange` answers with status 500 and that very error, makes no store
call after the failed credit (no compensating re-credit), and leaves the store
in the state the failed credit returned. -/
theorem HandleExchange_credit_failure {σ : Type} (ex : Exchanger σ)
    (ValidateToken : String → Except String String) (rates : Rates)
    (req : ExchangeRequest) (tokenString username : String) (s s1 s2 s3 : σ)
    (m : Balances) (toAdd : ℚ) (e : String)
    (htok : tokenString ≠ "") (hval : ValidateToken tokenString = Except.ok username)
    (hread : ex.GetUserBalance username s = (Except.ok m, s1))
    (hfunds : ¬ index m req.FromCurrency < req.Amount)
    (hdebit : ex.UpdateUsersBalance username req.FromCurrency (req.Amount * -1) s1 = (none, s2))
    (hconv : convertCurrencies req.FromCurrency req.ToCurrency req.Amount rates = (toAdd, none))
    (hcredit : ex.UpdateUsersBalance username req.ToCurrency toAdd s2 = (some e, s3)) :
    HandleExchange ValidateToken (Except.ok rates) (recorded ex) (Bind.ok req) tokenString
        (s, []) =
      ([logError e 500],
        (s3, [Call.GetUserBalance username,
          Call.UpdateUsersBalance username req.FromCurrency (req.Amount * -1),
          Call.UpdateUsersBalance username req.ToCurrency toAdd])) := by
  simp only [mul_neg, mul_one] at hdebit
  simp [HandleExchange, recorded, htok, hval, hread, hfunds, hdebit, hconv, hcredit]

/-- Witness of the amended C5 on the Postgres store: 100 USD to GBP for `testuser`,
who has no GBP wallet; the store is left with 0 USD. -/
theorem HandleExchange_credit_failure_witness :
    HandleExchange acceptAll (Except.ok gbpRates) (recorded storage)
        (Bind.ok ⟨"USD", "GBP", 100⟩) "testuser" (testDB, []) =
      ([logError ("storage.postgres.UpdateUsersBalance: No wallet found for user testuser" ++
          " and currency GBP") 500],
        (drainedDB, [Call.GetUserBalance "testuser",
          Call.UpdateUsersBalance "testuser" "USD" (100 * -1),
          Call.UpdateUsersBalance "testuser" "GBP" ((100 : ℚ) / (12 / 1000) * (9 / 1000))])) :=
  HandleExchange_credit_failure storage acceptAll gbpRates ⟨"USD", "GBP", 100⟩ "testuser"
    "testuser" testDB testDB drainedDB drainedDB (balanceOf testDB "testuser")
    ((100 : ℚ) / (12 / 1000) * (9 / 1000))
    ("storage.postgres.UpdateUsersBalance: No wallet found for user testuser" ++
      " and currency GBP")
    (by decide) rfl
    (by simp [storage, GetUserBalance_eq "testuser" testDB testDB_WF])
    (by simp [index, testDB_USD])
    (by simp [storage, Storage.UpdateUsersBalance, testDB, drainedDB])
    (convertCurrencies_pair "USD" "GBP" 100 (12 / 1000) (9 / 1000) gbpRates
      (by simp [gbpRates]) (by simp [gbpRates]))
    (by simp [storage, Storage.UpdateUsersBalance, drainedDB])

/-! ### Non-negative balances -/

/-- C7, as the code contradicts it: a delta of -150 on the 100 USD of `testuser`
is accepted by the store, without an error, and leaves the balance at -50. -/
theorem UpdateUsersBalance_overdraw_accepted :
    (100 : ℚ) + (-150) < 0 ∧
      balanceOf testDB "testuser" "USD" = some 100 ∧
      (Machine.UpdateUsersBalance "testuser" "USD" (-150) testDB).1 = none ∧
      balanceOf (Machine.UpdateUsersBalance "testuser" "USD" (-150) testDB).2 "testuser" "USD" =
        some (-50) := by
  have hv : numeric (100 + -150) = some (-50) := by
    have h := numeric_scaled (100 + -150) (-5000000000) (by norm_num) (by norm_num [abs_lt])
    rw [h]
    norm_num
  obtain ⟨db2, hup, -, -, hbal, -⟩ :=
    numeric_update_read testDB testDB_WF "testuser" "USD" (-150) 100 (-50) testDB_USD hv
  rw [hup]
  refine ⟨by norm_num, testDB_USD, rfl, ?_⟩
  show balanceOf db2 "testuser" "USD" = some (-50)
  rw [hbal]
  simp

/-- C7, amended: for an existing wallet whose stored balance `b` plus `delta` is
negative, `Storage.UpdateUsersBalance` makes no insufficient-funds check.  It
stores `b + delta` rounded to 8 decimal places, a value that is not positive,
and reports no error; unless that value is -10^11 or below, which the column
cannot hold: then the update fails with `numeric field overflow` and the store
is unchanged. -/
theorem UpdateUsersBalance_overdraw (db : DB) (hwf : WF db) (username currency : String)
    (delta b : ℚ) (hb : balanceOf db username currency = some b) (hneg : b + delta < 0) :
    round8 (b + delta) ≤ 0 ∧
    (-10 ^ 11 < round8 (b + delta) →
      ∃ db2, Machine.UpdateUsersBalance username currency delta db = (none, db2) ∧
        balanceOf db2 username currency = some (round8 (b + delta))) ∧
    (round8 (b + delta) ≤ -10 ^ 11 →
      Machine.UpdateUsersBalance username currency delta db =
        (some ("storage.postgres.UpdateUsersBalance: failed to update wallet: " ++
          "pq: numeric field overflow"), db)) := by
  have hr := round8_nonpos (b + delta) hneg.le
  refine ⟨hr, ?_, ?_⟩
  · intro hlow
    have hfit : |round8 (b + delta)| < 10 ^ 11 := by
      rw [abs_lt]
      constructor
      · linarith
      · have : (0 : ℚ) < 10 ^ 11 := by norm_num
        linarith
    obtain ⟨db2, hup, -, -, hbal, -⟩ :=
      numeric_update_read db hwf username currency delta b _ hb (numeric_fits _ hfit)
    refine ⟨db2, hup, ?_⟩
    rw [hbal]; simp
  · intro hlow
    have hfit : ¬ |round8 (b + delta)| < 10 ^ 11 := by
      rw [abs_lt]
      intro h
      linarith [h.1]
    exact numeric_update_overflow db hwf username currency delta b hb (numeric_overflow _ hfit)

/-- Witness of the amended C7 on `testDB`: 100 USD and a delta of -150; the value
stored is -50. -/
theorem UpdateUsersBalance_overdraw_witness :
    round8 (100 + -150) = -50 ∧
      ∃ db2, Machine.UpdateUsersBalance "testuser" "USD" (-150) testDB = (none, db2) ∧
        balanceOf db2 "testuser" "USD" = some (round8 (100 + -150)) := by
  have hr : round8 (100 + -150) = -50 := by
    have h := round8_scaled (100 + -150) (-5000000000) (by norm_num)
    rw [h]
    norm_num
  obtain ⟨-, h2, -⟩ :=
    UpdateUsersBalance_overdraw testDB testDB_WF "testuser" "USD" (-150) 100 testDB_USD
      (by norm_num)
  exact ⟨hr, h2 (by rw [hr]; norm_num)⟩

/-! ### Unknown user, unknown wallet -/

/-- C8: `Storage.UpdateUsersBalance` returns an error when no user row has the
name, and when the user exists but no wallet row of the user has the currency;
in both cases the store is left as it was. -/
theorem UpdateUsersBalance_unknown (db : DB) (username currency : String) (delta : ℚ)
    (h : (∀ u ∈ db.users, u.username ≠ username) ∨
      ((∃ u ∈ db.users, u.username = username) ∧
        ∀ u ∈ db.users, u.username = username →
          ∀ w ∈ db.wallets, ¬ (w.user_id = u.id ∧ w.currency = currency))) :
    (Storage.UpdateUsersBalance username currency delta db).1 ≠ none ∧
      (Storage.UpdateUsersBalance username currency delta db).2 = db := by
  rcases h with h | ⟨⟨u, hu, hname⟩, hw⟩
  · have hid : userId db username = none := by
      simp only [userId, Option.map_eq_none', List.find?_eq_none]
      intro u hu
      simpa using h u hu
    rw [update_no_user username currency delta db hid]
    simp
  · cases hid : userId db username with
    | none =>
      rw [update_no_user username currency delta db hid]
      simp
    | some uid =>
      obtain ⟨v, hv, hvname, hvid⟩ := userId_some db username uid hid
      have hnone : walletOf db uid currency = none := by
        simp only [walletOf, Option.map_eq_none', List.find?_eq_none]
        intro w hwm
        have := hw v hv hvname w hwm
        rw [hvid] at this
        simpa using this
      rw [update_no_wallet username currency delta db uid hid hnone]
      simp

/-- Witness of C8 on `testDB`: the unknown user `nobody`, and the currency `GBP`
for which `testuser` has no wallet. -/
theorem UpdateUsersBalance_unknown_witness :
    ((Storage.UpdateUsersBalance "nobody" "USD" 10 testDB).1 ≠ none ∧
      (Storage.UpdateUsersBalance "nobody" "USD" 10 testDB).2 = testDB) ∧
    ((Storage.UpdateUsersBalance "testuser" "GBP" 10 testDB).1 ≠ none ∧
      (Storage.UpdateUsersBalance "testuser" "GBP" 10 testDB).2 = testDB) :=
  ⟨UpdateUsersBalance_unknown testDB "nobody" "USD" 10 (Or.inl (by simp [testDB])),
    UpdateUsersBalance_unknown testDB "testuser" "GBP" 10 (Or.inr (by simp [testDB]))⟩

/-! ### Frame of a balance update -/

/-- C9, as the code contradicts it: a delta of 0.000000004 on the 100 USD of
`testuser` is accepted and leaves the store as it was; the balance is 100, not
100.000000004. -/
theorem UpdateUsersBalance_rounds_delta :
    balanceOf testDB "testuser" "USD" = some 100 ∧
      Machine.UpdateUsersBalance "testuser" "USD" (4 / 10 ^ 9) testDB = (none, testDB) ∧
      (100 : ℚ) ≠ 100 + 4 / 10 ^ 9 := by
  have hr : round8 (100 + 4 / 10 ^ 9) = 100 := by
    unfold round8
    rw [if_pos (by norm_num)]
    have : ⌊((100 : ℚ) + 4 / 10 ^ 9) * 10 ^ 8 + 1 / 2⌋ = 10000000000 := by
      rw [Int.floor_eq_iff]; constructor <;> norm_num
    rw [this]; norm_num
  have hv : numeric (100 + 4 / 10 ^ 9) = some 100 := by
    rw [numeric_fits _ (by rw [hr]; norm_num [abs_lt]), hr]
  refine ⟨testDB_USD, ?_, by norm_num⟩
  rw [numeric_update_ok testDB testDB_WF "testuser" "USD" (4 / 10 ^ 9) 100 100 testDB_USD hv]
  simp [Storage.UpdateUsersBalance, testDB]

/-- C9, amended: for an existing user with a wallet for the currency (stored
balance `b`), `Storage.UpdateUsersBalance` succeeds when `b + delta` rounded to
8 decimal places is below 10^11 in absolute value: the wallet then holds that
rounded value, and every other balance of every user, and every other wallet
row, is what it was; the table `users` is untouched.  Otherwise the update fails
with `numeric field overflow` and the store is unchanged. -/
theorem UpdateUsersBalance_frame (db : DB) (hwf : WF db) (username currency : String)
    (delta b : ℚ) (hb : balanceOf db username currency = some b) :
    (|round8 (b + delta)| < 10 ^ 11 →
      ∃ db2, Machine.UpdateUsersBalance username currency delta db = (none, db2) ∧
        db2.users = db.users ∧
        (∀ username2 c2, balanceOf db2 username2 c2 =
          if username2 = username ∧ c2 = currency then some (round8 (b + delta))
          else balanceOf db username2 c2) ∧
        (∀ uid2 c2, (userId db username ≠ some uid2 ∨ c2 ≠ currency) →
          walletOf db2 uid2 c2 = walletOf db uid2 c2)) ∧
    (¬ |round8 (b + delta)| < 10 ^ 11 →
      Machine.UpdateUsersBalance username currency delta db =
        (some ("storage.postgres.UpdateUsersBalance: failed to update wallet: " ++
          "pq: numeric field overflow"), db)) := by
  constructor
  · intro hfit
    have hv := numeric_fits _ hfit
    obtain ⟨uid, hu, hw⟩ := balanceOf_some db username currency b hb
    obtain ⟨db2, hup, -, husers, hbal, -⟩ :=
      numeric_update_read db hwf username currency delta b _ hb hv
    refine ⟨db2, hup, husers, hbal, ?_⟩
    intro uid2 c2 hne
    have hdb2 : db2 =
        { db with wallets := applied uid currency (round8 (b + delta) - b) db.wallets } := by
      have h2 := numeric_update_ok db hwf username currency delta b _ hb hv
      rw [update_ok username currency _ b db uid hu hw, hup] at h2
      exact (Prod.mk.inj h2).2
    rw [hdb2, walletOf_applied]
    have hcond : ¬ (uid2 = uid ∧ c2 = currency) := by
      rintro ⟨h1, h2⟩
      rcases hne with hne | hne
      · exact hne (by rw [hu, h1])
      · exact hne h2
    simp [hcond]
  · intro hfit
    exact numeric_update_overflow db hwf username currency delta b hb (numeric_overflow _ hfit)

/-- Witness of the amended C9 on `testDB`: a delta of 25 on the 100 USD of
`testuser`, which leaves 125 USD. -/
theorem UpdateUsersBalance_frame_witness :
    round8 (100 + 25) = 125 ∧
      ∃ db2, Machine.UpdateUsersBalance "testuser" "USD" 25 testDB = (none, db2) ∧
        db2.users = testDB.users ∧
        (∀ username2 c2, balanceOf db2 username2 c2 =
          if username2 = "testuser" ∧ c2 = "USD" then some (round8 (100 + 25))
          else balanceOf testDB username2 c2) ∧
        (∀ uid2 c2, (userId testDB "testuser" ≠ some uid2 ∨ c2 ≠ "USD") →
          walletOf db2 uid2 c2 = walletOf testDB uid2 c2) := by
  have hr : round8 (100 + 25) = 125 := by
    have h := round8_scaled (100 + 25) 12500000000 (by norm_num)
    rw [h]
    norm_num
  exact ⟨hr, (UpdateUsersBalance_frame testDB testDB_WF "testuser" "USD" 25 100 testDB_USD).1
    (by rw [hr]; norm_num [abs_lt])⟩

/-! ### An exchange above the balance -/

/-- C11: when the call `GetExchangeRates` fails, `HandleExchange` answers an
authenticated request with status 500 and the error
`failed to retrieve exchange rates`; the journal of store calls stays empty (no
read, no update) and the store is what it was, whatever the implementation. -/
theorem HandleExchange_rates_unavailable {σ : Type} (ex : Exchanger σ)
    (ValidateToken : String → Except String String) (fault : String)
    (req : ExchangeRequest) (tokenString username : String) (s : σ)
    (htok : tokenString ≠ "") (hval : ValidateToken tokenString = Except.ok username) :
    HandleExchange ValidateToken (Except.error fault) (recorded ex) (Bind.ok req)
        tokenString (s, []) =
      ([logError "failed to retrieve exchange rates" 500], (s, [])) := by
  simp [HandleExchange, htok, hval]

/-- Witness of C11: the test `gRPC Error`, 100 USD to EUR against 100 USD and
50 EUR with the rate service unavailable. -/
theorem HandleExchange_rates_unavailable_witness :
    HandleExchange acceptAll (Except.error "gRPC service unavailable") (recorded storage)
        (Bind.ok ⟨"USD", "EUR", 100⟩) "testuser" (withdrawDB, []) =
      ([logError "failed to retrieve exchange rates" 500], (withdrawDB, [])) :=
  HandleExchange_rates_unavailable storage acceptAll "gRPC service unavailable"
    ⟨"USD", "EUR", 100⟩ "testuser" "testuser" withdrawDB (by decide) rfl

/-! ### An exchange of a currency into itself -/

/-- C12, as the code contradicts it: the exchange of 100 USD into USD is not
rejected; it completes successfully after two `UpdateUsersBalance` calls. -/
theorem HandleExchange_same_currency_accepted :
    succeeded (HandleExchange acceptAll (Except.ok testRates) (recorded storage)
        (Bind.ok ⟨"USD", "USD", 100⟩) "testuser" (testDB, [])).1 = true ∧
      updateCalls (HandleExchange acceptAll (Except.ok testRates) (recorded storage)
        (Bind.ok ⟨"USD", "USD", 100⟩) "testuser" (testDB, [])).2.2 = 2 := by
  obtain ⟨db2, hrun, -, -⟩ :=
    exchange_same_run testDB testDB_WF acceptAll testRates ⟨"USD", "USD", 100⟩ "testuser"
      "testuser" 100 (12 / 1000) (by decide) rfl rfl testDB_USD (by norm_num)
      (by simp [testRates]) (by norm_num)
  rw [hrun]
  exact ⟨by simp [succeeded], by simp [updateCalls]⟩

/-- C12, amended: an authenticated exchange whose target currency equals its
source currency is not rejected.  With enough funds in the balance read and a
non-zero rate for the currency it takes the path of every exchange: the
exchanged amount is the `float64` result of `amount / rate * rate`; the wallet
(stored balance `b`) is first debited by the amount and then credited by the
exchanged amount, each as the driver writes it and each sum rounded to 8 decimal
places.  When both assignments fit the column the exchange succeeds and every
other balance of every user is unchanged; when the debit does not fit, the
response is `numeric field overflow` and the store is unchanged; when the debit
fits and the credit does not, the response is that error and the debit stays. -/
theorem HandleExchange_same_currency (fl : Rounding) (db : DB) (hwf : WF db)
    (ValidateToken : String → Except String String) (rates : Rates)
    (req : ExchangeRequest) (tokenString username : String) (m : Balances) (b r : ℚ)
    (htok : tokenString ≠ "") (hval : ValidateToken tokenString = Except.ok username)
    (hm : Machine.GetUserBalance fl username db = Except.ok m)
    (hsame : req.ToCurrency = req.FromCurrency)
    (hle : req.Amount ≤ index m req.FromCurrency)
    (hr : rates ("RUB_" ++ req.FromCurrency) = some r) (_hr0 : r ≠ 0)
    (hb : balanceOf db username req.FromCurrency = some b) :
    (|round8 (b + fl.text (-req.Amount))| < 10 ^ 11 →
      |round8 (round8 (b + fl.text (-req.Amount)) +
        fl.text (fl.float64 (fl.float64 (req.Amount / r) * r)))| < 10 ^ 11 →
      ∃ db2 m2,
        Machine.HandleExchange fl ValidateToken (Except.ok rates) (Machine.storage fl)
            (Bind.ok req) tokenString db =
          ([⟨200, Body.exchange "exchanged successfully"
            (fl.float64 (fl.float64 (req.Amount / r) * r)) m2⟩], db2) ∧
        Machine.GetUserBalance fl username db2 = Except.ok m2 ∧
        (∀ c, m2 c = (balanceOf db2 username c).map fl.float64) ∧
        balanceOf db2 username req.FromCurrency =
          some (round8 (round8 (b + fl.text (-req.Amount)) +
            fl.text (fl.float64 (fl.float64 (req.Amount / r) * r)))) ∧
        (∀ c, c ≠ req.FromCurrency → balanceOf db2 username c = balanceOf db username c) ∧
        (∀ username2, username2 ≠ username →
          balanceOf db2 username2 = balanceOf db username2)) ∧
    (¬ |round8 (b + fl.text (-req.Amount))| < 10 ^ 11 →
      Machine.HandleExchange fl ValidateToken (Except.ok rates) (Machine.storage fl)
          (Bind.ok req) tokenString db =
        ([logError ("storage.postgres.UpdateUsersBalance: failed to update wallet: " ++
          "pq: numeric field overflow") 500], db)) ∧
    (|round8 (b + fl.text (-req.Amount))| < 10 ^ 11 →
      ¬ |round8 (round8 (b + fl.text (-req.Amount)) +
        fl.text (fl.float64 (fl.float64 (req.Amount / r) * r)))| < 10 ^ 11 →
      ∃ db1,
        Machine.HandleExchange fl ValidateToken (Except.ok rates) (Machine.storage fl)
            (Bind.ok req) tokenString db =
          ([logError ("storage.postgres.UpdateUsersBalance: failed to update wallet: " ++
            "pq: numeric field overflow") 500], db1) ∧
        balanceOf db1 username req.FromCurrency =
          some (round8 (b + fl.text (-req.Amount))) ∧
        (∀ c, c ≠ req.FromCurrency → balanceOf db1 username c = balanceOf db username c) ∧
        (∀ username2, username2 ≠ username →
          balanceOf db1 username2 = balanceOf db username2)) := by
  rw [scan_read fl username db hwf] at hm
  cases hm
  have hT : rates ("RUB_" ++ req.ToCurrency) = some r := by rw [hsame]; exact hr
  obtain ⟨hnone, hsome⟩ := exchange_numeric_run fl db hwf ValidateToken rates req tokenString
    username b r r htok hval (not_lt.mpr hle) hb hr hT
  refine ⟨?_, ?_, ?_⟩
  · intro hfit1 hfit2
    obtain ⟨db1, -, -, hbal1, -, hcredit⟩ := hsome _ (numeric_fits _ hfit1)
    have hb1 : balanceOf db1 username req.ToCurrency =
        some (round8 (b + fl.text (-req.Amount))) := by
      rw [hbal1]; simp [hsame]
    obtain ⟨-, hsome2⟩ := hcredit _ hb1
    obtain ⟨db2, hrun, hwf2, -, hbal2, -⟩ := hsome2 _ (numeric_fits _ hfit2)
    refine ⟨db2, scanOf fl db2 username, hrun, scan_read fl username db2 hwf2, fun _ => rfl,
      ?_, ?_, ?_⟩
    · rw [hbal2]; simp [hsame]
    · intro c hc
      rw [hbal2, hbal1]; simp [hc, hsame]
    · intro username2 hu
      funext c
      rw [hbal2, hbal1]; simp [hu]
  · intro hfit1
    exact hnone (numeric_overflow _ hfit1)
  · intro hfit1 hfit2
    obtain ⟨db1, -, -, hbal1, -, hcredit⟩ := hsome _ (numeric_fits _ hfit1)
    have hb1 : balanceOf db1 username req.ToCurrency =
        some (round8 (b + fl.text (-req.Amount))) := by
      rw [hbal1]; simp [hsame]
    obtain ⟨hnone2, -⟩ := hcredit _ hb1
    refine ⟨db1, hnone2 (numeric_overflow _ hfit2), ?_, ?_, ?_⟩
    · rw [hbal1]; simp
    · intro c hc
      rw [hbal1]; simp [hc]
    · intro username2 hu
      funext c
      rw [hbal1]; simp [hu]

/-- Witness of the amended C12, with conversions that do not round: 100 USD into
USD on `testDB` at the rate 1/64; the exchanged amount is 100 and the wallet
holds 100 USD afterwards. -/
theorem HandleExchange_same_currency_witness :
    ∃ db2 m2,
      Machine.HandleExchange noRounding acceptAll (Except.ok binaryRates)
          (Machine.storage noRounding) (Bind.ok ⟨"USD", "USD", 100⟩) "testuser" testDB =
        ([⟨200, Body.exchange "exchanged successfully" 100 m2⟩], db2) ∧
      Machine.GetUserBalance noRounding "testuser" db2 = Except.ok m2 ∧
      balanceOf db2 "testuser" "USD" = some 100 ∧ m2 "USD" = some 100 := by
  have hr0 : round8 0 = 0 := round8_scaled 0 0 (by norm_num)
  have hr : round8 100 = 100 := round8_scaled 100 10000000000 (by norm_num)
  obtain ⟨db2, m2, h1, h2, hm2, h3, -, -⟩ :=
    (HandleExchange_same_currency noRounding testDB testDB_WF acceptAll binaryRates
      ⟨"USD", "USD", 100⟩ "testuser" "testuser" (scanOf noRounding testDB "testuser")
      100 (1 / 64) (by decide) rfl
      (scan_read noRounding "testuser" testDB testDB_WF) rfl
      (by simp [index, scanOf, testDB_USD, noRounding])
      (by simp [binaryRates]) (by norm_num) testDB_USD).1
      (by norm_num [noRounding, hr0, abs_lt])
      (by norm_num [noRounding, hr0, hr, abs_lt])
  have h3b : balanceOf db2 "testuser" "USD" = some 100 := by
    rw [h3]; norm_num [noRounding, hr0, hr]
  refine ⟨db2, m2, ?_, h2, h3b, ?_⟩
  · rw [h1]; norm_num [noRounding]
  · rw [hm2, h3b]; simp [noRounding]

/-! ### An exchange of a non-positive amount -/

/-- C13, as the code contradicts it: the exchange of -50 USD to EUR passes
`BindJSON` and the balance check and completes successfully; the EUR balance
drops from 50 to 25/6. -/
theorem HandleExchange_negative_amount_accepted :
    balanceOf testDB "testuser" "EUR" = some 50 ∧
      succeeded (HandleExchange acceptAll (Except.ok testRates) storage
        (BindJSON ExchangeRequest.required (Payload.decoded ⟨"USD", "EUR", -50⟩)) "testuser"
        testDB).1 = true ∧
      balanceOf (HandleExchange acceptAll (Except.ok testRates) storage
        (BindJSON ExchangeRequest.required (Payload.decoded ⟨"USD", "EUR", -50⟩)) "testuser"
        testDB).2 "testuser" "EUR" = some ((25 : ℚ) / 6) := by
  have hbind : BindJSON ExchangeRequest.required (Payload.decoded ⟨"USD", "EUR", -50⟩) =
      Bind.ok ⟨"USD", "EUR", -50⟩ := by
    simp [BindJSON, ExchangeRequest.required]
  obtain ⟨db2, m2, hrun, hbal⟩ := testDB_exchange (-50) (by norm_num)
  rw [hbind, hrun]
  refine ⟨testDB_EUR, by simp [succeeded], ?_⟩
  show balanceOf db2 "testuser" "EUR" = some ((25 : ℚ) / 6)
  rw [hbal]
  norm_num

/-- C13, amended: an exchange request whose amount is zero fails the `required`
tag of `Amount` in `BindJSON`; `HandleExchange` answers with status 400 and the
error `request contains wrong data` and makes no store call.  (A negative amount
is not validated.) -/
theorem HandleExchange_zero_amount {σ : Type} (ex : Exchanger σ)
    (ValidateToken : String → Except String String) (GetExchangeRates : Except String Rates)
    (req : ExchangeRequest) (tokenString : String) (s : σ) (h0 : req.Amount = 0) :
    HandleExchange ValidateToken GetExchangeRates (recorded ex)
        (BindJSON ExchangeRequest.required (Payload.decoded req)) tokenString (s, []) =
      ([logError "request contains wrong data" 400], (s, [])) := by
  simp [BindJSON, ExchangeRequest.required, h0, HandleExchange]

/-- Witness of the amended C13: 0 USD to EUR on `testDB`. -/
theorem HandleExchange_zero_amount_witness :
    HandleExchange acceptAll (Except.ok testRates) (recorded storage)
        (BindJSON ExchangeRequest.required (Payload.decoded ⟨"USD", "EUR", 0⟩)) "testuser"
        (testDB, []) =
      ([logError "request contains wrong data" 400], (testDB, [])) :=
  HandleExchange_zero_amount storage acceptAll (Except.ok testRates) ⟨"USD", "EUR", 0⟩
    "testuser" testDB rfl

/-! ### A withdraw above the balance -/

/-- C15, as the code contradicts it: 13421773 / 2^27, the `float32` nearest to
0.1, is positive and at most the 100 USD of `testuser`, yet whatever the
conversions of `float64` do, the withdraw of that amount does not succeed with
the balance 100 - 13421773 / 2^27, which has more than 8 decimal places. -/
theorem HandleWithdraw_success_rounded :
    (0 : ℚ) < 13421773 / 2 ^ 27 ∧ (13421773 : ℚ) / 2 ^ 27 ≤ 100 ∧
      balanceOf withdrawDB "testuser" "USD" = some 100 ∧
      ∀ fl : Rounding,
        ¬ (succeeded (HandleWithdraw acceptAll (Machine.storage fl)
              (Bind.ok ⟨13421773 / 2 ^ 27, "USD"⟩) "testuser" withdrawDB).1 = true ∧
            balanceOf (HandleWithdraw acceptAll (Machine.storage fl)
              (Bind.ok ⟨13421773 / 2 ^ 27, "USD"⟩) "testuser" withdrawDB).2 "testuser" "USD" =
              some (100 - 13421773 / 2 ^ 27)) := by
  have hUSD : balanceOf withdrawDB "testuser" "USD" = some 100 := by
    simp [balanceOf, userId, walletOf, withdrawDB]
  refine ⟨by norm_num, by norm_num, hUSD, ?_⟩
  rintro fl ⟨hs, hbal⟩
  by_cases hcheck : index (scanOf fl withdrawDB "testuser") "USD" < 13421773 / 2 ^ 27
  · rw [withdraw_numeric_refused fl withdrawDB withdrawDB_WF acceptAll
      ⟨13421773 / 2 ^ 27, "USD"⟩ "testuser" "testuser" (by decide) rfl hcheck] at hs
    simp [succeeded, logError] at hs
  · obtain ⟨hnone, hsome⟩ := withdraw_numeric_run fl withdrawDB withdrawDB_WF acceptAll
      ⟨13421773 / 2 ^ 27, "USD"⟩ "testuser" "testuser" 100 (by decide) rfl hcheck hUSD
    cases hv : numeric (100 + fl.text (-(13421773 / 2 ^ 27))) with
    | none =>
      rw [hnone hv] at hs
      simp [succeeded, logError] at hs
    | some v =>
      obtain ⟨db2, hrun, -, -, hb2, -⟩ := hsome v hv
      rw [hrun] at hbal
      rw [hb2] at hbal
      obtain ⟨hvr, -⟩ := numeric_some _ _ hv
      obtain ⟨n, hn⟩ := round8_grid (100 + fl.text (-(13421773 / 2 ^ 27)))
      rw [← hvr] at hn
      have hv2 : v = 100 - 13421773 / 2 ^ 27 := by simpa using hbal
      rw [hv2] at hn
      have h2 : (n : ℚ) * 134217728 = 1342177280000000000 - 1342177300000000 := by
        rw [← hn]; norm_num
      have h3 : n * 134217728 = 1342177280000000000 - 1342177300000000 := by
        exact_mod_cast h2
      omega

/-- C15, amended: an authenticated withdraw of a bound amount with
`0 < amount ≤ balance[currency]`, the balance as `GetUserBalance` reads it,
succeeds when the stored balance `b` minus the amount as the driver writes it,
rounded to 8 decimal places, is below 10^11 in absolute value: the wallet then
holds that rounded value, every other balance of every user is unchanged, and
the response carries the balances read after the update.  Otherwise the update
fails with `numeric field overflow`, the response is that error and the store
is unchanged. -/
theorem HandleWithdraw_success_numeric (fl : Rounding) (db : DB) (hwf : WF db)
    (ValidateToken : String → Except String String)
    (req : WithdrawRequest) (tokenString username : String) (m : Balances) (b : ℚ)
    (htok : tokenString ≠ "") (hval : ValidateToken tokenString = Except.ok username)
    (hm : Machine.GetUserBalance fl username db = Except.ok m)
    (_hpos : 0 < req.Amount) (hle : req.Amount ≤ index m req.Currency)
    (hb : balanceOf db username req.Currency = some b) :
    (|round8 (b + fl.text (-req.Amount))| < 10 ^ 11 →
      ∃ db2 m2,
        HandleWithdraw ValidateToken (Machine.storage fl) (Bind.ok req) tokenString db =
          ([⟨200, Body.deposit "Withdrawal successfull" m2⟩], db2) ∧
        Machine.GetUserBalance fl username db2 = Except.ok m2 ∧
        (∀ c, m2 c = (balanceOf db2 username c).map fl.float64) ∧
        balanceOf db2 username req.Currency = some (round8 (b + fl.text (-req.Amount))) ∧
        (∀ c, c ≠ req.Currency → balanceOf db2 username c = balanceOf db username c) ∧
        (∀ username2, username2 ≠ username →
          balanceOf db2 username2 = balanceOf db username2)) ∧
    (¬ |round8 (b + fl.text (-req.Amount))| < 10 ^ 11 →
      HandleWithdraw ValidateToken (Machine.storage fl) (Bind.ok req) tokenString db =
        ([logError ("storage.postgres.UpdateUsersBalance: failed to update wallet: " ++
          "pq: numeric field overflow") 200], db)) := by
  rw [scan_read fl username db hwf] at hm
  cases hm
  obtain ⟨hnone, hsome⟩ := withdraw_numeric_run fl db hwf ValidateToken req tokenString
    username b htok hval (not_lt.mpr hle) hb
  constructor
  · intro hfit
    obtain ⟨db2, hrun, hwf2, -, hbal, -⟩ := hsome _ (numeric_fits _ hfit)
    refine ⟨db2, scanOf fl db2 username, hrun, scan_read fl username db2 hwf2, fun _ => rfl,
      ?_, ?_, ?_⟩
    · rw [hbal]; simp
    · intro c hc
      rw [hbal]; simp [hc]
    · intro username2 hu
      funext c
      rw [hbal]; simp [hu]
  · intro hfit
    exact hnone (numeric_overflow _ hfit)

/-- Witness of the amended C15, with conversions that do not round: the test
`Successful Withdrawal`, 50 USD from 100 USD and 50 EUR; afterwards the user
holds 50 USD and 50 EUR, and the response carries these balances. -/
theorem HandleWithdraw_success_numeric_witness :
    ∃ db2 m2,
      HandleWithdraw acceptAll (Machine.storage noRounding) (Bind.ok ⟨50, "USD"⟩) "testuser"
          withdrawDB =
        ([⟨200, Body.deposit "Withdrawal successfull" m2⟩], db2) ∧
      Machine.GetUserBalance noRounding "testuser" db2 = Except.ok m2 ∧
      balanceOf db2 "testuser" "USD" = some 50 ∧
      balanceOf db2 "testuser" "EUR" = some 50 ∧
      m2 "USD" = some 50 ∧ m2 "EUR" = some 50 := by
  have hr : round8 50 = 50 := round8_scaled 50 5000000000 (by norm_num)
  have hUSD : balanceOf withdrawDB "testuser" "USD" = some 100 := by
    simp [balanceOf, userId, walletOf, withdrawDB]
  obtain ⟨db2, m2, h1, h2, hm2, h3, h4, -⟩ :=
    (HandleWithdraw_success_numeric noRounding withdrawDB withdrawDB_WF acceptAll ⟨50, "USD"⟩
      "testuser" "testuser" (scanOf noRounding withdrawDB "testuser") 100 (by decide) rfl
      (scan_read noRounding "testuser" withdrawDB withdrawDB_WF) (by norm_num)
      (by simp [index, scanOf, hUSD, noRounding]; norm_num) hUSD).1
      (by norm_num [noRounding, hr, abs_lt])
  have h3b : balanceOf db2 "testuser" "USD" = some 50 := by
    rw [h3]; norm_num [noRounding, hr]
  have hEUR : balanceOf db2 "testuser" "EUR" = some 50 := by
    rw [h4 "EUR" (by decide)]
    simp [balanceOf, userId, walletOf, withdrawDB]
  refine ⟨db2, m2, h1, h2, h3b, hEUR, ?_, ?_⟩
  · rw [hm2, h3b]; simp [noRounding]
  · rw [hm2, hEUR]; simp [noRounding]

/-! ### A successful deposit -/

/-- C16, as the code contradicts it: whatever the conversions of `float64` do, a
deposit of 199999995904 USD (a `float32`) against 200 USD does not succeed with
the balance 200 + 199999995904, which the column cannot hold; and a deposit of
13421773 / 2^27 USD (the `float32` nearest to 0.1) does not succeed with the
balance 200 + 13421773 / 2^27, which has more than 8 decimal places. -/
theorem HandleDeposit_success_rounded :
    balanceOf depositDB "testuser" "USD" = some 200 ∧
      (∀ fl : Rounding,
        ¬ (succeeded (HandleDeposit acceptAll (Machine.storage fl)
              (Bind.ok ⟨199999995904, "USD"⟩) "testuser" depositDB).1 = true ∧
            balanceOf (HandleDeposit acceptAll (Machine.storage fl)
              (Bind.ok ⟨199999995904, "USD"⟩) "testuser" depositDB).2 "testuser" "USD" =
              some (200 + 199999995904))) ∧
      (∀ fl : Rounding,
        ¬ (succeeded (HandleDeposit acceptAll (Machine.storage fl)
              (Bind.ok ⟨13421773 / 2 ^ 27, "USD"⟩) "testuser" depositDB).1 = true ∧
            balanceOf (HandleDeposit acceptAll (Machine.storage fl)
              (Bind.ok ⟨13421773 / 2 ^ 27, "USD"⟩) "testuser" depositDB).2 "testuser" "USD" =
              some (200 + 13421773 / 2 ^ 27))) := by
  have hUSD : balanceOf depositDB "testuser" "USD" = some 200 := by
    simp [balanceOf, userId, walletOf, depositDB]
  refine ⟨hUSD, ?_, ?_⟩
  · rintro fl ⟨hs, hbal⟩
    obtain ⟨hnone, hsome⟩ := deposit_numeric_run fl depositDB depositDB_WF acceptAll
      ⟨199999995904, "USD"⟩ "testuser" "testuser" 200 (by decide) rfl hUSD
    cases hv : numeric (200 + fl.text 199999995904) with
    | none =>
      rw [hnone hv] at hs
      simp [succeeded, logError] at hs
    | some v =>
      obtain ⟨db2, hrun, -, -, hb2, -⟩ := hsome v hv
      rw [hrun] at hbal
      rw [hb2] at hbal
      obtain ⟨hvr, hfit⟩ := numeric_some _ _ hv
      rw [← hvr] at hfit
      have hv2 : v = 200 + 199999995904 := by simpa using hbal
      rw [hv2] at hfit
      norm_num [abs_lt] at hfit
  · rintro fl ⟨hs, hbal⟩
    obtain ⟨hnone, hsome⟩ := deposit_numeric_run fl depositDB depositDB_WF acceptAll
      ⟨13421773 / 2 ^ 27, "USD"⟩ "testuser" "testuser" 200 (by decide) rfl hUSD
    cases hv : numeric (200 + fl.text (13421773 / 2 ^ 27)) with
    | none =>
      rw [hnone hv] at hs
      simp [succeeded, logError] at hs
    | some v =>
      obtain ⟨db2, hrun, -, -, hb2, -⟩ := hsome v hv
      rw [hrun] at hbal
      rw [hb2] at hbal
      obtain ⟨hvr, -⟩ := numeric_some _ _ hv
      obtain ⟨n, hn⟩ := round8_grid (200 + fl.text (13421773 / 2 ^ 27))
      rw [← hvr] at hn
      have hv2 : v = 200 + 13421773 / 2 ^ 27 := by simpa using hbal
      rw [hv2] at hn
      have h2 : (n : ℚ) * 134217728 = 2684354560000000000 + 1342177300000000 := by
        rw [← hn]; norm_num
      have h3 : n * 134217728 = 2684354560000000000 + 1342177300000000 := by
        exact_mod_cast h2
      omega

/-- C16, amended: an authenticated deposit of a bound amount `> 0` into a currency
the user has a wallet for (stored balance `b`) succeeds when `b` plus the amount
as the driver writes it, rounded to 8 decimal places, is below 10^11 in absolute
value: the wallet then holds that rounded value, every other balance of every
user is unchanged, and the response carries the balances read after the update.
Otherwise the update fails with `numeric field overflow`, the response is that
error and the store is unchanged. -/
theorem HandleDeposit_success_numeric (fl : Rounding) (db : DB) (hwf : WF db)
    (ValidateToken : String → Except String String)
    (req : DepositRequest) (tokenString username : String) (b : ℚ)
    (htok : tokenString ≠ "") (hval : ValidateToken tokenString = Except.ok username)
    (_hpos : 0 < req.Amount) (hb : balanceOf db username req.Currency = some b) :
    (|round8 (b + fl.text req.Amount)| < 10 ^ 11 →
      ∃ db2 m2,
        HandleDeposit ValidateToken (Machine.storage fl) (Bind.ok req) tokenString db =
          ([⟨200, Body.deposit "Account topped up successfully" m2⟩], db2) ∧
        Machine.GetUserBalance fl username db2 = Except.ok m2 ∧
        (∀ c, m2 c = (balanceOf db2 username c).map fl.float64) ∧
        balanceOf db2 username req.Currency = some (round8 (b + fl.text req.Amount)) ∧
        (∀ c, c ≠ req.Currency → balanceOf db2 username c = balanceOf db username c) ∧
        (∀ username2, username2 ≠ username →
          balanceOf db2 username2 = balanceOf db username2)) ∧
    (¬ |round8 (b + fl.text req.Amount)| < 10 ^ 11 →
      HandleDeposit ValidateToken (Machine.storage fl) (Bind.ok req) tokenString db =
        ([logError ("storage.postgres.UpdateUsersBalance: failed to update wallet: " ++
          "pq: numeric field overflow") 200], db)) := by
  obtain ⟨hnone, hsome⟩ := deposit_numeric_run fl db hwf ValidateToken req tokenString username
    b htok hval hb
  constructor
  · intro hfit
    obtain ⟨db2, hrun, hwf2, -, hbal, -⟩ := hsome _ (numeric_fits _ hfit)
    refine ⟨db2, scanOf fl db2 username, hrun, scan_read fl username db2 hwf2, fun _ => rfl,
      ?_, ?_, ?_⟩
    · rw [hbal]; simp
    · intro c hc
      rw [hbal]; simp [hc]
    · intro username2 hu
      funext c
      rw [hbal]; simp [hu]
  · intro hfit
    exact hnone (numeric_overflow _ hfit)

/-- Witness of the amended C16, with conversions that do not round: 50 USD
deposited against 200 USD and 50 EUR; afterwards the user holds 250 USD and
50 EUR, and the response carries these balances. -/
theorem HandleDeposit_success_numeric_witness :
    ∃ db2 m2,
      HandleDeposit acceptAll (Machine.storage noRounding) (Bind.ok ⟨50, "USD"⟩) "testuser"
          depositDB =
        ([⟨200, Body.deposit "Account topped up successfully" m2⟩], db2) ∧
      Machine.GetUserBalance noRounding "testuser" db2 = Except.ok m2 ∧
      balanceOf db2 "testuser" "USD" = some 250 ∧
      balanceOf db2 "testuser" "EUR" = some 50 ∧
      m2 "USD" = some 250 ∧ m2 "EUR" = some 50 := by
  have hr : round8 250 = 250 := round8_scaled 250 25000000000 (by norm_num)
  have hUSD : balanceOf depositDB "testuser" "USD" = some 200 := by
    simp [balanceOf, userId, walletOf, depositDB]
  obtain ⟨db2, m2, h1, h2, hm2, h3, h4, -⟩ :=
    (HandleDeposit_success_numeric noRounding depositDB depositDB_WF acceptAll ⟨50, "USD"⟩
      "testuser" "testuser" 200 (by decide) rfl (by norm_num) hUSD).1
      (by norm_num [noRounding, hr, abs_lt])
  have h3b : balanceOf db2 "testuser" "USD" = some 250 := by
    rw [h3]; norm_num [noRounding, hr]
  have hEUR : balanceOf db2 "testuser" "EUR" = some 50 := by
    rw [h4 "EUR" (by decide)]
    simp [balanceOf, userId, walletOf, depositDB]
  refine ⟨db2, m2, h1, h2, h3b, hEUR, ?_, ?_⟩
  · rw [hm2, h3b]; simp [noRounding]
  · rw [hm2, hEUR]; simp [noRounding]

/-! ### A deposit of a non-positive amount -/

/-- C17, as the code contradicts it: the deposit of -50 USD passes `BindJSON` and
completes successfully; the USD balance drops from 100 to 50. -/
theorem HandleDeposit_negative_amount_accepted :
    balanceOf testDB "testuser" "USD" = some 100 ∧
      succeeded (HandleDeposit acceptAll storage
        (BindJSON DepositRequest.required (Payload.decoded ⟨-50, "USD"⟩)) "testuser"
        testDB).1 = true ∧
      balanceOf (HandleDeposit acceptAll storage
        (BindJSON DepositRequest.required (Payload.decoded ⟨-50, "USD"⟩)) "testuser"
        testDB).2 "testuser" "USD" = some 50 := by
  have hbind : BindJSON DepositRequest.required (Payload.decoded ⟨-50, "USD"⟩) =
      Bind.ok ⟨-50, "USD"⟩ := by
    simp [BindJSON, DepositRequest.required]
  obtain ⟨db2, m2, hrun, hbal⟩ := testDB_deposit (-50)
  rw [hbind, hrun]
  refine ⟨testDB_USD, by simp [succeeded], ?_⟩
  show balanceOf db2 "testuser" "USD" = some 50
  rw [hbal]
  norm_num

/-- C17, amended: a deposit request whose amount is zero fails the `required` tag
of `Amount` in `BindJSON`; `HandleDeposit` answers with status 400 and the error
`request contains wrong data` and makes no store call.  (A negative amount is
not validated.) -/
theorem HandleDeposit_zero_amount {σ : Type} (ex : Exchanger σ)
    (ValidateToken : String → Except String String)
    (req : DepositRequest) (tokenString : String) (s : σ) (h0 : req.Amount = 0) :
    HandleDeposit ValidateToken (recorded ex)
        (BindJSON DepositRequest.required (Payload.decoded req)) tokenString (s, []) =
      ([logError "request contains wrong data" 400], (s, [])) := by
  simp [BindJSON, DepositRequest.required, h0, HandleDeposit]

/-- Witness of the amended C17: a deposit of 0 USD on `testDB`. -/
theorem HandleDeposit_zero_amount_witness :
    HandleDeposit acceptAll (recorded storage)
        (BindJSON DepositRequest.required (Payload.decoded ⟨0, "USD"⟩)) "testuser"
        (testDB, []) =
      ([logError "request contains wrong data" 400], (testDB, [])) :=
  HandleDeposit_zero_amount storage acceptAll ⟨0, "USD"⟩ "testuser" testDB rfl

/-! ### A withdraw of a non-positive amount -/

/-- C18, as the code contradicts it: the withdraw of -50 USD passes `BindJSON` and
the balance check and completes successfully; the USD balance rises from 100
to 150. -/
theorem HandleWithdraw_negative_amount_accepted :
    balanceOf testDB "testuser" "USD" = some 100 ∧
      ∃ db2 m2,
        HandleWithdraw acceptAll storage
            (BindJSON WithdrawRequest.required (Payload.decoded ⟨-50, "USD"⟩)) "testuser"
            testDB =
          ([⟨200, Body.deposit "Withdrawal successfull" m2⟩], db2) ∧
        Storage.GetUserBalance "testuser" db2 = Except.ok m2 ∧
        m2 "USD" = some 150 := by
  have hbind : BindJSON WithdrawRequest.required (Payload.decoded ⟨-50, "USD"⟩) =
      Bind.ok ⟨-50, "USD"⟩ := by
    simp [BindJSON, WithdrawRequest.required]
  obtain ⟨db2, m2, hrun, hget, hbal⟩ := testDB_withdraw_balance (-50) (by norm_num)
  rw [hbind]
  refine ⟨testDB_USD, db2, m2, hrun, hget, ?_⟩
  rw [hbal]
  norm_num

/-- C18, amended: a withdraw request whose amount is zero fails the `required`
tag of `Amount` in `BindJSON`; `HandleWithdraw` answers with status 400 and the
error `request contains wrong data` and makes no store call.  A withdraw of a
positive amount never increases a balance: afterwards no balance of any user
is above its value before the request.  (A negative amount is not validated.) -/
theorem HandleWithdraw_zero_or_positive (db : DB) (hwf : WF db)
    (ValidateToken : String → Except String String) (tokenString : String) :
    (∀ req : WithdrawRequest, req.Amount = 0 →
      HandleWithdraw ValidateToken (recorded storage)
          (BindJSON WithdrawRequest.required (Payload.decoded req)) tokenString (db, []) =
        ([logError "request contains wrong data" 400], (db, []))) ∧
    (∀ req : WithdrawRequest, 0 < req.Amount →
      ∀ (username2 : String) (m1 m2 : Balances),
        Storage.GetUserBalance username2 db = Except.ok m1 →
        Storage.GetUserBalance username2
          (HandleWithdraw ValidateToken storage (Bind.ok req) tokenString db).2 =
            Except.ok m2 →
        ∀ c, index m2 c ≤ index m1 c) := by
  refine ⟨?_, ?_⟩
  · intro req h0
    simp [BindJSON, WithdrawRequest.required, h0, HandleWithdraw]
  · intro req hpos username2 m1 m2 h1 h2 c
    rw [GetUserBalance_eq username2 db hwf] at h1
    rw [GetUserBalance_eq username2 _
      (HandleWithdraw_state_WF db hwf ValidateToken req tokenString)] at h2
    cases h1
    cases h2
    exact HandleWithdraw_no_increase db hwf ValidateToken req tokenString hpos.le username2 c

/-- Witness of the amended C18 on `testDB`: a withdraw of 0 USD is rejected, a
withdraw of 50 USD raises no balance. -/
theorem HandleWithdraw_zero_or_positive_witness :
    HandleWithdraw acceptAll (recorded storage)
        (BindJSON WithdrawRequest.required (Payload.decoded ⟨0, "USD"⟩)) "testuser"
        (testDB, []) =
      ([logError "request contains wrong data" 400], (testDB, [])) ∧
    ∀ c, index (balanceOf (HandleWithdraw acceptAll storage (Bind.ok ⟨50, "USD"⟩) "testuser"
      testDB).2 "testuser") c ≤ index (balanceOf testDB "testuser") c := by
  obtain ⟨hzero, hpos⟩ := HandleWithdraw_zero_or_positive testDB testDB_WF acceptAll "testuser"
  refine ⟨hzero ⟨0, "USD"⟩ rfl, ?_⟩
  exact hpos ⟨50, "USD"⟩ (by norm_num) "testuser" _ _
    (GetUserBalance_eq "testuser" testDB testDB_WF)
    (GetUserBalance_eq "testuser" _
      (HandleWithdraw_state_WF testDB testDB_WF acceptAll ⟨50, "USD"⟩ "testuser"))

/-! ### A currency outside the provisioned set -/

/-- C19, as the code contradicts it: GBP is not one of the currencies of
`RegisterUser` and `testDB` holds wallets of those currencies only.  The rate
table quotes GBP, so in the exchange of 100 USD to GBP the code is detected
only by the credit, which finds no GBP wallet after the debit has been applied:
the response is the error of the store and the USD balance is 0 instead of
100. -/
theorem HandleExchange_unprovisioned_target_debits :
    "GBP" ∉ currencies ∧ Provisioned testDB ∧
      gbpRates ("RUB_" ++ "GBP") = some (9 / 1000) ∧
      balanceOf testDB "testuser" "USD" = some 100 ∧
      (HandleExchange acceptAll (Except.ok gbpRates) storage (Bind.ok ⟨"USD", "GBP", 100⟩)
          "testuser" testDB).1 =
        [logError ("storage.postgres.UpdateUsersBalance: No wallet found for user testuser" ++
          " and currency GBP") 500] ∧
      balanceOf (HandleExchange acceptAll (Except.ok gbpRates) storage
          (Bind.ok ⟨"USD", "GBP", 100⟩) "testuser" testDB).2 "testuser" "USD" = some 0 := by
  have hm := GetUserBalance_eq "testuser" testDB testDB_WF
  have hidx : ¬ index (balanceOf testDB "testuser") "USD" < 100 := by
    simp [index, testDB_USD]
  have hid : userId testDB "testuser" = some 1 := by simp [userId, testDB]
  have hGBP : walletOf testDB 1 "GBP" = none := by simp [walletOf, testDB]
  obtain ⟨db1, hup1, -, husers, hbal1, -⟩ :=
    update_read testDB testDB_WF "testuser" "USD" (100 * -1) 100 testDB_USD
  have hid1 : userId db1 "testuser" = some 1 := by
    unfold userId at hid ⊢
    rw [husers]
    exact hid
  have hGBP1 : walletOf db1 1 "GBP" = none := by
    have h := hbal1 "testuser" "GBP"
    simp only [balanceOf, hid, hid1] at h
    rw [h]
    simp [hGBP]
  have hup2 := update_no_wallet "testuser" "GBP" ((100 : ℚ) / (12 / 1000) * (9 / 1000)) db1 1
    hid1 hGBP1
  have hconv := convertCurrencies_pair "USD" "GBP" 100 (12 / 1000) (9 / 1000) gbpRates
    (by simp [gbpRates]) (by simp [gbpRates])
  have hrun : HandleExchange acceptAll (Except.ok gbpRates) storage
      (Bind.ok ⟨"USD", "GBP", 100⟩) "testuser" testDB =
      ([logError ("storage.postgres.UpdateUsersBalance: No wallet found for user testuser" ++
          " and currency GBP") 500], db1) := by
    simp only [mul_neg, mul_one] at hup1
    simp [HandleExchange, storage, acceptAll, hm, hidx, hup1, hconv, hup2]
  rw [hrun]
  refine ⟨by simp [currencies], testDB_Provisioned, by simp [gbpRates], testDB_USD, rfl, ?_⟩
  show balanceOf db1 "testuser" "USD" = some 0
  rw [hbal1]
  norm_num

/-- C19, amended: on a store that satisfies the constraints of the schema and
holds wallets of the currencies of `RegisterUser` only, a deposit or a withdraw
that names another currency, and an exchange whose source currency is another
one, fails and leaves the store as it was; an exchange whose target currency is
another one fails as well.  No handler checks the code itself; the balance
check or the store's missing wallet rejects the request. -/
theorem unsupported_currency_fails (db : DB) (hwf : WF db) (hprov : Provisioned db)
    (ValidateToken : String → Except String String) (tokenString : String) :
    (∀ req : DepositRequest, req.Currency ∉ currencies →
      succeeded (HandleDeposit ValidateToken storage (Bind.ok req) tokenString db).1 = false ∧
        (HandleDeposit ValidateToken storage (Bind.ok req) tokenString db).2 = db) ∧
    (∀ req : WithdrawRequest, req.Currency ∉ currencies →
      succeeded (HandleWithdraw ValidateToken storage (Bind.ok req) tokenString db).1 = false ∧
        (HandleWithdraw ValidateToken storage (Bind.ok req) tokenString db).2 = db) ∧
    (∀ (GetExchangeRates : Except String Rates) (req : ExchangeRequest),
      req.FromCurrency ∉ currencies →
      succeeded (HandleExchange ValidateToken GetExchangeRates storage (Bind.ok req)
          tokenString db).1 = false ∧
        (HandleExchange ValidateToken GetExchangeRates storage (Bind.ok req) tokenString
          db).2 = db) ∧
    (∀ (GetExchangeRates : Except String Rates) (req : ExchangeRequest),
      req.ToCurrency ∉ currencies →
      succeeded (HandleExchange ValidateToken GetExchangeRates storage (Bind.ok req)
          tokenString db).1 = false) :=
  ⟨fun req hc => deposit_unprovisioned db hprov ValidateToken req tokenString hc,
    fun req hc => withdraw_unprovisioned db hwf hprov ValidateToken req tokenString hc,
    fun gr req hc => exchange_unprovisioned db hwf hprov ValidateToken gr req tokenString hc,
    fun gr req hc =>
      exchange_target_unprovisioned db hwf hprov ValidateToken gr req tokenString hc⟩

/-- Witness of the amended C19 on `testDB`: a deposit of 10 GBP, a withdraw of
10 GBP, an exchange of 10 GBP to USD and an exchange of 100 USD to GBP. -/
theorem unsupported_currency_fails_witness :
    (succeeded (HandleDeposit acceptAll storage (Bind.ok ⟨10, "GBP"⟩) "testuser" testDB).1 =
        false ∧
      (HandleDeposit acceptAll storage (Bind.ok ⟨10, "GBP"⟩) "testuser" testDB).2 = testDB) ∧
    (succeeded (HandleWithdraw acceptAll storage (Bind.ok ⟨10, "GBP"⟩) "testuser" testDB).1 =
        false ∧
      (HandleWithdraw acceptAll storage (Bind.ok ⟨10, "GBP"⟩) "testuser" testDB).2 = testDB) ∧
    (succeeded (HandleExchange acceptAll (Except.ok gbpRates) storage
        (Bind.ok ⟨"GBP", "USD", 10⟩) "testuser" testDB).1 = false ∧
      (HandleExchange acceptAll (Except.ok gbpRates) storage
        (Bind.ok ⟨"GBP", "USD", 10⟩) "testuser" testDB).2 = testDB) ∧
    succeeded (HandleExchange acceptAll (Except.ok gbpRates) storage
        (Bind.ok ⟨"USD", "GBP", 100⟩) "testuser" testDB).1 = false := by
  obtain ⟨hd, hw, he, ht⟩ :=
    unsupported_currency_fails testDB testDB_WF testDB_Provisioned acceptAll "testuser"
  exact ⟨hd ⟨10, "GBP"⟩ (by simp [currencies]), hw ⟨10, "GBP"⟩ (by simp [currencies]),
    he (Except.ok gbpRates) ⟨"GBP", "USD", 10⟩ (by simp [currencies]),
    ht (Except.ok gbpRates) ⟨"USD", "GBP", 100⟩ (by simp [currencies])⟩

/-! ### The balance of an unknown user -/

/-- C20, as the code contradicts it: no user row of `testDB` is named `nobody`,
yet `Storage.GetUserBalance` returns a balance map (the empty one) without an
error, and `HandleBalance` answers with status 200 and that map. -/
theorem GetUserBalance_unknown_user_succeeds :
    (∀ u ∈ testDB.users, u.username ≠ "nobody") ∧
      Storage.GetUserBalance "nobody" testDB = Except.ok (fun _ => none) ∧
      HandleBalance acceptAll storage.getter "nobody" testDB =
        ([⟨200, Body.balance fun _ => none⟩], testDB) := by
  have hno : ∀ u ∈ testDB.users, u.username ≠ "nobody" := by simp [testDB]
  have hget := GetUserBalance_no_user testDB "nobody" hno
  refine ⟨hno, hget, ?_⟩
  simp [HandleBalance, Exchanger.getter, storage, acceptAll, hget]

/-- C20, amended: for a user name that no user row carries,
`Storage.GetUserBalance` returns without an error the empty balance map, and
`HandleBalance` answers a request authenticated as that user with status 200 and
the empty map; the read path has no unknown-user error. -/
theorem GetUserBalance_unknown_user (db : DB) (username : String)
    (h : ∀ u ∈ db.users, u.username ≠ username) :
    Storage.GetUserBalance username db = Except.ok (fun _ => none) ∧
      ∀ (ValidateToken : String → Except String String) (tokenString : String),
        tokenString ≠ "" → ValidateToken tokenString = Except.ok username →
        HandleBalance ValidateToken storage.getter tokenString db =
          ([⟨200, Body.balance fun _ => none⟩], db) := by
  have hget := GetUserBalance_no_user db username h
  refine ⟨hget, ?_⟩
  intro ValidateToken tokenString htok hval
  simp [HandleBalance, Exchanger.getter, storage, htok, hval, hget]

/-- Witness of the amended C20: the user `ghost` on `testDB`. -/
theorem GetUserBalance_unknown_user_witness :
    Storage.GetUserBalance "ghost" testDB = Except.ok (fun _ => none) ∧
      HandleBalance acceptAll storage.getter "ghost" testDB =
        ([⟨200, Body.balance fun _ => none⟩], testDB) := by
  obtain ⟨h1, h2⟩ := GetUserBalance_unknown_user testDB "ghost" (by simp [testDB])
  exact ⟨h1, h2 acceptAll "ghost" (by decide) rfl⟩

/-! ### Provisioning the wallets of a new user -/

/-- C21: on a store that satisfies the constraints of the schema (uniqueness, and
every wallet row referring to a user row), with the user name and the email
unused and `userID` the fresh value of the identity column, `RegisterUser`
succeeds; afterwards the wallet rows of the new user are exactly one row for each
of USD, EUR and RUB with balance 0, and `GetUserBalance` returns 0 for these
three currencies and no entry for any other.  Whenever `RegisterUser` returns an
error, the store is what it was before the call: neither the user row nor a
wallet row has been added. -/
theorem RegisterUser_provisions (db : DB) (hwf : WF db)
    (hfk : ∀ w ∈ db.wallets, ∃ u ∈ db.users, u.id = w.user_id)
    (userID : Nat) (username passwordHash email : String)
    (hid : ∀ u ∈ db.users, u.id ≠ userID)
    (hname : ∀ u ∈ db.users, u.username ≠ username)
    (hemail : ∀ u ∈ db.users, u.email ≠ email) :
    (∃ db2, Storage.RegisterUser userID username passwordHash email db = (none, db2) ∧
      db2.users = db.users ++ [⟨userID, username, passwordHash, email⟩] ∧
      (db2.wallets.filter fun w => w.user_id = userID) =
        [⟨userID, "USD", 0⟩, ⟨userID, "EUR", 0⟩, ⟨userID, "RUB", 0⟩] ∧
      (db2.wallets.filter fun w => w.user_id ≠ userID) = db.wallets ∧
      WF db2 ∧
      Storage.GetUserBalance username db2 =
        Except.ok fun c => if c ∈ currencies then some 0 else none) ∧
    (∀ (id2 : Nat) (username2 hash2 email2 err : String) (db3 : DB),
      Storage.RegisterUser id2 username2 hash2 email2 db = (some err, db3) → db3 = db) := by
  have hw : ∀ w ∈ db.wallets, w.user_id ≠ userID := by
    intro w hwm heq
    obtain ⟨u, hu, huid⟩ := hfk w hwm
    exact hid u hu (huid.trans heq)
  have hwf2 := registered_WF db hwf userID username passwordHash email hw hid hname
  refine ⟨⟨_, RegisterUser_run db userID username passwordHash email hfk hid hname hemail,
    rfl, ?_, ?_, hwf2, ?_⟩, ?_⟩
  · have h0 : (db.wallets.filter fun w => decide (w.user_id = userID)) = [] := by
      rw [List.filter_eq_nil_iff]
      intro w hwm
      simpa using hw w hwm
    simp [List.filter_append, h0, List.filter_cons]
  · have h1 : (db.wallets.filter fun w => decide (w.user_id ≠ userID)) = db.wallets := by
      rw [List.filter_eq_self]
      intro w hwm
      simpa using hw w hwm
    simp only [List.filter_append, h1]
    simp [List.filter_cons]
  · rw [GetUserBalance_eq username _ hwf2]
    congr 1
    funext c
    exact registered_balance db userID username passwordHash email hw hname c
  · intro id2 username2 hash2 email2 err db3 h
    exact RegisterUser_rollback id2 username2 hash2 email2 db db3 err h

/-- Witness of C21: the user `alice` registered on `testDB` with the id 2. -/
theorem RegisterUser_provisions_witness :
    (∃ db2, Storage.RegisterUser 2 "alice" "hash:secret" "alice@example.com" testDB =
        (none, db2) ∧
      (db2.wallets.filter fun w => w.user_id = 2) =
        [⟨2, "USD", 0⟩, ⟨2, "EUR", 0⟩, ⟨2, "RUB", 0⟩] ∧
      Storage.GetUserBalance "alice" db2 =
        Except.ok fun c => if c ∈ currencies then some 0 else none) ∧
    (Storage.RegisterUser 2 "testuser" "hash:secret" "other@example.com" testDB).1 ≠ none ∧
    (Storage.RegisterUser 2 "testuser" "hash:secret" "other@example.com" testDB).2 =
      testDB := by
  obtain ⟨⟨db2, h1, -, h3, -, -, h6⟩, hfail⟩ :=
    RegisterUser_provisions testDB testDB_WF (by simp [testDB]) 2 "alice" "hash:secret"
      "alice@example.com" (by simp [testDB]) (by simp [testDB]) (by simp [testDB])
  refine ⟨⟨db2, h1, h3, h6⟩, ?_, ?_⟩
  · simp [Storage.RegisterUser, testDB]
  · rcases hr : Storage.RegisterUser 2 "testuser" "hash:secret" "other@example.com" testDB
      with ⟨_ | err, db3⟩
    · simp [Storage.RegisterUser, testDB] at hr
    · exact hfail 2 "testuser" "hash:secret" "other@example.com" err db3 hr

/-! ### A failed existence check at registration -/

/-- C22, at the failing input: with the mocks of the tests `DoesEmailExists Error`
and `DoesUserExists Error` the handler does not answer with the error of the
check; it calls `RegisterUser` and answers `user registered`. -/
theorem HandleRegisterUser_ignores_check_error :
    HandleRegisterUser tagHash (journaled mockUserRegisterer) (Bind.ok testRegistration)
        (emailCheckFails, []) =
      ([⟨200, Body.message "user registered"⟩],
        (emailCheckFails, [RegisterCall.DoesEmailExists "test@example.com",
          RegisterCall.RegisterUser "testuser" "hash:password" "test@example.com"])) ∧
    HandleRegisterUser tagHash (journaled mockUserRegisterer) (Bind.ok testRegistration)
        (userCheckFails, []) =
      ([⟨200, Body.message "user registered"⟩],
        (userCheckFails, [RegisterCall.DoesEmailExists "test@example.com",
          RegisterCall.DoesUserExists "testuser",
          RegisterCall.RegisterUser "testuser" "hash:password" "test@example.com"])) := by
  constructor <;> rfl

/-! ### Wrong credentials at login -/

/-- C23: when the lookup of the password hash fails, or the password does not
verify against the stored hash, `HandleLoginUser` answers with the single
response `wrong password` (status 200), which carries no token; so the response
to an unknown user name (`req1`) and the response to a known user name with a
wrong password (`req2`) are the same. -/
theorem HandleLoginUser_wrong_password {σ : Type} (userLogger : UserLogger σ)
    (CompareHashAndPassword : String → String → Option String)
    (GenerateJWT : String → String × Option String) (s : σ) (req1 req2 : LoginRequest)
    (passhash : String)
    (h1 : (userLogger.GetUsersPassHash req1.Username s).1.2 ≠ none)
    (h2 : (userLogger.GetUsersPassHash req2.Username s).1 = (passhash, none))
    (h3 : CompareHashAndPassword passhash req2.Password ≠ none) :
    (HandleLoginUser CompareHashAndPassword GenerateJWT userLogger (Bind.ok req1) s).1 =
        [logError "wrong password" 200] ∧
      (HandleLoginUser CompareHashAndPassword GenerateJWT userLogger (Bind.ok req2) s).1 =
        [logError "wrong password" 200] ∧
      (HandleLoginUser CompareHashAndPassword GenerateJWT userLogger (Bind.ok req1) s).1 =
        (HandleLoginUser CompareHashAndPassword GenerateJWT userLogger (Bind.ok req2) s).1 := by
  have e1 : (HandleLoginUser CompareHashAndPassword GenerateJWT userLogger (Bind.ok req1) s).1 =
      [logError "wrong password" 200] := by
    rcases hx : userLogger.GetUsersPassHash req1.Username s with ⟨⟨hash, _ | e⟩, s1⟩
    · rw [hx] at h1; exact absurd rfl h1
    · simp [HandleLoginUser, hx]
  have e2 : (HandleLoginUser CompareHashAndPassword GenerateJWT userLogger (Bind.ok req2) s).1 =
      [logError "wrong password" 200] := by
    rcases hx : userLogger.GetUsersPassHash req2.Username s with ⟨⟨hash, err⟩, s1⟩
    rw [hx] at h2
    cases h2
    cases hc : CompareHashAndPassword passhash req2.Password with
    | none => exact absurd hc h3
    | some e => simp [HandleLoginUser, hx, VerifyPassword, hc]
  exact ⟨e1, e2, e1.trans e2.symm⟩

/-- Witness of C23 on the Postgres store: the unknown user `nonexistentuser` and
the user `testuser` with the wrong password `wrongpassword`. -/
theorem HandleLoginUser_wrong_password_witness :
    (HandleLoginUser tagCompare signAll storageLogger
        (Bind.ok ⟨"nonexistentuser", "password123"⟩) loginDB).1 =
        [logError "wrong password" 200] ∧
      (HandleLoginUser tagCompare signAll storageLogger
        (Bind.ok ⟨"testuser", "wrongpassword"⟩) loginDB).1 =
        [logError "wrong password" 200] ∧
      (HandleLoginUser tagCompare signAll storageLogger
        (Bind.ok ⟨"nonexistentuser", "password123"⟩) loginDB).1 =
        (HandleLoginUser tagCompare signAll storageLogger
          (Bind.ok ⟨"testuser", "wrongpassword"⟩) loginDB).1 :=
  HandleLoginUser_wrong_password storageLogger tagCompare signAll loginDB
    ⟨"nonexistentuser", "password123"⟩ ⟨"testuser", "wrongpassword"⟩ "hash:password123"
    (by simp [storageLogger, Storage.GetUsersPassHash, loginDB])
    (by simp [storageLogger, Storage.GetUsersPassHash, loginDB])
    (by simp [tagCompare, tagHash])

/-! ### A request that is not authorized -/

/-- C24: when the `Authorization` header is empty (`e` is `not authorized`) or
the token fails validation with the error `e`, each of `HandleBalance`,
`HandleDeposit`, `HandleWithdraw` and `HandleExchange` answers a bound request
with the single error `e` (status 401); whatever the body, the handler writes
error responses only, the journal of store calls stays empty (no read, no
update) and the store is what it was. -/
theorem unauthorized_no_store_call {σ : Type} (ex : Exchanger σ)
    (ValidateToken : String → Except String String) (tokenString e : String) (s : σ)
    (h : (tokenString = "" ∧ e = "not authorized") ∨
      (tokenString ≠ "" ∧ ValidateToken tokenString = Except.error e)) :
    HandleBalance ValidateToken (recorded ex).getter tokenString (s, []) =
        ([logError e 401], (s, [])) ∧
    (∀ req, HandleDeposit ValidateToken (recorded ex) (Bind.ok req) tokenString (s, []) =
        ([logError e 401], (s, []))) ∧
    (∀ req, HandleWithdraw ValidateToken (recorded ex) (Bind.ok req) tokenString (s, []) =
        ([logError e 401], (s, []))) ∧
    (∀ rates req, HandleExchange ValidateToken rates (recorded ex) (Bind.ok req) tokenString
        (s, []) = ([logError e 401], (s, []))) ∧
    (∀ body,
      succeeded (HandleDeposit ValidateToken (recorded ex) body tokenString (s, [])).1 = false ∧
        (HandleDeposit ValidateToken (recorded ex) body tokenString (s, [])).2 = (s, [])) ∧
    (∀ body,
      succeeded (HandleWithdraw ValidateToken (recorded ex) body tokenString (s, [])).1 = false ∧
        (HandleWithdraw ValidateToken (recorded ex) body tokenString (s, [])).2 = (s, [])) ∧
    (∀ rates body,
      succeeded (HandleExchange ValidateToken rates (recorded ex) body tokenString
          (s, [])).1 = false ∧
        (HandleExchange ValidateToken rates (recorded ex) body tokenString (s, [])).2 =
          (s, [])) := by
  rcases h with ⟨htok, he⟩ | ⟨htok, hval⟩
  · subst htok he
    refine ⟨by simp [HandleBalance], fun req => by simp [HandleDeposit],
      fun req => by simp [HandleWithdraw], fun rates req => by simp [HandleExchange],
      fun body => ?_, fun body => ?_, fun rates body => ?_⟩
    · cases body <;> simp [HandleDeposit, succeeded, logError]
    · cases body <;> simp [HandleWithdraw, succeeded, logError]
    · cases body <;> simp [HandleExchange, succeeded, logError]
  · refine ⟨by simp [HandleBalance, htok, hval], fun req => by simp [HandleDeposit, htok, hval],
      fun req => by simp [HandleWithdraw, htok, hval],
      fun rates req => by simp [HandleExchange, htok, hval],
      fun body => ?_, fun body => ?_, fun rates body => ?_⟩
    · cases body <;> simp [HandleDeposit, htok, hval, succeeded, logError]
    · cases body <;> simp [HandleWithdraw, htok, hval, succeeded, logError]
    · cases body <;> simp [HandleExchange, htok, hval, succeeded, logError]

/-- Witness of C24 on the Postgres store: the tests `No Token` (empty header) and
`Invalid Token` (a token the validator rejects), for a deposit of 100 USD. -/
theorem unauthorized_no_store_call_witness :
    HandleDeposit acceptAll (recorded storage) (Bind.ok ⟨100, "USD"⟩) "" (testDB, []) =
        ([logError "not authorized" 401], (testDB, [])) ∧
      HandleDeposit rejectAll (recorded storage) (Bind.ok ⟨100, "USD"⟩) "invalid_token"
          (testDB, []) =
        ([logError "token contains an invalid number of segments" 401], (testDB, [])) :=
  ⟨(unauthorized_no_store_call storage acceptAll "" "not authorized" testDB
      (Or.inl ⟨rfl, rfl⟩)).2.1 ⟨100, "USD"⟩,
    (unauthorized_no_store_call storage rejectAll "invalid_token"
      "token contains an invalid number of segments" testDB
      (Or.inr ⟨by decide, rfl⟩)).2.1 ⟨100, "USD"⟩⟩

/-! ### The status of a request without a token -/

/-- C26, as the code contradicts it: the deposit of 100 USD with an empty
`Authorization` header is answered with status 401, not 200. -/
theorem no_token_status_is_401 :
    (HandleDeposit acceptAll storage (Bind.ok ⟨100, "USD"⟩) "" testDB).1.map
        (fun r => r.status) = [401] ∧
      (401 : Nat) ≠ 200 := by
  constructor
  · rfl
  · decide

/-- C26, amended: each of `HandleDeposit`, `HandleWithdraw`, `HandleExchange` (for
a bound request) and `HandleBalance` answers an empty `Authorization` header with
one response, of status 401 (`http.StatusUnauthorized`), whose body is
`{"status": "error", "error": "not authorized"}`. -/
theorem no_token_response {σ : Type} (ex : Exchanger σ)
    (ValidateToken : String → Except String String) (s : σ) :
    HandleBalance ValidateToken ex.getter "" s =
        ([⟨401, Body.error "not authorized"⟩], s) ∧
    (∀ req, HandleDeposit ValidateToken ex (Bind.ok req) "" s =
        ([⟨401, Body.error "not authorized"⟩], s)) ∧
    (∀ req, HandleWithdraw ValidateToken ex (Bind.ok req) "" s =
        ([⟨401, Body.error "not authorized"⟩], s)) ∧
    (∀ rates req, HandleExchange ValidateToken rates ex (Bind.ok req) "" s =
        ([⟨401, Body.error "not authorized"⟩], s)) :=
  ⟨by simp [HandleBalance, logError], fun req => by simp [HandleDeposit, logError],
    fun req => by simp [HandleWithdraw, logError],
    fun rates req => by simp [HandleExchange, logError]⟩

/-! ### Conservation of value in an exchange -/

/-- C27: for a successful exchange with `F ≠ T`, an amount `> 0` and a positive
rate for every currency the user holds, the value of the wallets of the user in
the base currency, the sum of `balance[c] / rate(RUB_c)`, is the same after the
exchange as before it. -/
theorem HandleExchange_conserves_value (db : DB) (hwf : WF db)
    (ValidateToken : String → Except String String) (rates : Rates)
    (req : ExchangeRequest) (tokenString username : String) (m : Balances)
    (hval : ValidateToken tokenString = Except.ok username)
    (hm : Storage.GetUserBalance username db = Except.ok m)
    (hne : req.FromCurrency ≠ req.ToCurrency) (_hpos : 0 < req.Amount)
    (hrates : ∀ c b, m c = some b → ∃ r, rates ("RUB_" ++ c) = some r ∧ 0 < r)
    (hs : succeeded (HandleExchange ValidateToken (Except.ok rates) storage (Bind.ok req)
      tokenString db).1 = true) :
    baseValue rates username (HandleExchange ValidateToken (Except.ok rates) storage
      (Bind.ok req) tokenString db).2 = baseValue rates username db := by
  rw [GetUserBalance_eq username db hwf] at hm
  cases hm
  exact exchange_conserves db hwf ValidateToken rates req tokenString username hval hne
    hrates hs

/-- Witness of C27: 100 USD to EUR against 100 USD and 50 EUR at the rates 0.012
and 0.011. -/
theorem HandleExchange_conserves_value_witness :
    baseValue testRates "testuser" (HandleExchange acceptAll (Except.ok testRates) storage
      (Bind.ok ⟨"USD", "EUR", 100⟩) "testuser" withdrawDB).2 =
      baseValue testRates "testuser" withdrawDB ∧
    baseValue testRates "testuser" withdrawDB = 425000 / 33 := by
  refine ⟨HandleExchange_conserves_value withdrawDB withdrawDB_WF acceptAll testRates
    ⟨"USD", "EUR", 100⟩ "testuser" "testuser" (balanceOf withdrawDB "testuser") rfl
    (GetUserBalance_eq "testuser" withdrawDB withdrawDB_WF) (by decide) (by norm_num)
    withdrawDB_rates withdrawDB_exchange, ?_⟩
  simp [baseValue, Storage.joined, withdrawDB, index, testRates]
  norm_num

/-! ### Round trip of a conversion -/

/-- C28: with both rates present and non-zero, converting an amount from `F` to
`T` and the result back from `T` to `F` returns the amount; converting `F` to
`F` returns the amount. -/
theorem convertCurrencies_round_trip (F T : String) (amount rF rT : ℚ) (rates : Rates)
    (hF : rates ("RUB_" ++ F) = some rF) (hT : rates ("RUB_" ++ T) = some rT)
    (hrF : rF ≠ 0) (hrT : rT ≠ 0) :
    convertCurrencies T F (convertCurrencies F T amount rates).1 rates = (amount, none) ∧
      convertCurrencies F F amount rates = (amount, none) := by
  constructor
  · rw [convertCurrencies_pair F T amount rF rT rates hF hT,
      convertCurrencies_pair T F _ rT rF rates hT hF]
    congr 1
    field_simp
    ring
  · rw [convertCurrencies_pair F F amount rF rF rates hF hF]
    congr 1
    field_simp

/-- Witness of C28: 100 USD to EUR and back at the rates 0.012 and 0.011. -/
theorem convertCurrencies_round_trip_witness :
    convertCurrencies "EUR" "USD" (convertCurrencies "USD" "EUR" 100 testRates).1 testRates =
        (100, none) ∧
      convertCurrencies "USD" "USD" 100 testRates = (100, none) :=
  convertCurrencies_round_trip "USD" "EUR" 100 (12 / 1000) (11 / 1000) testRates
    (by simp [testRates]) (by simp [testRates]) (by norm_num) (by norm_num)

/-! ### Deltas applied in sequence -/

/-- C29, as the code contradicts it: on the 100 USD of `testuser`, two updates of
0.000000004 leave the store as it was, while one update of 0.000000008 leaves
100.00000001 USD.  And an update of 10^11 fails, so that the updates of 10^11
and then of -10^11 leave 100 - 10^11 USD, while one update of their sum 0 leaves
100 USD. -/
theorem UpdateUsersBalance_compose_rounded :
    balanceOf testDB "testuser" "USD" = some 100 ∧
      Machine.UpdateUsersBalance "testuser" "USD" (4 / 10 ^ 9)
          (Machine.UpdateUsersBalance "testuser" "USD" (4 / 10 ^ 9) testDB).2 =
        (none, testDB) ∧
      (Machine.UpdateUsersBalance "testuser" "USD" (4 / 10 ^ 9 + 4 / 10 ^ 9) testDB).1 = none ∧
      balanceOf (Machine.UpdateUsersBalance "testuser" "USD" (4 / 10 ^ 9 + 4 / 10 ^ 9)
          testDB).2 "testuser" "USD" = some (100 + 1 / 10 ^ 8) ∧
      Machine.UpdateUsersBalance "testuser" "USD" (10 ^ 11) testDB =
        (some ("storage.postgres.UpdateUsersBalance: failed to update wallet: " ++
          "pq: numeric field overflow"), testDB) ∧
      balanceOf (Machine.UpdateUsersBalance "testuser" "USD" (-10 ^ 11)
          (Machine.UpdateUsersBalance "testuser" "USD" (10 ^ 11) testDB).2).2 "testuser"
          "USD" = some (100 - 10 ^ 11) ∧
      balanceOf (Machine.UpdateUsersBalance "testuser" "USD" (10 ^ 11 + -10 ^ 11) testDB).2
          "testuser" "USD" = some 100 := by
  have hr : round8 (100 + 4 / 10 ^ 9) = 100 := by
    unfold round8
    rw [if_pos (by norm_num)]
    have : ⌊((100 : ℚ) + 4 / 10 ^ 9) * 10 ^ 8 + 1 / 2⌋ = 10000000000 := by
      rw [Int.floor_eq_iff]; constructor <;> norm_num
    rw [this]; norm_num
  have hv : numeric (100 + 4 / 10 ^ 9) = some 100 := by
    rw [numeric_fits _ (by rw [hr]; norm_num [abs_lt]), hr]
  have h1 : Machine.UpdateUsersBalance "testuser" "USD" (4 / 10 ^ 9) testDB = (none, testDB) := by
    rw [numeric_update_ok testDB testDB_WF "testuser" "USD" (4 / 10 ^ 9) 100 100 testDB_USD hv]
    simp [Storage.UpdateUsersBalance, testDB]
  have hv2 : numeric (100 + (4 / 10 ^ 9 + 4 / 10 ^ 9)) = some (100 + 1 / 10 ^ 8) := by
    have h := numeric_scaled (100 + 1 / 10 ^ 8) 10000000001 (by norm_num)
      (by norm_num [abs_lt])
    have hr2 : round8 (100 + (4 / 10 ^ 9 + 4 / 10 ^ 9)) = 100 + 1 / 10 ^ 8 := by
      unfold round8
      rw [if_pos (by norm_num)]
      have : ⌊((100 : ℚ) + (4 / 10 ^ 9 + 4 / 10 ^ 9)) * 10 ^ 8 + 1 / 2⌋ = 10000000001 := by
        rw [Int.floor_eq_iff]; constructor <;> norm_num
      rw [this]; norm_num
    rw [numeric_fits _ (by rw [hr2]; norm_num [abs_lt]), hr2]
  obtain ⟨db2, hup, -, -, hbal, -⟩ :=
    numeric_update_read testDB testDB_WF "testuser" "USD" (4 / 10 ^ 9 + 4 / 10 ^ 9) 100 _
      testDB_USD hv2
  have hover : Machine.UpdateUsersBalance "testuser" "USD" (10 ^ 11) testDB =
      (some ("storage.postgres.UpdateUsersBalance: failed to update wallet: " ++
        "pq: numeric field overflow"), testDB) := by
    have hr3 : round8 (100 + 10 ^ 11) = 100 + 10 ^ 11 :=
      round8_scaled (100 + 10 ^ 11) 10000000010000000000 (by norm_num)
    exact numeric_update_overflow testDB testDB_WF "testuser" "USD" (10 ^ 11) 100 testDB_USD
      (numeric_overflow _ (by rw [hr3]; norm_num [abs_lt]))
  have hv3 : numeric (100 + -10 ^ 11) = some (100 - 10 ^ 11) := by
    have h := numeric_scaled (100 + -10 ^ 11) (-9999999990000000000) (by norm_num)
      (by norm_num [abs_lt])
    rw [h]
    norm_num
  obtain ⟨db3, hup3, -, -, hbal3, -⟩ :=
    numeric_update_read testDB testDB_WF "testuser" "USD" (-10 ^ 11) 100 _ testDB_USD hv3
  have hv4 : numeric (100 + (10 ^ 11 + -10 ^ 11)) = some 100 := by
    have h := numeric_scaled (100 + (10 ^ 11 + -10 ^ 11)) 10000000000 (by norm_num)
      (by norm_num [abs_lt])
    rw [h]
    norm_num
  obtain ⟨db4, hup4, -, -, hbal4, -⟩ :=
    numeric_update_read testDB testDB_WF "testuser" "USD" (10 ^ 11 + -10 ^ 11) 100 _
      testDB_USD hv4
  refine ⟨testDB_USD, ?_, ?_, ?_, hover, ?_, ?_⟩
  · rw [h1]; exact h1
  · rw [hup]
  · rw [hup]
    show balanceOf db2 "testuser" "USD" = some (100 + 1 / 10 ^ 8)
    rw [hbal]; simp
  · rw [hover, hup3]
    show balanceOf db3 "testuser" "USD" = some (100 - 10 ^ 11)
    rw [hbal3]; simp
  · rw [hup4]
    show balanceOf db4 "testuser" "USD" = some 100
    rw [hbal4]; simp

/-- C29, amended: for an existing wallet whose stored balance `b` has 8 decimal
places, and deltas `d1`, `d2` of 8 decimal places such that `b + d1`, `b + d2`
and `b + d1 + d2` are below 10^11 in absolute value, `UpdateUsersBalance` with
`d1` and then with `d2` succeeds and leaves the store in the state a single call
with `d1 + d2` leaves, which is also the state `d2` then `d1` leaves; and `n`
calls with a delta `a` of 8 decimal places leave the balance `b + n * a` when
every `b + i * a`, `i ≤ n`, is below 10^11 in absolute value. -/
theorem UpdateUsersBalance_compose (db : DB) (hwf : WF db) (username currency : String)
    (d1 d2 b : ℚ) (hb : balanceOf db username currency = some b)
    (hb8 : ∃ j : ℤ, b * 10 ^ 8 = j) (h1 : ∃ j : ℤ, d1 * 10 ^ 8 = j)
    (h2 : ∃ j : ℤ, d2 * 10 ^ 8 = j)
    (hfit1 : |b + d1| < 10 ^ 11) (hfit2 : |b + d2| < 10 ^ 11)
    (hfit : |b + d1 + d2| < 10 ^ 11) :
    (Machine.UpdateUsersBalance username currency d1 db).1 = none ∧
      Machine.UpdateUsersBalance username currency d2
          (Machine.UpdateUsersBalance username currency d1 db).2 =
        Machine.UpdateUsersBalance username currency (d1 + d2) db ∧
      (Machine.UpdateUsersBalance username currency d2
          (Machine.UpdateUsersBalance username currency d1 db).2).2 =
        (Machine.UpdateUsersBalance username currency d1
          (Machine.UpdateUsersBalance username currency d2 db).2).2 ∧
      balanceOf (Machine.UpdateUsersBalance username currency (d1 + d2) db).2 username
        currency = some (b + d1 + d2) ∧
      ∀ (n : Nat) (a : ℚ), (∃ j : ℤ, a * 10 ^ 8 = j) →
        (∀ i : Nat, i ≤ n → |b + i * a| < 10 ^ 11) →
        balanceOf (Machine.repeated username currency a n db) username currency =
          some (b + n * a) := by
  obtain ⟨j0, hj0⟩ := hb8
  obtain ⟨j1, hj1⟩ := h1
  obtain ⟨j2, hj2⟩ := h2
  obtain ⟨uid, hu, hw⟩ := balanceOf_some db username currency b hb
  have e1 := numeric_update_exact db hwf username currency d1 b hb (j0 + j1)
    (by push_cast; rw [← hj0, ← hj1]; ring) hfit1
  have e2 := numeric_update_exact db hwf username currency d2 b hb (j0 + j2)
    (by push_cast; rw [← hj0, ← hj2]; ring) hfit2
  have e12 := numeric_update_exact db hwf username currency (d1 + d2) b hb (j0 + j1 + j2)
    (by push_cast; rw [← hj0, ← hj1, ← hj2]; ring) (by rw [← add_assoc]; exact hfit)
  obtain ⟨dbA, hupA, hwfA, -, hbalA, -⟩ := update_read db hwf username currency d1 b hb
  obtain ⟨dbB, hupB, hwfB, -, hbalB, -⟩ := update_read db hwf username currency d2 b hb
  have hbA : balanceOf dbA username currency = some (b + d1) := by
    rw [hbalA]; simp
  have hbB : balanceOf dbB username currency = some (b + d2) := by
    rw [hbalB]; simp
  have eA := numeric_update_exact dbA hwfA username currency d2 (b + d1) hbA (j0 + j1 + j2)
    (by push_cast; rw [← hj0, ← hj1, ← hj2]; ring) hfit
  have eB := numeric_update_exact dbB hwfB username currency d1 (b + d2) hbB (j0 + j1 + j2)
    (by push_cast; rw [← hj0, ← hj1, ← hj2]; ring)
    (by rw [show b + d2 + d1 = b + d1 + d2 by ring]; exact hfit)
  have t12 := update_twice db username currency d1 d2 b uid hu hw
  have t21 := update_twice db username currency d2 d1 b uid hu hw
  rw [hupA] at t12
  rw [hupB] at t21
  refine ⟨?_, ?_, ?_, ?_, ?_⟩
  · rw [e1, hupA]
  · rw [e1, hupA, eA, e12, t12, update_ok username currency (d1 + d2) b db uid hu hw]
  · rw [e1, hupA, eA, e2, hupB, eB, t12, t21, add_comm d1 d2]
  · rw [e12]
    obtain ⟨dbC, hupC, -, -, hbalC, -⟩ :=
      update_read db hwf username currency (d1 + d2) b hb
    rw [hupC]
    show balanceOf dbC username currency = some (b + d1 + d2)
    rw [hbalC]; simp [add_assoc]
  · intro n a ha hfitn
    obtain ⟨k, hk⟩ := ha
    exact (numeric_repeated_balance username currency a k hk n db b j0 hwf hb hj0 hfitn).2

/-- Witness of the amended C29 on `testDB`: the deltas 25 and -10 on the 100 USD
of `testuser`, and three deposits of 20. -/
theorem UpdateUsersBalance_compose_witness :
    Machine.UpdateUsersBalance "testuser" "USD" (-10)
        (Machine.UpdateUsersBalance "testuser" "USD" 25 testDB).2 =
      Machine.UpdateUsersBalance "testuser" "USD" (25 + -10) testDB ∧
    balanceOf (Machine.UpdateUsersBalance "testuser" "USD" (25 + -10) testDB).2 "testuser"
      "USD" = some 115 ∧
    balanceOf (Machine.repeated "testuser" "USD" 20 3 testDB) "testuser" "USD" = some 160 := by
  obtain ⟨-, h2, -, h3, h4⟩ :=
    UpdateUsersBalance_compose testDB testDB_WF "testuser" "USD" 25 (-10) 100 testDB_USD
      ⟨10000000000, by norm_num⟩ ⟨2500000000, by norm_num⟩ ⟨-1000000000, by norm_num⟩
      (by norm_num [abs_lt]) (by norm_num [abs_lt]) (by norm_num [abs_lt])
  refine ⟨h2, ?_, ?_⟩
  · rw [h3]; norm_num
  · rw [h4 3 20 ⟨2000000000, by norm_num⟩ (by
      intro i hi
      have hi2 : (i : ℚ) ≤ 3 := by exact_mod_cast hi
      have hi0 : (0 : ℚ) ≤ i := by positivity
      rw [abs_lt]
      constructor <;> nlinarith)]
    norm_num

/-! ### The number of responses -/

/-- C30, at the failing inputs: for an empty request body (`io.EOF`) each of the
five handlers writes two JSON responses, `empty json` and then
`request contains wrong data`; and when the generation of the token fails,
`HandleLoginUser` writes the error and then the token response. -/
theorem two_responses_written :
    (HandleDeposit acceptAll storage Bind.eof "testuser" testDB).1 =
        [logError "empty json" 400, logError "request contains wrong data" 400] ∧
      (HandleWithdraw acceptAll storage Bind.eof "testuser" testDB).1 =
        [logError "empty json" 400, logError "request contains wrong data" 400] ∧
      (HandleExchange acceptAll (Except.ok testRates) storage Bind.eof "testuser" testDB).1 =
        [logError "empty json" 400, logError "request contains wrong data" 400] ∧
      (HandleRegisterUser tagHash mockUserRegisterer Bind.eof emailCheckFails).1 =
        [logError "empty json" 400, logError "request contains wrong data" 400] ∧
      (HandleLoginUser tagCompare signAll storageLogger Bind.eof loginDB).1 =
        [logError "empty json" 400, logError "request contains wrong data" 400] ∧
      (HandleLoginUser tagCompare signNone storageLogger
          (Bind.ok ⟨"testuser", "password123"⟩) loginDB).1 =
        [logError "could not create JWT token" 500, ⟨200, Body.token ""⟩] ∧
      (HandleLoginUser tagCompare signNone storageLogger
          (Bind.ok ⟨"testuser", "password123"⟩) loginDB).1.length = 2 := by
  refine ⟨rfl, rfl, rfl, rfl, rfl, ?_, ?_⟩
  · simp [HandleLoginUser, storageLogger, Storage.GetUsersPassHash, loginDB, VerifyPassword,
      tagCompare, tagHash, signNone]
  · simp [HandleLoginUser, storageLogger, Storage.GetUsersPassHash, loginDB, VerifyPassword,
      tagCompare, tagHash, signNone]

end Transferer
